import Mathlib

/-!
Service resolution of the build-deploy-tool

A shallow embedding of `src/internal/generator/services.go`
(`composeToServiceValues`, `getDBaasEnvironment`, `checkDuplicateCronjobs`,
`ContainsRegistry`, `generateServicesFromDockerCompose`) together with the
properties of the resolution engine that are proved about it.

Conventions of the embedding:

* a Go `string` is a `String`; a Go `map[string]T` is an association list
  that is read with `List.lookup`; a nil-able value is an `Option`;
* a Go `error` is an `Option String` holding the message (`none` is `nil`);
* a function that returns `(T, error)` returns a `Ret`, which also has a
  case for a run-time panic (an index out of range);
* the calls made on the `DBaaSClient` interface are recorded, in order, in a
  list of `DBaaSCall` that is returned next to the result;
* library and collaborator functions whose source is not part of the
  generator (crontab handling, hashing, regular expressions, the file
  system, environment substitution, the compose parser, the table of service
  types) are fields of `Externals`.
-/

namespace Generator

/-! ## Go standard library helpers -/

/-- Scanning loop of `strings.Split` for a non-empty separator: `skip` counts
the separator characters still to be stepped over, `cur` holds the current
field in reverse. -/
def splitGo (sep : List Char) : List Char → Nat → List Char → List (List Char)
  | [], _, cur => [cur.reverse]
  | _ :: cs, skip + 1, cur => splitGo sep cs skip cur
  | c :: cs, 0, cur =>
    if sep.isPrefixOf (c :: cs) then
      cur.reverse :: splitGo sep cs (sep.length - 1) []
    else
      splitGo sep cs 0 (c :: cur)

/-- Go `strings.Split(s, sep)`: the fields of `s` between the occurrences of
`sep`; with an empty separator the string is exploded into its characters. -/
def strings_Split (s sep : String) : List String :=
  if sep.data = [] then s.data.map (fun c => String.mk [c])
  else (splitGo sep.data s.data 0 []).map String.mk

/-- Go `strings.Count(s, sep)` for a one-character separator. -/
def strings_Count (s : String) (c : Char) : Nat :=
  s.data.count c

/-- Go `strings.Contains(s, sep)` for a one-character separator. -/
def strings_Contains (s : String) (c : Char) : Bool :=
  s.data.contains c

/-- Go `strconv.ParseBool`: the accepted spellings of the two booleans. -/
def strconv_ParseBool (s : String) : Option Bool :=
  if s = "1" ∨ s = "t" ∨ s = "T" ∨ s = "TRUE" ∨ s = "true" ∨ s = "True" then some true
  else if s = "0" ∨ s = "f" ∨ s = "F" ∨ s = "FALSE" ∨ s = "false" ∨ s = "False" then some false
  else none

/-- Value of a string of decimal digits, `none` when a character is not a
digit. -/
def parseDigits : List Char → Nat → Option Nat
  | [], acc => some acc
  | c :: cs, acc =>
    if c.isDigit then parseDigits cs (acc * 10 + (c.toNat - 48)) else none

/-- Go `strconv.Atoi` on a 64-bit platform: an optional sign and at least
one decimal digit, the value within the range of `int`. A failure gives the
reason that the Go error carries. -/
def strconv_Atoi (s : String) : Except String Int :=
  match s.data with
  | [] => .error "invalid syntax"
  | '-' :: ds =>
    if ds = [] then .error "invalid syntax"
    else match parseDigits ds 0 with
      | none => .error "invalid syntax"
      | some n => if n ≤ 2 ^ 63 then .ok (-(n : Int)) else .error "value out of range"
  | '+' :: ds =>
    if ds = [] then .error "invalid syntax"
    else match parseDigits ds 0 with
      | none => .error "invalid syntax"
      | some n => if n < 2 ^ 63 then .ok (n : Int) else .error "value out of range"
  | ds =>
    match parseDigits ds 0 with
    | none => .error "invalid syntax"
    | some n => if n < 2 ^ 63 then .ok (n : Int) else .error "value out of range"

/-- Go conversion `int32(n)` of a machine integer: the value modulo `2^32`,
read as a signed 32-bit number. -/
def toInt32 (n : Int) : Int :=
  (n + 2 ^ 31) % 2 ^ 32 - 2 ^ 31

/-- Go `helpers.Contains`: membership of a string in a slice. -/
def Contains (l : List String) (s : String) : Bool :=
  l.contains s

/-- Go `regexp.MustCompile("[^a-zA-Z0-9]+").ReplaceAllString(s, "-")` on the
characters of `s`: every maximal run of characters that are not ASCII letters
or digits becomes one hyphen. `inRun` tells that the previous character
belonged to such a run. -/
def replaceNonAlnumRuns : List Char → Bool → List Char
  | [], _ => []
  | c :: cs, inRun =>
    if c.isAlphanum then c :: replaceNonAlnumRuns cs false
    else if inRun then replaceNonAlnumRuns cs true
    else '-' :: replaceNonAlnumRuns cs true

/-! ## Static tables of `services.go` -/

/-- Table `oldServiceMap`: old service types and their new service types. -/
def oldServiceMap : List (String × String) :=
  [ ("mariadb-shared", "mariadb-dbaas"),
    ("postgres-shared", "postgres-dbaas"),
    ("mongo-shared", "mongodb-dbaas"),
    ("python-ckandatapusher", "python"),
    ("mongo", "mongodb") ]

/-- Table `supportedAutogeneratedTypes`: the types that support autogenerated
routes. -/
def supportedAutogeneratedTypes : List String :=
  [ "basic", "basic-persistent", "node", "node-persistent", "nginx", "nginx-php",
    "nginx-php-persistent", "varnish", "varnish-persistent", "python-persistent",
    "python" ]

/-- Table `ignoredImageTypes`: the service types that have no image. -/
def ignoredImageTypes : List String :=
  [ "mariadb-dbaas", "postgres-dbaas", "mongodb-dbaas" ]

/-- Table `supportedDBTypes`: the types that go through the DBaaS checks. -/
def supportedDBTypes : List String :=
  [ "mariadb", "mariadb-dbaas", "postgres", "postgres-dbaas", "mongodb",
    "mongodb-dbaas" ]

/-- Table `typesWithBackups`: the types whose resources require backups. -/
def typesWithBackups : List String :=
  [ "basic-persistent", "node-persistent", "nginx-php-persistent",
    "python-persistent", "varnish-persistent", "redis-persistent", "solr",
    "elasticsearch", "opensearch", "rabbitmq", "mongodb-dbaas", "mariadb-dbaas",
    "postgres-dbaas", "mariadb-single", "postgres-single", "mongodb-single" ]

/-! ## Data model -/

/-- Record `lagoon.EnvironmentVariable`: a scoped project or environment
variable. -/
structure EnvironmentVariable where
  Name : String := ""
  Value : String := ""
  Scope : String := ""
deriving DecidableEq, Repr

/-- Record `lagoon.Cronjob`: a scheduled job declared in the manifest. -/
structure Cronjob where
  Name : String := ""
  Service : String := ""
  Schedule : String := ""
  Command : String := ""
deriving DecidableEq, Repr

/-- Build part of a per-service manifest override. -/
structure OverrideBuild where
  Dockerfile : String := ""
  Context : String := ""
deriving DecidableEq, Repr

/-- Per-service manifest override (`Environments[..].Overrides[service]`). -/
structure Override where
  Build : OverrideBuild := {}
  Image : String := ""
deriving DecidableEq, Repr

/-- Per-environment block of the manifest, restricted to the fields that the
service resolution reads. A missing key of the `Environments` map reads as
the zero value `{}`. -/
structure Environment where
  AutogenerateRoutes : Option Bool := none
  Types : List (String × String) := []
  Cronjobs : List Cronjob := []
  Overrides : List (String × Override) := []
deriving DecidableEq, Repr

/-- Manifest block `routes.autogenerate`. -/
structure Autogenerate where
  Enabled : Option Bool := none
  AllowPullRequests : Option Bool := none
  TLSAcme : Option Bool := none
deriving DecidableEq, Repr

/-- Manifest block `routes`. -/
structure Routes where
  Autogenerate : Autogenerate := {}
deriving DecidableEq, Repr

/-- Record `lagoon.YAML`: the parsed deployment manifest. -/
structure YAML where
  DockerComposeYAML : String := ""
  Routes : Routes := {}
  Environments : List (String × Environment) := []
deriving DecidableEq, Repr

/-- Go map read `y.Environments[name]`: the zero value when the key is
missing. -/
def YAML.environment (y : YAML) (name : String) : Environment :=
  (y.Environments.lookup name).getD {}

/-- Go map read `e.Overrides[service]`: the zero value when the key is
missing. -/
def Environment.override (e : Environment) (service : String) : Override :=
  (e.Overrides.lookup service).getD {}

/-- Compose build spec (`composetypes.BuildConfig`). -/
structure BuildConfig where
  Context : String := ""
  Dockerfile : String := ""
  Target : String := ""
deriving DecidableEq, Repr

/-- Compose port declaration (`composetypes.ServicePortConfig`). -/
structure ServicePortConfig where
  Mode : String := ""
  Target : Nat := 0
  Published : String := ""
  Protocol : String := ""
deriving DecidableEq, Repr

/-- Compose service record (`composetypes.ServiceConfig`), restricted to the
fields that the service resolution reads; `Labels = none` is the nil map. -/
structure ServiceConfig where
  Name : String := ""
  Labels : Option (List (String × String)) := none
  Image : String := ""
  Build : Option BuildConfig := none
  Ports : List ServicePortConfig := []
deriving DecidableEq, Repr

/-- Entry of the compose declaration order returned by the compose parser. -/
structure OriginalServiceOrder where
  Name : String := ""
  Index : Nat := 0
deriving DecidableEq, Repr

/-- Image provenance record `ImageBuild`. -/
structure ImageBuild where
  TemporaryImage : String := ""
  Context : String := ""
  DockerFile : String := ""
  Target : String := ""
  BuildImage : String := ""
  PullImage : String := ""
  PromoteImage : String := ""
deriving DecidableEq, Repr

/-- Additional service port made from a compose port. -/
structure AdditionalServicePort where
  ServicePort : ServicePortConfig := {}
  ServiceName : String := ""
deriving DecidableEq, Repr

/-- Pod security context carried by the build values. -/
structure PodSecurityContext where
  FsGroup : Int := 0
  RunAsGroup : Int := 0
  RunAsUser : Int := 0
deriving DecidableEq, Repr

/-- Record `ServiceValues`: the resolved description of one service, with the
fields that `composeToServiceValues` sets. -/
structure ServiceValues where
  Name : String := ""
  OverrideName : String := ""
  Type_ : String := ""
  AutogeneratedRoutesEnabled : Bool := false
  AutogeneratedRoutesTLSAcme : Bool := false
  DBaaSEnvironment : String := ""
  PersistentVolumePath : String := ""
  PersistentVolumeName : String := ""
  PersistentVolumeSize : String := ""
  UseSpotInstances : Bool := false
  ForceSpotInstances : Bool := false
  CronjobUseSpotInstances : Bool := false
  CronjobForceSpotInstances : Bool := false
  Replicas : Int := 0
  InPodCronjobs : List Cronjob := []
  NativeCronjobs : List Cronjob := []
  PodSecurityContext : PodSecurityContext := {}
  IsDBaaS : Bool := false
  BackupsEnabled : Bool := false
  ImageBuild : Option ImageBuild := none
  ServicePort : Int := 0
  AdditionalServicePorts : List AdditionalServicePort := []
deriving DecidableEq, Repr

/-- Interface `DBaaSClient`: the health check of the provider endpoint and the
check that a provider exists for a type and an environment; an error is the
message, `none` is a nil error. -/
structure DBaaSClient where
  CheckHealth : String → Option String
  CheckProvider : String → String → String → Bool × Option String

/-- A call made on the `DBaaSClient`, with its arguments. -/
inductive DBaaSCall where
  | checkHealth (endpoint : String)
  | checkProvider (endpoint lagoonType environment : String)
deriving DecidableEq, Repr

/-- Entry of the container registry list. -/
structure ContainerRegistry where
  URL : String := ""
deriving DecidableEq, Repr

/-- Record `BuildValues`, restricted to the fields that the service resolution
reads or writes. -/
structure BuildValues where
  Project : String := ""
  Environment : String := ""
  EnvironmentType : String := ""
  Namespace : String := ""
  BuildType : String := ""
  Branch : String := ""
  PodSecurityContext : PodSecurityContext := {}
  EnvironmentVariables : List EnvironmentVariable := []
  LagoonYAML : YAML := {}
  Services : List ServiceValues := []
  BackupsEnabled : Bool := false
  DBaaSOperatorEndpoint : String := ""
  DBaaSClient : DBaaSClient
  ServiceTypeOverrides : Option EnvironmentVariable := none
  DBaaSEnvironmentTypeOverrides : Option EnvironmentVariable := none
  CronjobsDisabled : Bool := false
  ImageRegistry : String := ""
  PromotionSourceEnvironment : String := ""
  ImageCache : String := ""
  ContainerRegistry : List ContainerRegistry := []

/-- Default volume of a service type (`ServiceType.Volumes`). -/
structure ServiceVolume where
  PersistentVolumePath : String := ""
  PersistentVolumeSize : String := ""
deriving DecidableEq, Repr

/-- Collaborators of the generator whose source is outside
`services.go`: the feature flag reader, the crontab helpers, the hash and its
encoding, `strings.ToLower`, `envsubst.EvalEnv`, the file system check behind
`os.Stat`, `regexp.MatchString`, the table `servicetypes.ServiceTypes`,
`json.Marshal` on a list of cronjobs, `strconv.Quote` and the compose parser. -/
structure Externals where
  CheckFeatureFlag : String → List EnvironmentVariable → Bool → String
  IsInPodCronjob : String → Except String Bool
  ConvertCrontab : String → String → Except String String
  GetSha256Hash : String → List Nat
  GetBase32EncodedLowercase : List Nat → String
  ToLower : String → String
  EvalEnv : String → Except String String
  statNotExist : String → Bool
  MatchString : String → String → Bool
  ServiceTypes : String → Option ServiceVolume
  MarshalCronjobs : List Cronjob → String
  Quote : String → String
  UnmarshaDockerComposeYAML : String → Bool → Bool → List (String × String) →
    Except String (List ServiceConfig × List OriginalServiceOrder)

/-- Outcome of a Go function that returns a value and an error: the pair it
returns, or a run-time panic. -/
inductive Ret (α : Type) where
  | returned (val : α) (err : Option String)
  | panicked
deriving DecidableEq, Repr

/-- The value returned with a nil error, if the function returned so. -/
def Ret.value {α : Type} : Ret α → Option α
  | .returned val none => some val
  | _ => none

/-- The error returned, if the function returned one. -/
def Ret.error {α : Type} : Ret α → Option String
  | .returned _ (some err) => some err
  | _ => none

/-- Modelled from the spec: the label reader `lagoon.CheckServiceLagoonLabel`,
whose source is not part of the generator. It gives the value that the
per-service labels hold for a key, and the empty string when the labels are
nil or do not hold the key. -/
def CheckServiceLagoonLabel (labels : Option (List (String × String))) (label : String) :
    String :=
  match labels with
  | none => ""
  | some l => (l.lookup label).getD ""

/-! ## Loops of `composeToServiceValues` -/

/-- Loop of lines 278-283 (and of lines 647-652 in `getDBaasEnvironment`) over
the entries of a comma-separated `name:value` list: each entry is split at
the colons and, when its first field equals `lagoonOverrideName`, the
current value is replaced by its second field. Reading the second field of an
entry that has none is an index out of range, given as `none`. -/
def overridesLoop (lagoonOverrideName : String) : List String → String → Option String
  | [], cur => some cur
  | sType :: rest, cur =>
    match strings_Split sType ":" with
    | [] => none
    | first :: more =>
      if first = lagoonOverrideName then
        match more with
        | [] => none
        | second :: _ => overridesLoop lagoonOverrideName rest second
      else overridesLoop lagoonOverrideName rest cur

/-- Loop of lines 383-393 (and 395-405) over the entries of a spot types
list: a non-empty entry whose first field is the service type turns `use` on,
and `force` too when its second field is "force". Reading the second field of
an entry that has none is an index out of range, given as `none`. -/
def spotLoop (lagoonType : String) : List String → Bool × Bool → Option (Bool × Bool)
  | [], acc => some acc
  | t :: rest, (use, force) =>
    if t ≠ "" then
      match strings_Split t ":" with
      | [] => none
      | first :: more =>
        if first = lagoonType then
          match more with
          | [] => none
          | second :: _ =>
            spotLoop lagoonType rest (true, if second = "force" then true else force)
        else spotLoop lagoonType rest (use, force)
    else spotLoop lagoonType rest (use, force)

/-- Loop of lines 407-413: the replica count is 2 when the service type is one
of the listed types and the environment type is production. -/
def spotReplicasLoop (lagoonType environmentType : String) : List String → Int → Int
  | [], acc => acc
  | t :: rest, acc =>
    if t ≠ "" then
      if t = lagoonType ∧ environmentType = "production" then
        spotReplicasLoop lagoonType environmentType rest 2
      else spotReplicasLoop lagoonType environmentType rest acc
    else spotReplicasLoop lagoonType environmentType rest acc

/-- Loop of lines 240-246: whether a service that is already in
`buildValues.Services` has the override name. -/
def overrideNameExists (services : List ServiceValues) (lagoonOverrideName : String) : Bool :=
  services.any (fun service => service.OverrideName = lagoonOverrideName)

/-- Function `getDBaasEnvironment`: applies the `name:environment` overrides
of `DBaaSEnvironmentTypeOverrides` to the environment name and asks the
provider whether that environment exists. It gives the pair returned, the
environment name as it stands after the call (the Go code writes it through
a pointer) and the calls made on the client; `none` is a panic. -/
def getDBaasEnvironment (buildValues : BuildValues) (dbaasEnvironment : String)
    (lagoonOverrideName lagoonType : String) (_debug : Bool) :
    Option ((Bool × Option String) × String) × List DBaaSCall :=
  let overridden :=
    match buildValues.DBaaSEnvironmentTypeOverrides with
    | some v => overridesLoop lagoonOverrideName (strings_Split v.Value ",") dbaasEnvironment
    | none => some dbaasEnvironment
  match overridden with
  | none => (none, [])
  | some dbaasEnvironment =>
    let r := buildValues.DBaaSClient.CheckProvider buildValues.DBaaSOperatorEndpoint lagoonType
      dbaasEnvironment
    let calls := [DBaaSCall.checkProvider buildValues.DBaaSOperatorEndpoint lagoonType
      dbaasEnvironment]
    match r.2 with
    | some err =>
      (some ((r.1, some ("There was an error checking DBaaS endpoint " ++
        buildValues.DBaaSOperatorEndpoint ++ ": " ++ err)), dbaasEnvironment), calls)
    | none => (some ((r.1, none), dbaasEnvironment), calls)

/-- First loop of `checkDuplicateCronjobs` (lines 664-676): the entries whose
name was not seen before go to `unique`, the others to `duplicates`. -/
def splitDuplicates : List Cronjob → List Cronjob → List Cronjob → List Cronjob × List Cronjob
  | [], unique, duplicates => (unique, duplicates)
  | v :: rest, unique, duplicates =>
    if unique.any (fun u => v.Name = u.Name) then
      splitDuplicates rest unique (duplicates ++ [v])
    else
      splitDuplicates rest (unique ++ [v]) duplicates

/-- The slice `result` of `checkDuplicateCronjobs` (lines 677-686): the
duplicates, followed for each duplicate by the unique entries of its name. -/
def duplicateCronjobs (cronjobs : List Cronjob) : List Cronjob :=
  let (unique, duplicates) := splitDuplicates cronjobs [] []
  let uniqueDuplicates :=
    duplicates.flatMap (fun d => unique.filter (fun u => d.Name = u.Name))
  duplicates ++ uniqueDuplicates

/-- Function `checkDuplicateCronjobs`: an error that lists `result` when it is
not nil. The JSON text of the list is given by `marshal`. -/
def checkDuplicateCronjobs (marshal : List Cronjob → String) (cronjobs : List Cronjob) :
    Option String :=
  let result := duplicateCronjobs cronjobs
  if result ≠ [] then
    some ("duplicate named cronjobs detected: " ++ marshal result)
  else none

/-- Function `ContainsRegistry`: whether the URL of a registry, read as a
regular expression, matches the string. -/
def ContainsRegistry (matchString : String → String → Bool) (regex : List ContainerRegistry)
    (s : String) : Bool :=
  match regex with
  | [] => false
  | v :: rest => if matchString v.URL s then true else ContainsRegistry matchString rest s

/-- Name of a native cronjob (lines 440-445): the Kubernetes compliant form of
`cronjob-<override name>-<lowercased name>`, cut to 45 characters and completed
by 6 characters of its hash when it is longer than 52 characters. -/
def nativeCronjobName (x : Externals) (lagoonOverrideName name : String) : String :=
  let n := String.mk
    (replaceNonAlnumRuns ("cronjob-" ++ lagoonOverrideName ++ "-" ++ x.ToLower name).data false)
  if n.length > 52 then
    String.mk (n.data.take 45) ++ "-" ++
      String.mk ((x.GetBase32EncodedLowercase (x.GetSha256Hash n)).data.take 6)
  else n

/-- Loop of lines 424-449 over the cronjobs of the branch: the cronjobs of
this service are validated, their schedule converted, and they are appended
to the in-pod list or, renamed, to the native list. An invalid schedule ends
the resolution with an error. -/
def cronjobsLoop (x : Externals) (buildValues : BuildValues)
    (composeService lagoonOverrideName : String) :
    List Cronjob → List Cronjob → List Cronjob → Except String (List Cronjob × List Cronjob)
  | [], inpodcronjobs, nativecronjobs => .ok (inpodcronjobs, nativecronjobs)
  | cronjob :: rest, inpodcronjobs, nativecronjobs =>
    if cronjob.Service = composeService then
      match x.IsInPodCronjob cronjob.Schedule with
      | .error err =>
        .error ("Unable to validate crontab for cronjob " ++ cronjob.Name ++ ": " ++ err)
      | .ok inpod =>
        match x.ConvertCrontab buildValues.Namespace cronjob.Schedule with
        | .error err =>
          .error ("Unable to convert crontab for cronjob " ++ cronjob.Name ++ ": " ++ err)
        | .ok schedule =>
          if inpod then
            cronjobsLoop x buildValues composeService lagoonOverrideName rest
              (inpodcronjobs ++ [{ cronjob with Schedule := schedule }]) nativecronjobs
          else
            cronjobsLoop x buildValues composeService lagoonOverrideName rest inpodcronjobs
              (nativecronjobs ++ [{ cronjob with
                Schedule := schedule
                Name := nativeCronjobName x lagoonOverrideName cronjob.Name }])
    else
      cronjobsLoop x buildValues composeService lagoonOverrideName rest inpodcronjobs
        nativecronjobs

/-! ## `composeToServiceValues` -/

/-- Lines 494-578 of `composeToServiceValues`: the build or pull information
of a build that is not a promotion. The Dockerfile comes from the compose
build spec or from the manifest override; without one the image is pulled,
with one its existence is checked. -/
def imageBuildInformation (x : Externals) (buildValues : BuildValues) (composeService : String)
    (composeServiceValues : ServiceConfig) : Except String ImageBuild :=
  let imageBuild : ImageBuild := {}
  let imageBuild : ImageBuild :=
    match composeServiceValues.Build with
    | some build =>
      { imageBuild with
        DockerFile := build.Dockerfile
        Context := if build.Context = "" then "." else build.Context
        Target := build.Target }
    | none => imageBuild
  let override :=
    (buildValues.LagoonYAML.environment buildValues.Environment).override composeService
  let imageBuild : ImageBuild :=
    if override.Build.Dockerfile ≠ "" then
      { imageBuild with
        DockerFile := override.Build.Dockerfile
        Context := if imageBuild.Context = "" then "." else imageBuild.Context }
    else imageBuild
  if imageBuild.DockerFile = "" then
    if composeServiceValues.Image = "" then
      .error ("defined Dockerfile or Image for service " ++ composeService ++ " defined")
    else
      let pullImage := CheckServiceLagoonLabel composeServiceValues.Labels "lagoon.image"
      let pullImage := if override.Image ≠ "" then override.Image else pullImage
      let evaluated : Except String String :=
        if pullImage ≠ "" then
          match x.EvalEnv pullImage with
          | .error _ =>
            .error ("error evaluating override image " ++ pullImage ++ " with envsubst")
          | .ok evalImage => .ok evalImage
        else .ok composeServiceValues.Image
      match evaluated with
      | .error err => .error err
      | .ok pullImage =>
        let imageBuild : ImageBuild :=
          if ¬ strings_Contains pullImage '/' then
            { imageBuild with PullImage := "library/" ++ pullImage }
          else { imageBuild with PullImage := pullImage }
        let imageBuild : ImageBuild :=
          if ¬ ContainsRegistry x.MatchString buildValues.ContainerRegistry pullImage then
            if buildValues.ImageCache ≠ "" ∧ strings_Count pullImage '/' = 1 then
              { imageBuild with PullImage := buildValues.ImageCache ++ imageBuild.PullImage }
            else imageBuild
          else imageBuild
        .ok imageBuild
  else
    let imageBuild : ImageBuild :=
      { imageBuild with TemporaryImage := buildValues.Namespace ++ "-" ++ composeService }
    let imageBuild : ImageBuild :=
      if override.Build.Context ≠ "" then
        { imageBuild with Context := override.Build.Context }
      else imageBuild
    if x.statNotExist (imageBuild.Context ++ "/" ++ imageBuild.DockerFile) then
      .error ("defined Dockerfile " ++ (imageBuild.Context ++ "/" ++ imageBuild.DockerFile) ++
        " for service " ++ composeService ++ " not found")
    else .ok imageBuild

/-- Lines 488-609 of `composeToServiceValues`: the image provenance record of
a service whose type has an image. -/
def imageBuildOf (x : Externals) (buildValues : BuildValues) (composeService : String)
    (composeServiceValues : ServiceConfig) : Except String ImageBuild :=
  let built : Except String ImageBuild :=
    if buildValues.BuildType ≠ "promote" then
      imageBuildInformation x buildValues composeService composeServiceValues
    else .ok {}
  match built with
  | .error err => .error err
  | .ok imageBuild =>
    let imageBuild : ImageBuild :=
      { imageBuild with
        BuildImage := buildValues.ImageRegistry ++ "/" ++ buildValues.Project ++ "/" ++
          buildValues.Environment ++ "/" ++ composeService ++ ":" ++ "latest" }
    let imageBuild : ImageBuild :=
      if buildValues.BuildType = "promote" then
        { imageBuild with
          PromoteImage := buildValues.ImageRegistry ++ "/" ++ buildValues.Project ++ "/" ++
            buildValues.PromotionSourceEnvironment ++ "/" ++ composeService ++ ":" ++ "latest" }
      else imageBuild
    .ok imageBuild

/-- Lines 298-356 of `composeToServiceValues`, the DBaaS checks of a service
whose type is in `supportedDBTypes`: the type without its "-dbaas" part is
checked against the provider and becomes `<type>-dbaas` or `<type>-single`.
It gives the type, the DBaaS environment and `svcIsDBaaS`, with the calls made
on the client; `none` is a panic. -/
def dbaasChecks (buildValues : BuildValues) (composeServiceValues : ServiceConfig)
    (lagoonOverrideName lagoonType : String) (debug : Bool) :
    Option (String × String × Bool) × List DBaaSCall :=
  let dbaasEnvironment := buildValues.EnvironmentType
  let svcIsDBaaS := false
  if Contains supportedDBTypes lagoonType then
    match strings_Split lagoonType "-dbaas" with
    | [] => (none, [])
    | lagoonType :: _ =>
      let healthCall := [DBaaSCall.checkHealth buildValues.DBaaSOperatorEndpoint]
      match buildValues.DBaaSClient.CheckHealth buildValues.DBaaSOperatorEndpoint with
      | some _ => (some (lagoonType ++ "-single", dbaasEnvironment, svcIsDBaaS), healthCall)
      | none =>
        let dbaasLabelOverride := CheckServiceLagoonLabel composeServiceValues.Labels
          ("lagoon." ++ lagoonType ++ "-dbaas.environment")
        let dbaasEnvironment :=
          if dbaasLabelOverride ≠ "" then dbaasLabelOverride else dbaasEnvironment
        match getDBaasEnvironment buildValues dbaasEnvironment lagoonOverrideName lagoonType
            debug with
        | (none, calls) => (none, healthCall ++ calls)
        | (some ((exists_, _), dbaasEnvironment), calls) =>
          if exists_ then
            (some (lagoonType ++ "-dbaas", dbaasEnvironment, true), healthCall ++ calls)
          else
            (some (lagoonType ++ "-single", dbaasEnvironment, svcIsDBaaS), healthCall ++ calls)
  else (some (lagoonType, dbaasEnvironment, svcIsDBaaS), [])

/-- Lines 611-632 of `composeToServiceValues`: the service port override,
which has to be an integer, and the additional ports made from the compose
ports when `lagoon.service.usecomposeports` is "true". -/
def servicePorts (x : Externals) (composeService : String) (composeServiceValues : ServiceConfig)
    (cService : ServiceValues) : Ret ServiceValues :=
  let servicePortOverride :=
    CheckServiceLagoonLabel composeServiceValues.Labels "lagoon.service.port"
  let converted : Except String ServiceValues :=
    if servicePortOverride ≠ "" then
      match strconv_Atoi servicePortOverride with
      | .error reason =>
        .error ("The provided service port " ++ servicePortOverride ++ " for service " ++
          composeService ++ " is not a valid integer: strconv.Atoi: parsing " ++
          x.Quote servicePortOverride ++ ": " ++ reason)
      | .ok sPort => .ok { cService with ServicePort := toInt32 sPort }
    else .ok cService
  match converted with
  | .error err => .returned {} (some err)
  | .ok cService =>
    let useComposeServices :=
      CheckServiceLagoonLabel composeServiceValues.Labels "lagoon.service.usecomposeports"
    if useComposeServices = "true" then
      .returned
        { cService with
          AdditionalServicePorts := cService.AdditionalServicePorts ++
            composeServiceValues.Ports.map (fun compPort =>
              { ServicePort := compPort
                ServiceName := composeService ++ "-" ++ toString compPort.Target }) }
        none
    else .returned cService none

/-- Lines 358-633 of `composeToServiceValues`, the processing that follows
the determination of the service type: spot instances, cronjobs, the final
autogenerated route flags, backups, the image provenance and the ports. -/
def serviceValuesOfType (x : Externals) (buildValues : BuildValues) (composeService : String)
    (composeServiceValues : ServiceConfig) (debug : Bool)
    (lagoonOverrideName lagoonType dbaasEnvironment : String) (svcIsDBaaS : Bool)
    (autogenEnabled autogenTLSAcmeEnabled : Bool)
    (servicePersistentPath servicePersistentName servicePersistentSize : String) :
    Ret ServiceValues :=
  let spotReplicaTypes := "nginx,nginx-persistent,nginx-php,nginx-php-persistent"
  let productionSpot :=
    x.CheckFeatureFlag "SPOT_INSTANCE_PRODUCTION" buildValues.EnvironmentVariables debug
  let developmentSpot :=
    x.CheckFeatureFlag "SPOT_INSTANCE_DEVELOPMENT" buildValues.EnvironmentVariables debug
  let spotTypes := ""
  let cronjobSpotTypes := ""
  let (spotTypes, cronjobSpotTypes) :=
    if productionSpot = "enabled" ∧ buildValues.EnvironmentType = "production" then
      (x.CheckFeatureFlag "SPOT_INSTANCE_PRODUCTION_TYPES" buildValues.EnvironmentVariables debug,
       x.CheckFeatureFlag "SPOT_INSTANCE_PRODUCTION_CRONJOB_TYPES"
         buildValues.EnvironmentVariables debug)
    else (spotTypes, cronjobSpotTypes)
  let (spotTypes, cronjobSpotTypes) :=
    if developmentSpot = "enabled" ∧ buildValues.EnvironmentType = "development" then
      (x.CheckFeatureFlag "SPOT_INSTANCE_DEVELOPMENT_TYPES" buildValues.EnvironmentVariables debug,
       x.CheckFeatureFlag "SPOT_INSTANCE_DEVELOPMENT_CRONJOB_TYPES"
         buildValues.EnvironmentVariables debug)
    else (spotTypes, cronjobSpotTypes)
  match spotLoop lagoonType (strings_Split spotTypes ",") (false, false) with
  | none => .panicked
  | some (useSpot, forceSpot) =>
    match spotLoop lagoonType (strings_Split cronjobSpotTypes ",") (false, false) with
    | none => .panicked
    | some (cronjobUseSpot, cronjobForceSpot) =>
      let spotReplicas := spotReplicasLoop lagoonType buildValues.EnvironmentType
        (strings_Split spotReplicaTypes ",") 0
      let cronjobs := (buildValues.LagoonYAML.environment buildValues.Branch).Cronjobs
      match checkDuplicateCronjobs x.MarshalCronjobs cronjobs with
      | some err => .returned {} (some err)
      | none =>
        let worked : Except String (List Cronjob × List Cronjob) :=
          if ¬ buildValues.CronjobsDisabled then
            cronjobsLoop x buildValues composeService lagoonOverrideName cronjobs [] []
          else .ok ([], [])
        match worked with
        | .error err => .returned {} (some err)
        | .ok (inpodcronjobs, nativecronjobs) =>
          let (autogenEnabled, autogenTLSAcmeEnabled) :=
            if ¬ Contains supportedAutogeneratedTypes lagoonType then (false, false)
            else (autogenEnabled, autogenTLSAcmeEnabled)
          let backupsEnabled := if Contains typesWithBackups lagoonType then true else false
          let cService : ServiceValues :=
            { Name := composeService
              OverrideName := lagoonOverrideName
              Type_ := lagoonType
              AutogeneratedRoutesEnabled := autogenEnabled
              AutogeneratedRoutesTLSAcme := autogenTLSAcmeEnabled
              DBaaSEnvironment := dbaasEnvironment
              PersistentVolumePath := servicePersistentPath
              PersistentVolumeName := servicePersistentName
              PersistentVolumeSize := servicePersistentSize
              UseSpotInstances := useSpot
              ForceSpotInstances := forceSpot
              CronjobUseSpotInstances := cronjobUseSpot
              CronjobForceSpotInstances := cronjobForceSpot
              Replicas := spotReplicas
              InPodCronjobs := inpodcronjobs
              NativeCronjobs := nativecronjobs
              PodSecurityContext := buildValues.PodSecurityContext
              IsDBaaS := svcIsDBaaS
              BackupsEnabled := backupsEnabled }
          let withImage : Except String ServiceValues :=
            if ¬ Contains ignoredImageTypes lagoonType then
              match imageBuildOf x buildValues composeService composeServiceValues with
              | .error err => .error err
              | .ok imageBuild => .ok { cService with ImageBuild := some imageBuild }
            else .ok cService
          match withImage with
          | .error err => .returned {} (some err)
          | .ok cService => servicePorts x composeService composeServiceValues cService

/-- Lines 176-199: the autogenerated routes flag given by the manifest, from
the global flag, the pull request flag and the flag of the branch. -/
def manifestAutogenEnabled (buildValues : BuildValues) : Bool :=
  let autogenEnabled := true
  let autogenEnabled :=
    match buildValues.LagoonYAML.Routes.Autogenerate.Enabled with
    | some v => if v = false then false else autogenEnabled
    | none => autogenEnabled
  let autogenEnabled :=
    if buildValues.BuildType = "pullrequest" then
      match buildValues.LagoonYAML.Routes.Autogenerate.AllowPullRequests with
      | some v => if v = false then false else true
      | none => autogenEnabled
    else autogenEnabled
  let autogenEnabled :=
    match (buildValues.LagoonYAML.environment buildValues.Branch).AutogenerateRoutes with
    | some v => if v = false then false else true
    | none => autogenEnabled
  autogenEnabled

/-- Lines 200-205: the tls-acme flag given by the manifest. -/
def manifestAutogenTLSAcmeEnabled (buildValues : BuildValues) : Bool :=
  let autogenTLSAcmeEnabled := true
  match buildValues.LagoonYAML.Routes.Autogenerate.TLSAcme with
  | some v => if v = false then false else autogenTLSAcmeEnabled
  | none => autogenTLSAcmeEnabled

/-- Lines 211-219 and 221-229: a label that holds a boolean replaces the
flag; an empty label or one that does not parse leaves it. -/
def labelOverride (labelValue : String) (flag : Bool) : Bool :=
  if labelValue ≠ "" then
    match strconv_ParseBool labelValue with
    | some vBool => vBool
    | none => flag
  else flag

/-- Lines 206-209: the type of the service after the manifest override
`Environments[Environment].Types[service]`. -/
def manifestType (buildValues : BuildValues) (composeService lagoonType : String) : String :=
  match (buildValues.LagoonYAML.environment buildValues.Environment).Types.lookup
      composeService with
  | some value => value
  | none => lagoonType

/-- Lines 274-290: the type of the service after the overrides of
`ServiceTypeOverrides` (the variable `LAGOON_SERVICE_TYPES`) and the
conversion of the old service types; `none` is a panic. -/
def overriddenType (buildValues : BuildValues) (lagoonOverrideName lagoonType : String) :
    Option String :=
  let overridden : Option String :=
    match buildValues.ServiceTypeOverrides with
    | some v => overridesLoop lagoonOverrideName (strings_Split v.Value ",") lagoonType
    | none => some lagoonType
  match overridden with
  | none => none
  | some lagoonType =>
    match oldServiceMap.lookup lagoonType with
    | some val => some val
    | none => some lagoonType

/-- Function `composeToServiceValues`: converts one compose service into its
`ServiceValues`. It gives the pair returned by the Go function (or a
panic) and the calls made on the DBaaS client. -/
def composeToServiceValues (x : Externals) (buildValues : BuildValues) (composeService : String)
    (composeServiceValues : ServiceConfig) (debug : Bool) :
    Ret ServiceValues × List DBaaSCall :=
  let lagoonType := ""
  let lagoonType :=
    if composeServiceValues.Labels ≠ none then
      CheckServiceLagoonLabel composeServiceValues.Labels "lagoon.type"
    else lagoonType
  if lagoonType = "" then
    (.returned {} (some ("No lagoon.type has been set for service " ++ composeService ++
      ". If a Lagoon service is not required, please set the lagoon.type to \x27none\x27 for this" ++
      " service in docker-compose.yaml. See the Lagoon documentation for supported service" ++
      " types.")), [])
  else
    let autogenEnabled := manifestAutogenEnabled buildValues
    let autogenTLSAcmeEnabled := manifestAutogenTLSAcmeEnabled buildValues
    let lagoonType := manifestType buildValues composeService lagoonType
    let serviceAutogenerated :=
      CheckServiceLagoonLabel composeServiceValues.Labels "lagoon.autogeneratedroute"
    let autogenEnabled := labelOverride serviceAutogenerated autogenEnabled
    let serviceAutogeneratedTLSAcme :=
      CheckServiceLagoonLabel composeServiceValues.Labels "lagoon.autogeneratedroute.tls-acme"
    let autogenTLSAcmeEnabled := labelOverride serviceAutogeneratedTLSAcme autogenTLSAcmeEnabled
    let lagoonOverrideName := CheckServiceLagoonLabel composeServiceValues.Labels "lagoon.name"
    let (lagoonOverrideName, autogenEnabled) :=
      if lagoonOverrideName ≠ "" then
        (lagoonOverrideName,
          if overrideNameExists buildValues.Services lagoonOverrideName then false
          else autogenEnabled)
      else (composeService, autogenEnabled)
    let servicePersistentPath :=
      CheckServiceLagoonLabel composeServiceValues.Labels "lagoon.persistent"
    let servicePersistentPath :=
      if servicePersistentPath = "" then
        match x.ServiceTypes lagoonType with
        | some val => val.PersistentVolumePath
        | none => servicePersistentPath
      else servicePersistentPath
    let servicePersistentName :=
      CheckServiceLagoonLabel composeServiceValues.Labels "lagoon.persistent.name"
    let servicePersistentName :=
      if servicePersistentName = "" ∧ servicePersistentPath ≠ "" then lagoonOverrideName
      else servicePersistentName
    let servicePersistentSize :=
      CheckServiceLagoonLabel composeServiceValues.Labels "lagoon.persistent.size"
    let servicePersistentSize :=
      if servicePersistentSize = "" then
        match x.ServiceTypes lagoonType with
        | some val => val.PersistentVolumeSize
        | none => servicePersistentSize
      else servicePersistentSize
    match overriddenType buildValues lagoonOverrideName lagoonType with
    | none => (.panicked, [])
    | some lagoonType =>
      if lagoonType = "none" then
        (.returned {} none, [])
      else
        match dbaasChecks buildValues composeServiceValues lagoonOverrideName lagoonType
            debug with
        | (none, calls) => (.panicked, calls)
        | (some (lagoonType, dbaasEnvironment, svcIsDBaaS), calls) =>
          (serviceValuesOfType x buildValues composeService composeServiceValues debug
            lagoonOverrideName lagoonType dbaasEnvironment svcIsDBaaS autogenEnabled
            autogenTLSAcmeEnabled servicePersistentPath servicePersistentName
            servicePersistentSize, calls)

/-- The override name that `composeToServiceValues` resolves for a service
(lines 236-250): the `lagoon.name` label, or the name of the service when
the label is empty. -/
def overrideNameOf (composeService : String) (composeServiceValues : ServiceConfig) : String :=
  if CheckServiceLagoonLabel composeServiceValues.Labels "lagoon.name" ≠ "" then
    CheckServiceLagoonLabel composeServiceValues.Labels "lagoon.name"
  else composeService

/-- The value that the variable `lagoonType` of `composeToServiceValues` holds
at the check of line 293 for a service that has a `lagoon.type` label: the
label, then the manifest override, then the overrides of
`ServiceTypeOverrides` and the conversion of the old service types; `none`
is a panic. -/
def typeAtNoneCheck (buildValues : BuildValues) (composeService : String)
    (composeServiceValues : ServiceConfig) : Option String :=
  overriddenType buildValues (overrideNameOf composeService composeServiceValues)
    (manifestType buildValues composeService
      (CheckServiceLagoonLabel composeServiceValues.Labels "lagoon.type"))

/-- The value that the variable `servicePersistentPath` of
`composeToServiceValues` holds after lines 252-259: the `lagoon.persistent`
label, or the default path of the type that the service has at that point
(the label type after the manifest override). -/
def persistentPathOf (x : Externals) (buildValues : BuildValues) (composeService : String)
    (composeServiceValues : ServiceConfig) : String :=
  if CheckServiceLagoonLabel composeServiceValues.Labels "lagoon.persistent" = "" then
    match x.ServiceTypes (manifestType buildValues composeService
        (CheckServiceLagoonLabel composeServiceValues.Labels "lagoon.type")) with
    | some val => val.PersistentVolumePath
    | none => CheckServiceLagoonLabel composeServiceValues.Labels "lagoon.persistent"
  else CheckServiceLagoonLabel composeServiceValues.Labels "lagoon.persistent"

/-- The value that the variable `servicePersistentName` of
`composeToServiceValues` holds after lines 260-265. -/
def persistentNameOf (x : Externals) (buildValues : BuildValues) (composeService : String)
    (composeServiceValues : ServiceConfig) : String :=
  if CheckServiceLagoonLabel composeServiceValues.Labels "lagoon.persistent.name" = "" ∧
      persistentPathOf x buildValues composeService composeServiceValues ≠ "" then
    overrideNameOf composeService composeServiceValues
  else CheckServiceLagoonLabel composeServiceValues.Labels "lagoon.persistent.name"

/-- The value that the variable `servicePersistentSize` of
`composeToServiceValues` holds after lines 266-272. -/
def persistentSizeOf (x : Externals) (buildValues : BuildValues) (composeService : String)
    (composeServiceValues : ServiceConfig) : String :=
  if CheckServiceLagoonLabel composeServiceValues.Labels "lagoon.persistent.size" = "" then
    match x.ServiceTypes (manifestType buildValues composeService
        (CheckServiceLagoonLabel composeServiceValues.Labels "lagoon.type")) with
    | some val => val.PersistentVolumeSize
    | none => CheckServiceLagoonLabel composeServiceValues.Labels "lagoon.persistent.size"
  else CheckServiceLagoonLabel composeServiceValues.Labels "lagoon.persistent.size"

/-- The value that the variable `autogenEnabled` of `composeToServiceValues`
holds after line 250: the flag of the manifest, replaced by the
`lagoon.autogeneratedroute` label, and turned off when the `lagoon.name`
label is the override name of a service that exists already. -/
def autogenEnabledOf (buildValues : BuildValues) (composeServiceValues : ServiceConfig) : Bool :=
  if CheckServiceLagoonLabel composeServiceValues.Labels "lagoon.name" ≠ "" ∧
      overrideNameExists buildValues.Services
        (CheckServiceLagoonLabel composeServiceValues.Labels "lagoon.name") = true then
    false
  else
    labelOverride (CheckServiceLagoonLabel composeServiceValues.Labels "lagoon.autogeneratedroute")
      (manifestAutogenEnabled buildValues)

/-- The value that the variable `autogenTLSAcmeEnabled` of
`composeToServiceValues` holds after line 229. -/
def autogenTLSAcmeEnabledOf (buildValues : BuildValues) (composeServiceValues : ServiceConfig) :
    Bool :=
  labelOverride
    (CheckServiceLagoonLabel composeServiceValues.Labels "lagoon.autogeneratedroute.tls-acme")
    (manifestAutogenTLSAcmeEnabled buildValues)

/-- The part of `composeToServiceValues` that follows the check of line 293,
for the type held there: the DBaaS checks and the processing of the type
that they give. -/
def resolveWithType (x : Externals) (buildValues : BuildValues) (composeService : String)
    (composeServiceValues : ServiceConfig) (debug : Bool) (lagoonType : String) :
    Ret ServiceValues × List DBaaSCall :=
  match dbaasChecks buildValues composeServiceValues
      (overrideNameOf composeService composeServiceValues) lagoonType debug with
  | (none, calls) => (.panicked, calls)
  | (some (lagoonType, dbaasEnvironment, svcIsDBaaS), calls) =>
    (serviceValuesOfType x buildValues composeService composeServiceValues debug
      (overrideNameOf composeService composeServiceValues) lagoonType dbaasEnvironment
      svcIsDBaaS (autogenEnabledOf buildValues composeServiceValues)
      (autogenTLSAcmeEnabledOf buildValues composeServiceValues)
      (persistentPathOf x buildValues composeService composeServiceValues)
      (persistentNameOf x buildValues composeService composeServiceValues)
      (persistentSizeOf x buildValues composeService composeServiceValues), calls)

/-! ## `generateServicesFromDockerCompose` -/

/-- Go map write `m[k] = v` on an association list. -/
def mapSet (m : List (String × String)) (k v : String) : List (String × String) :=
  (k, v) :: m.filter (fun kv => kv.1 ≠ k)

/-- Lines 124-127: the map of the Lagoon variables given to the compose
parser. -/
def composeVarsOf (envvars : List EnvironmentVariable) : List (String × String) :=
  envvars.foldl (fun composeVars envvar => mapSet composeVars envvar.Name envvar.Value) []

/-- Lines 147-150: a resolved service turns `BackupsEnabled` on when it has
backups, and is appended to `buildValues.Services`. -/
def appendService (buildValues : BuildValues) (cService : ServiceValues) : BuildValues :=
  let buildValues : BuildValues :=
    if cService.BackupsEnabled then { buildValues with BackupsEnabled := true }
    else buildValues
  { buildValues with Services := buildValues.Services ++ [cService] }

/-- Inner loop of lines 141-152 over the parsed compose services: each one
named like the entry of the declaration order is resolved and appended to
`buildValues.Services`. An error or a panic ends the whole function, which is
the `.error` case: it carries what the function returns then (the build
values as they stand, since they are written through a pointer). -/
def composeServicesLoop (x : Externals) (debug : Bool) (serviceName : String) :
    List ServiceConfig → BuildValues → List DBaaSCall →
    Except (Ret BuildValues × List DBaaSCall) (BuildValues × List DBaaSCall)
  | [], buildValues, calls => .ok (buildValues, calls)
  | composeServiceValues :: rest, buildValues, calls =>
    if serviceName = composeServiceValues.Name then
      match composeToServiceValues x buildValues composeServiceValues.Name
          composeServiceValues debug with
      | (.panicked, made) => .error (.panicked, calls ++ made)
      | (.returned _ (some err), made) =>
        .error (.returned buildValues (some err), calls ++ made)
      | (.returned cService none, made) =>
        composeServicesLoop x debug serviceName rest (appendService buildValues cService)
          (calls ++ made)
    else composeServicesLoop x debug serviceName rest buildValues calls

/-- Outer loop of lines 140-153 over the declaration order of the compose
file. -/
def composeOrderLoop (x : Externals) (debug : Bool) (services : List ServiceConfig) :
    List OriginalServiceOrder → BuildValues → List DBaaSCall →
    Except (Ret BuildValues × List DBaaSCall) (BuildValues × List DBaaSCall)
  | [], buildValues, calls => .ok (buildValues, calls)
  | service :: rest, buildValues, calls =>
    match composeServicesLoop x debug service.Name services buildValues calls with
    | .error r => .error r
    | .ok (buildValues, calls) => composeOrderLoop x debug services rest buildValues calls

/-- Function `generateServicesFromDockerCompose`: parses the compose file and
resolves its services in their declaration order. It gives the error
returned together with the build values as the function leaves them (or a
panic) and the calls made on the DBaaS client. -/
def generateServicesFromDockerCompose (x : Externals) (buildValues : BuildValues)
    (ignoreNonStringKeyErrors ignoreMissingEnvFiles debug : Bool) :
    Ret BuildValues × List DBaaSCall :=
  let composeVars := composeVarsOf buildValues.EnvironmentVariables
  let buildValues : BuildValues := { buildValues with Services := [] }
  match x.UnmarshaDockerComposeYAML buildValues.LagoonYAML.DockerComposeYAML
      ignoreNonStringKeyErrors ignoreMissingEnvFiles composeVars with
  | .error err => (.returned buildValues (some err), [])
  | .ok (lCompose, lComposeOrder) =>
    match composeOrderLoop x debug lCompose lComposeOrder buildValues [] with
    | .error r => r
    | .ok (buildValues, calls) => (.returned buildValues none, calls)

/-- Modelled from the spec: the function `helpers.AppendIfMissing`, whose
source is not part of the generator. It appends a string to a slice that does
not hold it, and gives the slice back when it does. -/
def helpers_AppendIfMissing (slice : List String) (i : String) : List String :=
  if slice.any (fun ele => ele = i) then slice else slice ++ [i]

/-- Record `identifyServices` of `cmd/identify_services.go`. -/
structure identifyServices where
  Name : String := ""
  Type_ : String := ""
deriving DecidableEq, Repr

/-- Function `AppendIfMissing` of `cmd/identify_services.go`: appends the
record unless the slice holds a record of its name. -/
def AppendIfMissing (slice : List identifyServices) (i : identifyServices) :
    List identifyServices :=
  if slice.any (fun ele => ele.Name = i.Name) then slice else slice ++ [i]

/-- Function `IdentifyServices` of `cmd/identify_services.go`, on the services
of the generated build values (lines 46-57): the override names and the name
and type records of the services that have a type, each without repetition of
a name. -/
def IdentifyServices (services : List ServiceValues) :
    List String × List identifyServices :=
  services.foldl
    (fun acc service =>
      if service.Type_ ≠ "" then
        (helpers_AppendIfMissing acc.1 service.OverrideName,
         AppendIfMissing acc.2 { Name := service.OverrideName, Type_ := service.Type_ })
      else acc)
    ([], [])

/-! ## Statements of the specification

Definitions that follow the words of the specification, to be compared with
the definitions above. -/

/-- The types that the entries `name:type` of a comma-separated override list
give for a name, in the order of the list. -/
def specMatchingValues (list name : String) : List String :=
  (strings_Split list ",").filterMap (fun entry =>
    match strings_Split entry ":" with
    | first :: second :: _ => if first = name then some second else none
    | _ => none)

/-- Every entry of a comma-separated override list whose name is `name` has a
value after its colon. -/
def specEntriesHaveValue (list name : String) : Bool :=
  (strings_Split list ",").all (fun entry =>
    match strings_Split entry ":" with
    | [first] => first ≠ name
    | _ => true)

/-- Type resolution as the specification words it, by four layers of which
each later one wins: the `lagoon.type` label, the manifest entry
`Environments[Environment].Types[service]`, the last entry of
`ServiceTypeOverrides` for the resolved override name, and the table of the
old service types. -/
def specResolvedType (buildValues : BuildValues) (composeService : String)
    (composeServiceValues : ServiceConfig) : String :=
  let fromLabel := CheckServiceLagoonLabel composeServiceValues.Labels "lagoon.type"
  let fromManifest :=
    ((buildValues.LagoonYAML.environment buildValues.Environment).Types.lookup
      composeService).getD fromLabel
  let fromOverrides :=
    match buildValues.ServiceTypeOverrides with
    | some v =>
      ((specMatchingValues v.Value
        (overrideNameOf composeService composeServiceValues)).getLast?).getD fromManifest
    | none => fromManifest
  (oldServiceMap.lookup fromOverrides).getD fromOverrides

/-! ## Example inputs -/

/-- A DBaaS client whose provider endpoint is unreachable. -/
def unreachableClient : DBaaSClient where
  CheckHealth := fun _ => some "unreachable"
  CheckProvider := fun _ _ _ => (false, none)

/-- Collaborators for the examples: no feature flags, native cronjobs whose
schedule is kept, ASCII lowercasing, every file present, no registry match, no
default volumes, and a compose parser that gives `compose` in its order. -/
def exampleExternals (compose : List ServiceConfig) : Externals where
  CheckFeatureFlag := fun _ _ _ => ""
  IsInPodCronjob := fun _ => .ok false
  ConvertCrontab := fun _ schedule => .ok schedule
  GetSha256Hash := fun _ => []
  GetBase32EncodedLowercase := fun _ => ""
  ToLower := fun s => String.mk (s.data.map Char.toLower)
  EvalEnv := fun s => .ok s
  statNotExist := fun _ => false
  MatchString := fun _ _ => false
  ServiceTypes := fun _ => none
  MarshalCronjobs := fun _ => ""
  Quote := fun s => s
  UnmarshaDockerComposeYAML := fun _ _ _ _ =>
    .ok (compose, compose.map (fun service => { Name := service.Name }))

/-- Build values of a branch build with an empty manifest. -/
def exampleBuildValues : BuildValues :=
  { Project := "example-project", Environment := "main", Branch := "main",
    EnvironmentType := "production", BuildType := "branch", DBaaSClient := unreachableClient }

/-- A compose service without labels. -/
def unlabelledService : ServiceConfig :=
  { Name := "cli", Image := "alpine" }

/-- A compose service labelled as a node service. -/
def nodeService : ServiceConfig :=
  { Name := "node", Labels := some [("lagoon.type", "node")], Image := "alpine" }

/-- A value of the variable `LAGOON_SERVICE_TYPES`. -/
def exampleServiceTypes : EnvironmentVariable :=
  { Name := "LAGOON_SERVICE_TYPES", Value := "node:basic,redis:none,node:mongo" }

/-- Build values whose manifest and `LAGOON_SERVICE_TYPES` both override the
type of the service `node`. -/
def overriddenBuildValues : BuildValues :=
  { exampleBuildValues with
    LagoonYAML := { Environments := [("main", { Types := [("node", "nginx")] })] }
    ServiceTypeOverrides := some exampleServiceTypes }

/-- A compose service labelled as a redis service, without an image and with
a service port that is not a number. -/
def brokenRedisService : ServiceConfig :=
  { Name := "redis", Labels := some [("lagoon.type", "redis"), ("lagoon.service.port", "abc")] }

/-- Build values whose `LAGOON_SERVICE_TYPES` turns the service `redis` into
"none", and whose manifest declares two cronjobs of the same name. -/
def redisNoneBuildValues : BuildValues :=
  { exampleBuildValues with
    LagoonYAML :=
      { Environments := [("main", { Cronjobs :=
          [ { Name := "cron", Service := "redis", Schedule := "* * * * *", Command := "a" },
            { Name := "cron", Service := "redis", Schedule := "* * * * *", Command := "b" } ] })] }
    ServiceTypeOverrides := some { Name := "LAGOON_SERVICE_TYPES", Value := "redis:none" } }

/-- Autogenerated route eligibility as the specification words it: true at
the start, false if the global flag is set and false, then the pull request
flag if it is set and the build is a pull request, then the flag of the
branch if it is set, then the `lagoon.autogeneratedroute` label if it parses
as a boolean. -/
def specAutogenEnabled (buildValues : BuildValues) (composeServiceValues : ServiceConfig) :
    Bool :=
  let start := true
  let afterGlobal :=
    if buildValues.LagoonYAML.Routes.Autogenerate.Enabled = some false then false else start
  let afterPullRequest :=
    if buildValues.BuildType = "pullrequest" then
      (buildValues.LagoonYAML.Routes.Autogenerate.AllowPullRequests).getD afterGlobal
    else afterGlobal
  let afterBranch :=
    ((buildValues.LagoonYAML.environment buildValues.Branch).AutogenerateRoutes).getD
      afterPullRequest
  (strconv_ParseBool
    (CheckServiceLagoonLabel composeServiceValues.Labels "lagoon.autogeneratedroute")).getD
    afterBranch

/-- TLS-acme eligibility as the specification words it, from the global
tls-acme flag and the value of the `lagoon.autogeneratedroute.tls-acme` label
only: true by default, false if the flag is set and false, replaced by the
label when it parses as a boolean. -/
def specAutogenTLSAcme (tlsAcmeFlag : Option Bool) (tlsAcmeLabel : String) : Bool :=
  (strconv_ParseBool tlsAcmeLabel).getD (if tlsAcmeFlag = some false then false else true)

/-- A node service that sets both route labels. -/
def labelledNodeService : ServiceConfig :=
  { Name := "node", Image := "alpine"
    Labels := some [("lagoon.type", "node"), ("lagoon.autogeneratedroute", "true"),
      ("lagoon.autogeneratedroute.tls-acme", "false")] }

/-- Build values of a pull request build whose manifest turns autogenerated
routes off globally and for pull requests, and on for the branch. -/
def routeFlagsBuildValues : BuildValues :=
  { exampleBuildValues with
    BuildType := "pullrequest"
    LagoonYAML :=
      { Routes := { Autogenerate :=
          { Enabled := some false, AllowPullRequests := some false, TLSAcme := some true } }
        Environments := [("main", { AutogenerateRoutes := some false })] } }

/-- A compose service labelled as a mariadb service. -/
def mariadbService : ServiceConfig :=
  { Name := "mariadb", Labels := some [("lagoon.type", "mariadb")], Image := "uselagoon/mariadb" }

/-- The descriptor that `composeToServiceValues` gives for a service, when it
returns one without an error. -/
def resolved (x : Externals) (buildValues : BuildValues) (composeServiceValues : ServiceConfig) :
    Option ServiceValues :=
  (composeToServiceValues x buildValues composeServiceValues.Name composeServiceValues
    false).1.value

/-- The base of a database type as the specification words it: the type
without its "-dbaas" suffix, if it has one. -/
def specBaseType (lagoonType : String) : String :=
  if "-dbaas".data.isSuffixOf lagoonType.data then
    String.mk (lagoonType.data.take (lagoonType.data.length - 6))
  else lagoonType

/-- The compose services in the order in which the two loops of
`generateServicesFromDockerCompose` meet them: for each entry of the
declaration order, the parsed services of that name. -/
def declaredServices (lCompose : List ServiceConfig) (lComposeOrder : List OriginalServiceOrder) :
    List ServiceConfig :=
  lComposeOrder.flatMap (fun service =>
    lCompose.filter (fun composeServiceValues => service.Name = composeServiceValues.Name))

/-- The services `declared` are resolved one after the other without error
from the build values `buildValues`, each one with the services resolved
before it appended to `buildValues.Services`, and give the descriptors
`resolvedServices`. -/
inductive ResolvedInOrder (x : Externals) (debug : Bool) :
    BuildValues → List ServiceConfig → List ServiceValues → Prop where
  | nil (buildValues : BuildValues) : ResolvedInOrder x debug buildValues [] []
  | cons (buildValues : BuildValues) (composeServiceValues : ServiceConfig)
      (cService : ServiceValues) (made : List DBaaSCall) (declared : List ServiceConfig)
      (resolvedServices : List ServiceValues) :
      composeToServiceValues x buildValues composeServiceValues.Name composeServiceValues debug =
        (.returned cService none, made) →
      ResolvedInOrder x debug (appendService buildValues cService) declared resolvedServices →
      ResolvedInOrder x debug buildValues (composeServiceValues :: declared)
        (cService :: resolvedServices)

/-- A compose service whose type label is "none". -/
def noneService : ServiceConfig :=
  { Name := "redis", Labels := some [("lagoon.type", "none")] }

/-- A node service whose `lagoon.name` label is "web". -/
def renamedService : ServiceConfig :=
  { Name := "app", Image := "alpine"
    Labels := some [("lagoon.type", "node"), ("lagoon.name", "web")] }

/-- A node service named "web", without a `lagoon.name` label. -/
def webService : ServiceConfig :=
  { Name := "web", Image := "alpine", Labels := some [("lagoon.type", "node")] }

/-- The descriptor of a node service of override name "web". -/
def webServiceValues : ServiceValues :=
  { Name := "web", OverrideName := "web", Type_ := "node"
    AutogeneratedRoutesEnabled := true, AutogeneratedRoutesTLSAcme := true }

/-- Build values in which a service of override name "web" is resolved
already. -/
def webResolvedBuildValues : BuildValues :=
  { exampleBuildValues with Services := [webServiceValues] }

/-- The DBaaS environment name as the specification words it: the value of
the last entry `name:environment` of `DBaaSEnvironmentTypeOverrides` for the
resolved override name if there is one, otherwise the label
`lagoon.<base>-dbaas.environment` if it is not empty, otherwise the
environment type of the deployment. -/
def specDBaaSEnvironment (buildValues : BuildValues) (composeService : String)
    (composeServiceValues : ServiceConfig) (lagoonType : String) : String :=
  let fromLabel := CheckServiceLagoonLabel composeServiceValues.Labels
    ("lagoon." ++ specBaseType lagoonType ++ "-dbaas.environment")
  let default :=
    if fromLabel ≠ "" then fromLabel else buildValues.EnvironmentType
  match buildValues.DBaaSEnvironmentTypeOverrides with
  | some v =>
    ((specMatchingValues v.Value
      (overrideNameOf composeService composeServiceValues)).getLast?).getD default
  | none => default

/-- A DBaaS client whose endpoint is healthy and whose provider check gives
`found` and `err` for every type and environment. -/
def providerClient (found : Bool) (err : Option String) : DBaaSClient where
  CheckHealth := fun _ => none
  CheckProvider := fun _ _ _ => (found, err)

/-- A value of the variable `LAGOON_DBAAS_ENVIRONMENT_TYPES`. -/
def exampleEnvironmentTypes : EnvironmentVariable :=
  { Name := "LAGOON_DBAAS_ENVIRONMENT_TYPES",
    Value := "mariadb:development,postgres:staging,mariadb:test" }

/-- Build values with a healthy DBaaS endpoint whose provider exists, and with
overrides of the DBaaS environment of the service `mariadb`. -/
def dbaasBuildValues : BuildValues :=
  { exampleBuildValues with
    DBaaSOperatorEndpoint := "http://dbaas.example.com"
    DBaaSClient := providerClient true none
    DBaaSEnvironmentTypeOverrides := some exampleEnvironmentTypes }

/-- Build values with a healthy DBaaS endpoint whose provider check returns
an error next to the answer `true`. -/
def failingProviderBuildValues : BuildValues :=
  { exampleBuildValues with
    DBaaSOperatorEndpoint := "http://dbaas.example.com"
    DBaaSClient := providerClient true (some "provider check failed") }

/-- A mariadb service that names its DBaaS environment by a label. -/
def labelledMariadbService : ServiceConfig :=
  { Name := "mariadb", Image := "uselagoon/mariadb"
    Labels := some [("lagoon.type", "mariadb"),
      ("lagoon.mariadb-dbaas.environment", "labelled")] }

/-- The value that `imageBuild.DockerFile` holds at the test of line 520 of
`composeToServiceValues`: the Dockerfile of the manifest override if it is not
empty, otherwise the one of the compose build spec. -/
def dockerfileOf (buildValues : BuildValues) (composeService : String)
    (composeServiceValues : ServiceConfig) : String :=
  if ((buildValues.LagoonYAML.environment buildValues.Environment).override
      composeService).Build.Dockerfile ≠ "" then
    ((buildValues.LagoonYAML.environment buildValues.Environment).override
      composeService).Build.Dockerfile
  else
    match composeServiceValues.Build with
    | some build => build.Dockerfile
    | none => ""

/-- Lines 549-561 of `composeToServiceValues`: the name under which the image
reference `pullImage` is pulled. A reference without a slash gets the prefix
"library/"; then, when the reference matches no container registry, an image
cache is set and the reference has exactly one slash, the image cache is put
in front. -/
def pullImageFor (x : Externals) (buildValues : BuildValues) (pullImage : String) : String :=
  let aliased := if ¬ strings_Contains pullImage '/' then "library/" ++ pullImage else pullImage
  if ¬ ContainsRegistry x.MatchString buildValues.ContainerRegistry pullImage then
    if buildValues.ImageCache ≠ "" ∧ strings_Count pullImage '/' = 1 then
      buildValues.ImageCache ++ aliased
    else aliased
  else aliased

/-- Lines 537-544: the environment substitution of an override image, with
the error of `composeToServiceValues` when it fails. -/
def substituted (x : Externals) (image : String) : Except String String :=
  match x.EvalEnv image with
  | .error _ => .error ("error evaluating override image " ++ image ++ " with envsubst")
  | .ok evalImage => .ok evalImage

/-- The image reference of the pull path in the priority that the code has:
the image of the manifest override if it is not empty, otherwise the
`lagoon.image` label if it is not empty, both after environment substitution,
otherwise the image that the service declares. -/
def pullReferenceByPriority (x : Externals) (buildValues : BuildValues)
    (composeService : String) (composeServiceValues : ServiceConfig) : Except String String :=
  if ((buildValues.LagoonYAML.environment buildValues.Environment).override
      composeService).Image ≠ "" then
    substituted x ((buildValues.LagoonYAML.environment buildValues.Environment).override
      composeService).Image
  else if CheckServiceLagoonLabel composeServiceValues.Labels "lagoon.image" ≠ "" then
    substituted x (CheckServiceLagoonLabel composeServiceValues.Labels "lagoon.image")
  else .ok composeServiceValues.Image

/-- Exactly one of the three paths of an image provenance record is
populated: the Dockerfile of a build, the image of a pull or the image of a
promotion. -/
def exactlyOnePath (imageBuild : ImageBuild) : Prop :=
  (imageBuild.DockerFile ≠ "" ∧ imageBuild.PullImage = "" ∧ imageBuild.PromoteImage = "") ∨
  (imageBuild.DockerFile = "" ∧ imageBuild.PullImage ≠ "" ∧ imageBuild.PromoteImage = "") ∨
  (imageBuild.DockerFile = "" ∧ imageBuild.PullImage = "" ∧ imageBuild.PromoteImage ≠ "")

/-- Build values of a promotion from the environment `main`. -/
def promoteBuildValues : BuildValues :=
  { exampleBuildValues with
    BuildType := "promote", Environment := "production"
    ImageRegistry := "harbor.example.com", PromotionSourceEnvironment := "main" }

/-- A node service that declares an image and names another one by its
`lagoon.image` label. -/
def imageLabelService : ServiceConfig :=
  { Name := "node", Image := "declared/node"
    Labels := some [("lagoon.type", "node"), ("lagoon.image", "label/node")] }

/-- Build values whose manifest overrides the image of the service `node`. -/
def imageOverrideBuildValues : BuildValues :=
  { exampleBuildValues with
    Environment := "main"
    LagoonYAML :=
      { Environments := [("main", { Overrides := [("node", { Image := "override/node" })] })] } }

/-- A node service that declares no image and names one by its `lagoon.image`
label. -/
def labelOnlyImageService : ServiceConfig :=
  { Name := "node"
    Labels := some [("lagoon.type", "node"), ("lagoon.image", "uselagoon/node")] }

/-- Build values with an image cache. -/
def imageCacheBuildValues : BuildValues :=
  { exampleBuildValues with ImageCache := "imagecache.example.com/" }

/-- A node service with a persistent path. -/
def persistentService : ServiceConfig :=
  { Name := "node", Image := "alpine"
    Labels := some [("lagoon.type", "node-persistent"), ("lagoon.persistent", "/app/files")] }

/-- Modelled from the spec: the entries of the table
`servicetypes.ServiceTypes`, which is not part of the sources, for the types
mariadb-single and postgres-single, with the default volumes that `mariadb.go`
and `postgres.go` define for them. -/
def defaultVolumes (lagoonType : String) : Option ServiceVolume :=
  if lagoonType = "mariadb-single" then
    some { PersistentVolumePath := "/var/lib/mysql", PersistentVolumeSize := "5Gi" }
  else if lagoonType = "postgres-single" then
    some { PersistentVolumePath := "/var/lib/postgresql/data", PersistentVolumeSize := "5Gi" }
  else none

/-- The collaborators of the examples with the table of the default
volumes. -/
def volumeExternals : Externals :=
  { exampleExternals [] with ServiceTypes := defaultVolumes }

/-- A compose service labelled with the type mariadb-single itself. -/
def mariadbSingleService : ServiceConfig :=
  { Name := "mariadb", Image := "uselagoon/mariadb"
    Labels := some [("lagoon.type", "mariadb-single")] }

/-- Lines 363-381 of `composeToServiceValues`: the spot types list and the
cronjob spot types list of the feature flag that is enabled for the
environment type, both empty when none is. -/
def spotTypesOf (x : Externals) (buildValues : BuildValues) (debug : Bool) : String × String :=
  let productionSpot :=
    x.CheckFeatureFlag "SPOT_INSTANCE_PRODUCTION" buildValues.EnvironmentVariables debug
  let developmentSpot :=
    x.CheckFeatureFlag "SPOT_INSTANCE_DEVELOPMENT" buildValues.EnvironmentVariables debug
  let types : String × String :=
    if productionSpot = "enabled" ∧ buildValues.EnvironmentType = "production" then
      (x.CheckFeatureFlag "SPOT_INSTANCE_PRODUCTION_TYPES" buildValues.EnvironmentVariables debug,
       x.CheckFeatureFlag "SPOT_INSTANCE_PRODUCTION_CRONJOB_TYPES"
         buildValues.EnvironmentVariables debug)
    else ("", "")
  if developmentSpot = "enabled" ∧ buildValues.EnvironmentType = "development" then
    (x.CheckFeatureFlag "SPOT_INSTANCE_DEVELOPMENT_TYPES" buildValues.EnvironmentVariables debug,
     x.CheckFeatureFlag "SPOT_INSTANCE_DEVELOPMENT_CRONJOB_TYPES"
       buildValues.EnvironmentVariables debug)
  else types

/-- Lines 416-450 of `composeToServiceValues`: the in-pod and the native
cronjobs of the service, empty when cronjobs are disabled. -/
def cronjobsOf (x : Externals) (buildValues : BuildValues)
    (composeService lagoonOverrideName : String) :
    Except String (List Cronjob × List Cronjob) :=
  if ¬ buildValues.CronjobsDisabled then
    cronjobsLoop x buildValues composeService lagoonOverrideName
      (buildValues.LagoonYAML.environment buildValues.Branch).Cronjobs [] []
  else .ok ([], [])

/-- A node service whose service port label is not a number. -/
def badPortService : ServiceConfig :=
  { Name := "node", Image := "alpine"
    Labels := some [("lagoon.type", "node"), ("lagoon.service.port", "abc")] }

/-- A basic service with a port override that uses its two compose ports. -/
def composePortsService : ServiceConfig :=
  { Name := "basic", Image := "alpine"
    Labels := some [("lagoon.type", "basic"), ("lagoon.service.port", "8080"),
      ("lagoon.service.usecomposeports", "true")]
    Ports := [{ Target := 8191, Protocol := "tcp" }, { Target := 8211, Protocol := "udp" }] }

/-- Three cronjobs of the same name. -/
def tripleCronjobs : List Cronjob :=
  [ { Name := "cron", Service := "cli", Schedule := "1 * * * *", Command := "first" },
    { Name := "cron", Service := "cli", Schedule := "2 * * * *", Command := "second" },
    { Name := "cron", Service := "cli", Schedule := "3 * * * *", Command := "third" } ]

/-- Two cronjobs of different names. -/
def distinctCronjobs : List Cronjob :=
  [ { Name := "drush cron", Service := "cli", Schedule := "1 * * * *", Command := "drush cron" },
    { Name := "drush-cron", Service := "cli", Schedule := "2 * * * *", Command := "drush cr" } ]

/-- Build values whose branch declares a cronjob with a long name for the
service `cli`. -/
def longCronjobBuildValues : BuildValues :=
  { exampleBuildValues with
    LagoonYAML :=
      { Environments := [("main", { Cronjobs :=
          [ { Name := "Drush cron: run the queue workers every fifteen minutes!",
              Service := "cli", Schedule := "*/15 * * * *", Command := "drush cron" } ] })] } }

/-- A compose service labelled as a cli service. -/
def cliService : ServiceConfig :=
  { Name := "cli", Image := "uselagoon/php-cli", Labels := some [("lagoon.type", "cli")] }

/-- The collaborators of the examples with a hash whose encoding has 56
characters. -/
def hashExternals : Externals :=
  { exampleExternals [] with
    GetBase32EncodedLowercase := fun _ =>
      "mfrggzdfmztwq2lknnwg23tpobyxe43uov3ho6dzpiytemzugu3doobz" }

/-- Spec side of C26: whether an entry of a spot types list is a non-empty
`type:policy` entry of the type. -/
def specSpotEntryMatches (lagoonType t : String) : Bool :=
  t ≠ "" &&
    match strings_Split t ":" with
    | entryType :: _ :: _ => entryType = lagoonType
    | _ => false

/-- Spec side of C26: whether an entry of a spot types list is a non-empty
`type:policy` entry of the type with the policy "force". -/
def specSpotEntryForces (lagoonType t : String) : Bool :=
  t ≠ "" &&
    match strings_Split t ":" with
    | entryType :: policy :: _ => entryType = lagoonType && policy = "force"
    | _ => false

/-- Spec side of C26: the pair (use, force) of a type for a comma separated
types list. -/
def specSpotPair (types lagoonType : String) : Bool × Bool :=
  ((strings_Split types ",").any (specSpotEntryMatches lagoonType),
   (strings_Split types ",").any (specSpotEntryForces lagoonType))

/-- Collaborators of the examples with the production spot flag enabled and
with spot types lists. -/
def spotExternals : Externals :=
  { exampleExternals [] with
    CheckFeatureFlag := fun key _ _ =>
      if key = "SPOT_INSTANCE_PRODUCTION" then "enabled"
      else if key = "SPOT_INSTANCE_PRODUCTION_TYPES" then "nginx:force,,node:use"
      else if key = "SPOT_INSTANCE_PRODUCTION_CRONJOB_TYPES" then "cli:use,node:force"
      else "" }

/-- A compose service labelled as an nginx service. -/
def nginxService : ServiceConfig :=
  { Name := "nginx", Image := "uselagoon/nginx", Labels := some [("lagoon.type", "nginx")] }

/-- The value that the function returned, with or without an error: for
`generateServicesFromDockerCompose` the build values as the function leaves
them behind its pointer. -/
def Ret.left {α : Type} : Ret α → Option α
  | .returned val _ => some val
  | .panicked => none

/-- The outcome of a call on a DBaaS client: the answer and the error of the
call (a health check has no answer). -/
def DBaaSClient.outcome (client : DBaaSClient) : DBaaSCall → Bool × Option String
  | .checkHealth endpoint => (false, client.CheckHealth endpoint)
  | .checkProvider endpoint lagoonType environment =>
    client.CheckProvider endpoint lagoonType environment

/-- The build values with another DBaaS client. -/
def withClient (buildValues : BuildValues) (client : DBaaSClient) : BuildValues :=
  { buildValues with DBaaSClient := client }

/-- The outcome of `generateServicesFromDockerCompose` with another DBaaS
client in the build values that it leaves. -/
def retWithClient (client : DBaaSClient) : Ret BuildValues → Ret BuildValues
  | .returned buildValues err => .returned (withClient buildValues client) err
  | .panicked => .panicked

/-- The calls made on the DBaaS client at the end of a loop of
`generateServicesFromDockerCompose`. -/
def loopCalls :
    Except (Ret BuildValues × List DBaaSCall) (BuildValues × List DBaaSCall) → List DBaaSCall
  | .ok r => r.2
  | .error r => r.2

/-- The outcome of a loop of `generateServicesFromDockerCompose` with another
DBaaS client in the build values. -/
def loopWithClient (client : DBaaSClient) :
    Except (Ret BuildValues × List DBaaSCall) (BuildValues × List DBaaSCall) →
    Except (Ret BuildValues × List DBaaSCall) (BuildValues × List DBaaSCall)
  | .ok r => .ok (withClient r.1 client, r.2)
  | .error r => .error (retWithClient client r.1, r.2)

/-- A DBaaS client that is healthy at the endpoint of the examples only, and
that has a provider for the environment "test" only. -/
def testProviderClient : DBaaSClient where
  CheckHealth := fun endpoint =>
    if endpoint = "http://dbaas.example.com" then none else some "unreachable"
  CheckProvider := fun _ _ environment =>
    if environment = "test" then (true, none) else (false, some "no provider")

/-- The collaborators with another Dockerfile existence check and another
environment substitution. -/
def withChecks (x : Externals) (statNotExist : String → Bool)
    (evalEnv : String → Except String String) : Externals :=
  { x with statNotExist := statNotExist, EvalEnv := evalEnv }

/-- Spec side of C30: a list with its duplicates removed, the first
occurrence of each key kept. -/
def specKeepFirst {α : Type} (key : α → String) : List α → List α
  | [] => []
  | a :: rest => a :: (specKeepFirst key rest).filter (fun b => key b ≠ key a)

/-- Build values whose `LAGOON_SERVICE_TYPES` gives the service `node` an
empty type: the entry `node:` has nothing after the colon. -/
def emptyTypeBuildValues : BuildValues :=
  { exampleBuildValues with
    ServiceTypeOverrides := some { Name := "LAGOON_SERVICE_TYPES", Value := "node:" } }

/-- Build values whose `LAGOON_SERVICE_TYPES` turns the service `redis` into
"none". -/
def redisRemovedBuildValues : BuildValues :=
  { exampleBuildValues with
    ServiceTypeOverrides := some { Name := "LAGOON_SERVICE_TYPES", Value := "redis:none" } }

/-- The services of a compose file in which nginx and php share the override
name "nginx-php". -/
def complexCompose : List ServiceConfig :=
  [ { Name := "cli", Image := "uselagoon/php-cli"
      Labels := some [("lagoon.type", "cli-persistent"), ("lagoon.persistent", "/app/files"),
        ("lagoon.persistent.name", "nginx-php")] },
    { Name := "nginx", Image := "uselagoon/nginx"
      Labels := some [("lagoon.type", "nginx-php-persistent"), ("lagoon.name", "nginx-php"),
        ("lagoon.persistent", "/app/files")] },
    { Name := "php", Image := "uselagoon/php-fpm"
      Labels := some [("lagoon.type", "nginx-php-persistent"), ("lagoon.name", "nginx-php"),
        ("lagoon.persistent", "/app/files")] },
    { Name := "mariadb", Image := "uselagoon/mariadb"
      Labels := some [("lagoon.type", "mariadb")] },
    { Name := "redis", Image := "uselagoon/redis", Labels := some [("lagoon.type", "redis")] } ]

/-! ## Route identification -/

/-- Modelled from the spec: the function `IdentifyPrimaryIngress` of
`cmd/identify_ingress.go`, whose source is not part of the generator (only its
test `TestIdentifyRoute` is), on the routes that the generator has made: the
autogenerated routes and the routes that the manifest declares, with the
synthetic domain derived from the namespace. Section 3: `secondary` is an
ordered list without duplicates that includes `primary`, and `autogenerated`
is the ordered part of it, without duplicates, that was synthesized. Step 4 of
section 4.3: `secondary` is the autogenerated routes followed by the declared
ones, with each domain kept at its first occurrence. Step 5: `primary` is the
first declared route, else the first autogenerated one, else the synthetic
domain. Section 8: with no route at all `secondary` and `primary` fall back to
the synthetic domain. It gives primary, secondary and autogenerated. -/
def IdentifyPrimaryIngress (autogenerated declared : List String) (fallback : String) :
    String × List String × List String :=
  let secondary := (autogenerated ++ declared).foldl helpers_AppendIfMissing []
  let primary :=
    match declared with
    | route :: _ => route
    | [] =>
      match autogenerated with
      | route :: _ => route
      | [] => fallback
  let secondary := if secondary.isEmpty then [fallback] else secondary
  (primary, secondary, autogenerated.foldl helpers_AppendIfMissing [])

/-- The routes that the case test9 of `TestIdentifyRoute` expects for the
active environment `main`: primary, secondary and autogenerated. -/
def test9Expected : String × List String × List String :=
  ("https://active.example.com",
   ["https://node-example-project-main.example.com", "https://main.example.com",
    "https://active.example.com"],
   ["https://node-example-project-main.example.com"])

/-- The routes that the case test18 of `TestIdentifyRoute` expects. -/
def test18Expected : String × List String × List String :=
  ("https://wild.example.com",
   ["https://nginx-example-project-main.example.com", "https://wild.example.com",
    "https://alt.example.com", "https://www.example.com", "https://en.example.com"],
   ["https://nginx-example-project-main.example.com"])

/-- Build values whose branch declares, for the service `cli`, a cronjob
whose name ends with a bracket. -/
def bracketCronjobBuildValues : BuildValues :=
  { exampleBuildValues with
    LagoonYAML :=
      { Environments := [("main", { Cronjobs :=
          [ { Name := "drush cron (hourly)", Service := "cli", Schedule := "0 * * * *",
              Command := "drush cron" } ] })] } }

/-- A cli service whose `lagoon.name` label has capital letters. -/
def capitalNameService : ServiceConfig :=
  { Name := "cli", Image := "uselagoon/php-cli"
    Labels := some [("lagoon.type", "cli"), ("lagoon.name", "CLI")] }

/-- Whether a cronjob runs in the pod: the answer of `helpers.IsInPodCronjob`
for its schedule (false when the schedule is not valid). -/
def cronjobInPod (x : Externals) (cronjob : Cronjob) : Bool :=
  match x.IsInPodCronjob cronjob.Schedule with
  | .ok inpod => inpod
  | .error _ => false

/-- The schedule that `helpers.ConvertCrontab` gives for a cronjob (its own
schedule when that is not valid). -/
def cronjobSchedule (x : Externals) (buildValues : BuildValues) (cronjob : Cronjob) : String :=
  match x.ConvertCrontab buildValues.Namespace cronjob.Schedule with
  | .ok schedule => schedule
  | .error _ => cronjob.Schedule

/-- Spec side of C34: the in-pod cronjobs of a service, which are the declared
cronjobs of the service that run in the pod, in their order, with the
converted schedule. -/
def specInPodCronjobs (x : Externals) (buildValues : BuildValues) (composeService : String)
    (cronjobs : List Cronjob) : List Cronjob :=
  (cronjobs.filter (fun c => c.Service = composeService ∧ cronjobInPod x c = true)).map
    (fun c => { c with Schedule := cronjobSchedule x buildValues c })

/-- Spec side of C34: the native cronjobs of a service, which are the declared
cronjobs of the service that do not run in the pod, in their order, with the
converted schedule and the native name. -/
def specNativeCronjobs (x : Externals) (buildValues : BuildValues)
    (composeService lagoonOverrideName : String) (cronjobs : List Cronjob) : List Cronjob :=
  (cronjobs.filter (fun c => c.Service = composeService ∧ cronjobInPod x c = false)).map
    (fun c => { c with
      Schedule := cronjobSchedule x buildValues c
      Name := nativeCronjobName x lagoonOverrideName c.Name })

/-- Collaborators of the examples for which the schedule "*/5 * * * *" runs
in the pod, and which prefix the converted schedules. -/
def cronExternals : Externals :=
  { exampleExternals [] with
    IsInPodCronjob := fun schedule => .ok (decide (schedule = "*/5 * * * *"))
    ConvertCrontab := fun _ schedule => .ok ("M " ++ schedule) }

/-- Build values whose branch declares four cronjobs, three of them for the
service `cli`, which has the override name "php". -/
def mixedCronjobBuildValues : BuildValues :=
  { exampleBuildValues with
    LagoonYAML :=
      { Environments := [("main", { Cronjobs :=
          [ { Name := "queue", Service := "cli", Schedule := "*/5 * * * *", Command := "a" },
            { Name := "backup", Service := "php", Schedule := "0 * * * *", Command := "b" },
            { Name := "report", Service := "cli", Schedule := "0 * * * *", Command := "c" },
            { Name := "mail", Service := "cli", Schedule := "*/5 * * * *", Command := "d" } ] })] } }

/-- A cli service of override name "php". -/
def phpNamedCliService : ServiceConfig :=
  { Name := "cli", Image := "uselagoon/php-cli"
    Labels := some [("lagoon.type", "cli"), ("lagoon.name", "php")] }

/-- The build values with `BackupsEnabled` turned off. -/
def withoutBackups (buildValues : BuildValues) : BuildValues :=
  { buildValues with BackupsEnabled := false }

/-- The outcome of a loop of `generateServicesFromDockerCompose` with
`BackupsEnabled` turned off in the build values. -/
def loopWithoutBackups :
    Except (Ret BuildValues × List DBaaSCall) (BuildValues × List DBaaSCall) →
    Except (Ret BuildValues × List DBaaSCall) (BuildValues × List DBaaSCall)
  | .ok r => .ok (withoutBackups r.1, r.2)
  | .error (.returned buildValues err, calls) => .error (.returned (withoutBackups buildValues) err, calls)
  | .error (.panicked, calls) => .error (.panicked, calls)

/-- Build values of the examples in which `BackupsEnabled` is on and
`Services` holds a descriptor before the run. -/
def usedBuildValues : BuildValues :=
  { exampleBuildValues with BackupsEnabled := true, Services := [webServiceValues] }

/-- The error of lines 172-173 of `composeToServiceValues` for a service
without a type label. -/
def missingTypeError (composeService : String) : String :=
  "No lagoon.type has been set for service " ++ composeService ++
    ". If a Lagoon service is not required, please set the lagoon.type to \x27none\x27 for this" ++
    " service in docker-compose.yaml. See the Lagoon documentation for supported service" ++
    " types."

/-- Build values whose `LAGOON_SERVICE_TYPES` holds the name of the service
`node` without a colon. -/
def bareTypesBuildValues : BuildValues :=
  { exampleBuildValues with
    ServiceTypeOverrides := some { Name := "LAGOON_SERVICE_TYPES", Value := "node" } }

/-- Build values with a healthy DBaaS endpoint whose
`LAGOON_DBAAS_ENVIRONMENT_TYPES` holds the name of the service `mariadb`
without a colon. -/
def bareEnvironmentTypesBuildValues : BuildValues :=
  { dbaasBuildValues with
    DBaaSEnvironmentTypeOverrides :=
      some { Name := "LAGOON_DBAAS_ENVIRONMENT_TYPES", Value := "mariadb" } }

/-- Collaborators of the examples with the production spot flag enabled and
a spot types list that holds the type node without a colon. -/
def bareSpotExternals : Externals :=
  { exampleExternals [] with
    CheckFeatureFlag := fun key _ _ =>
      if key = "SPOT_INSTANCE_PRODUCTION" then "enabled"
      else if key = "SPOT_INSTANCE_PRODUCTION_TYPES" then "node"
      else "" }

/-- A node service whose service port label is 2 to the power 31. -/
def largePortService : ServiceConfig :=
  { Name := "node", Image := "alpine"
    Labels := some [("lagoon.type", "node"), ("lagoon.service.port", "2147483648")] }

/-- A node service whose service port label is 2 to the power 32 plus 80. -/
def wrappedPortService : ServiceConfig :=
  { Name := "node", Image := "alpine"
    Labels := some [("lagoon.type", "node"), ("lagoon.service.port", "4294967376")] }

/-- Build values whose branch declares, for the service `cli`, two cronjobs
whose names differ in a separator only. -/
def slugCollisionBuildValues : BuildValues :=
  { exampleBuildValues with
    LagoonYAML :=
      { Environments := [("main", { Cronjobs :=
          [ { Name := "drush cron", Service := "cli", Schedule := "0 * * * *",
              Command := "drush cron" },
            { Name := "Drush-Cron", Service := "cli", Schedule := "30 * * * *",
              Command := "drush core-cron" } ] })] } }

/-- Spec side of C25: the text with each maximal run of characters that are
not letters or digits replaced by one hyphen. The text is cut into its maximal
runs of letters and digits and of other characters; a run of letters and
digits is kept and a run of other characters gives one hyphen. -/
def specSlug (l : List Char) : List Char :=
  ((l.splitBy (fun a b => a.isAlphanum == b.isAlphanum)).map
    (fun run => if run.all (fun c => c.isAlphanum) then run else ['-'])).flatten

/-! # Theorems -/

/-! ## Lemmas on the stages of `composeToServiceValues` -/

theorem servicePorts_returned (x : Externals) (composeService : String)
    (composeServiceValues : ServiceConfig) (cService sv : ServiceValues)
    (h : servicePorts x composeService composeServiceValues cService = .returned sv none) :
    sv.Name = cService.Name ∧ sv.OverrideName = cService.OverrideName ∧
    sv.Type_ = cService.Type_ ∧
    sv.AutogeneratedRoutesEnabled = cService.AutogeneratedRoutesEnabled ∧
    sv.AutogeneratedRoutesTLSAcme = cService.AutogeneratedRoutesTLSAcme ∧
    sv.IsDBaaS = cService.IsDBaaS ∧ sv.DBaaSEnvironment = cService.DBaaSEnvironment := by
  unfold servicePorts at h
  simp only [] at h
  split at h
  · cases h
  · rename_i c hc
    split at hc
    · split at hc
      · cases hc
      · cases hc
        split at h
        · cases h; simp
        · cases h; simp
    · cases hc
      split at h
      · cases h; simp
      · cases h; simp

theorem servicePorts_error (x : Externals) (composeService : String)
    (composeServiceValues : ServiceConfig) (cService sv : ServiceValues) (err : String)
    (h : servicePorts x composeService composeServiceValues cService = .returned sv (some err)) :
    sv = {} := by
  unfold servicePorts at h
  simp only [] at h
  split at h
  · cases h; rfl
  · split at h <;> cases h

theorem serviceValuesOfType_returned (x : Externals) (buildValues : BuildValues)
    (composeService : String) (composeServiceValues : ServiceConfig) (debug : Bool)
    (lagoonOverrideName lagoonType dbaasEnvironment : String) (svcIsDBaaS : Bool)
    (autogenEnabled autogenTLSAcmeEnabled : Bool)
    (servicePersistentPath servicePersistentName servicePersistentSize : String)
    (sv : ServiceValues)
    (h : serviceValuesOfType x buildValues composeService composeServiceValues debug
      lagoonOverrideName lagoonType dbaasEnvironment svcIsDBaaS autogenEnabled
      autogenTLSAcmeEnabled servicePersistentPath servicePersistentName
      servicePersistentSize = .returned sv none) :
    sv.Name = composeService ∧ sv.OverrideName = lagoonOverrideName ∧
    sv.Type_ = lagoonType ∧
    sv.AutogeneratedRoutesEnabled =
      (Contains supportedAutogeneratedTypes lagoonType && autogenEnabled) ∧
    sv.AutogeneratedRoutesTLSAcme =
      (Contains supportedAutogeneratedTypes lagoonType && autogenTLSAcmeEnabled) ∧
    sv.IsDBaaS = svcIsDBaaS ∧ sv.DBaaSEnvironment = dbaasEnvironment := by
  unfold serviceValuesOfType at h
  simp only [] at h
  split at h
  · cases h
  · split at h
    · cases h
    · split at h
      · cases h
      · split at h
        · cases h
        · split at h
          · cases h
          · rename_i c hc
            have hp := servicePorts_returned x composeService composeServiceValues c sv h
            split at hc
            · split at hc
              · cases hc
              · cases hc
                obtain ⟨h1, h2, h3, h4, h5, h6, h7⟩ := hp
                refine ⟨h1, h2, h3, ?_, ?_, h6, h7⟩
                · rw [h4]; cases hS : Contains supportedAutogeneratedTypes lagoonType <;> simp [hS]
                · rw [h5]; cases hS : Contains supportedAutogeneratedTypes lagoonType <;> simp [hS]
            · cases hc
              obtain ⟨h1, h2, h3, h4, h5, h6, h7⟩ := hp
              refine ⟨h1, h2, h3, ?_, ?_, h6, h7⟩
              · rw [h4]; cases hS : Contains supportedAutogeneratedTypes lagoonType <;> simp [hS]
              · rw [h5]; cases hS : Contains supportedAutogeneratedTypes lagoonType <;> simp [hS]

theorem serviceValuesOfType_error (x : Externals) (buildValues : BuildValues)
    (composeService : String) (composeServiceValues : ServiceConfig) (debug : Bool)
    (lagoonOverrideName lagoonType dbaasEnvironment : String) (svcIsDBaaS : Bool)
    (autogenEnabled autogenTLSAcmeEnabled : Bool)
    (servicePersistentPath servicePersistentName servicePersistentSize : String)
    (sv : ServiceValues) (err : String)
    (h : serviceValuesOfType x buildValues composeService composeServiceValues debug
      lagoonOverrideName lagoonType dbaasEnvironment svcIsDBaaS autogenEnabled
      autogenTLSAcmeEnabled servicePersistentPath servicePersistentName
      servicePersistentSize = .returned sv (some err)) :
    sv = {} := by
  unfold serviceValuesOfType at h
  simp only [] at h
  split at h
  · cases h
  · split at h
    · cases h
    · split at h
      · cases h; rfl
      · split at h
        · cases h; rfl
        · split at h
          · cases h; rfl
          · exact servicePorts_error _ _ _ _ _ _ h

theorem composeToServiceValues_of_label (x : Externals) (buildValues : BuildValues)
    (composeService : String) (composeServiceValues : ServiceConfig) (debug : Bool)
    (hlabel : CheckServiceLagoonLabel composeServiceValues.Labels "lagoon.type" ≠ "") :
    composeToServiceValues x buildValues composeService composeServiceValues debug =
      match typeAtNoneCheck buildValues composeService composeServiceValues with
      | none => (.panicked, [])
      | some lagoonType =>
        if lagoonType = "none" then (.returned {} none, [])
        else resolveWithType x buildValues composeService composeServiceValues debug
          lagoonType := by
  have hl : composeServiceValues.Labels ≠ none := by
    intro hn
    apply hlabel
    rw [hn]; rfl
  unfold composeToServiceValues typeAtNoneCheck resolveWithType persistentNameOf
    persistentPathOf persistentSizeOf autogenEnabledOf autogenTLSAcmeEnabledOf overrideNameOf
  simp only [hl, hlabel, ne_eq, not_false_eq_true, if_true, if_false]
  by_cases hname : CheckServiceLagoonLabel composeServiceValues.Labels "lagoon.name" = ""
  · simp only [hname, not_true_eq_false, if_false, false_and]
  · simp only [hname, not_false_eq_true, if_true, true_and]

theorem composeToServiceValues_no_label (x : Externals) (buildValues : BuildValues)
    (composeService : String) (composeServiceValues : ServiceConfig) (debug : Bool)
    (hlabel : CheckServiceLagoonLabel composeServiceValues.Labels "lagoon.type" = "") :
    composeToServiceValues x buildValues composeService composeServiceValues debug =
      (.returned {} (some ("No lagoon.type has been set for service " ++ composeService ++
      ". If a Lagoon service is not required, please set the lagoon.type to \x27none\x27 for this" ++
      " service in docker-compose.yaml. See the Lagoon documentation for supported service" ++
      " types.")), []) := by
  unfold composeToServiceValues
  simp only [hlabel, ite_self, if_true]

/-! ## Missing type -/

/-- C1: a service whose compose record has no labels, or whose labels hold no
`lagoon.type` or an empty one, makes `composeToServiceValues` return the zero
`ServiceValues` and an error whose message contains the name of the service,
without a call on the DBaaS client (whatever the overrides are). -/
theorem missing_type_is_fatal (x : Externals) (buildValues : BuildValues)
    (composeService : String) (composeServiceValues : ServiceConfig) (debug : Bool)
    (h : composeServiceValues.Labels = none ∨
      ∃ labels, composeServiceValues.Labels = some labels ∧
        (labels.lookup "lagoon.type" = none ∨ labels.lookup "lagoon.type" = some "")) :
    ∃ before after : String,
      composeToServiceValues x buildValues composeService composeServiceValues debug =
        (.returned {} (some (before ++ composeService ++ after)), []) := by
  have hlabel : CheckServiceLagoonLabel composeServiceValues.Labels "lagoon.type" = "" := by
    rcases h with h | ⟨labels, h, h1 | h1⟩
    · rw [h]; rfl
    · rw [h]; simp [CheckServiceLagoonLabel, h1]
    · rw [h]; simp [CheckServiceLagoonLabel, h1]
  refine ⟨"No lagoon.type has been set for service ",
    ". If a Lagoon service is not required, please set the lagoon.type to \x27none\x27 for this" ++
      " service in docker-compose.yaml. See the Lagoon documentation for supported service" ++
      " types.", ?_⟩
  rw [composeToServiceValues_no_label x buildValues composeService composeServiceValues debug
    hlabel]
  simp only [String.append_assoc]

/-- Witness of C1: the service `cli` has no labels. -/
theorem missing_type_is_fatal_witness :
    unlabelledService.Labels = none ∧
    ∃ before after : String,
      composeToServiceValues (exampleExternals []) exampleBuildValues "cli" unlabelledService
        false = (.returned {} (some (before ++ "cli" ++ after)), []) :=
  ⟨rfl, missing_type_is_fatal (exampleExternals []) exampleBuildValues "cli" unlabelledService
    false (Or.inl rfl)⟩

theorem splitGo_ne_nil (sep : List Char) (l : List Char) (skip : Nat) (cur : List Char) :
    splitGo sep l skip cur ≠ [] := by
  induction l generalizing skip cur with
  | nil => simp [splitGo]
  | cons c cs ih =>
    cases skip with
    | zero =>
      unfold splitGo
      split
      · simp
      · exact ih 0 (c :: cur)
    | succ k =>
      unfold splitGo
      exact ih k cur

theorem strings_Split_colon_ne_nil (s : String) : strings_Split s ":" ≠ [] := by
  unfold strings_Split
  have h : (":" : String).data ≠ [] := by decide
  simp only [h, if_false]
  intro hn
  exact splitGo_ne_nil _ _ _ _ (List.map_eq_nil_iff.mp hn)

theorem getLast?_cons_getD {α : Type} (a : α) (l : List α) (d : α) :
    ((a :: l).getLast?).getD d = (l.getLast?).getD a := by
  cases l with
  | nil => simp
  | cons b t =>
    rw [List.getLast?_cons_cons]
    rcases h : (b :: t).getLast? with _ | v
    · simp at h
    · simp

theorem overridesLoop_eq (name : String) (entries : List String) (cur : String)
    (hwf : entries.all (fun entry =>
      match strings_Split entry ":" with
      | [first] => first ≠ name
      | _ => true) = true) :
    overridesLoop name entries cur =
      some (((entries.filterMap (fun entry =>
        match strings_Split entry ":" with
        | first :: second :: _ => if first = name then some second else none
        | _ => none)).getLast?).getD cur) := by
  induction entries generalizing cur with
  | nil => simp [overridesLoop]
  | cons e rest ih =>
    simp only [List.all_cons, Bool.and_eq_true] at hwf
    obtain ⟨he, hrest⟩ := hwf
    unfold overridesLoop
    rcases hsplit : strings_Split e ":" with _ | ⟨first, more⟩
    · exact absurd hsplit (strings_Split_colon_ne_nil e)
    · rcases more with _ | ⟨second, more⟩
      · rw [hsplit] at he
        simp only [decide_eq_true_eq] at he
        simp only [he, if_false, List.filterMap_cons, hsplit]
        exact ih cur hrest
      · by_cases hf : first = name
        · simp only [hf, if_true, List.filterMap_cons, hsplit]
          rw [ih second hrest, getLast?_cons_getD]
        · simp only [hf, if_false, List.filterMap_cons, hsplit]
          exact ih cur hrest

theorem overridesLoop_none (name : String) (entries : List String) (cur : String)
    (hwf : entries.all (fun entry =>
      match strings_Split entry ":" with
      | [first] => first ≠ name
      | _ => true) = false) :
    overridesLoop name entries cur = none := by
  induction entries generalizing cur with
  | nil => simp at hwf
  | cons e rest ih =>
    unfold overridesLoop
    rcases hsplit : strings_Split e ":" with _ | ⟨first, more⟩
    · rfl
    · rcases more with _ | ⟨second, more⟩
      · by_cases hf : first = name
        · simp [hf]
        · simp only [hf, if_false]
          apply ih
          simpa [List.all_cons, hsplit, hf] using hwf
      · have hr : rest.all (fun entry =>
            match strings_Split entry ":" with
            | [first] => first ≠ name
            | _ => true) = false := by
          simpa [List.all_cons, hsplit] using hwf
        by_cases hf : first = name
        · simp only [hf, if_true]
          exact ih second hr
        · simp only [hf, if_false]
          exact ih cur hr


theorem typeAtNoneCheck_eq_spec (buildValues : BuildValues) (composeService : String)
    (composeServiceValues : ServiceConfig)
    (hwf : ∀ v, buildValues.ServiceTypeOverrides = some v →
      specEntriesHaveValue v.Value (overrideNameOf composeService composeServiceValues) = true) :
    typeAtNoneCheck buildValues composeService composeServiceValues =
      some (specResolvedType buildValues composeService composeServiceValues) := by
  unfold typeAtNoneCheck overriddenType specResolvedType manifestType
  rcases hov : buildValues.ServiceTypeOverrides with _ | v
  · simp only []
    rcases (buildValues.LagoonYAML.environment buildValues.Environment).Types.lookup
      composeService with _ | m
    · simp only [Option.getD_none]
      rcases oldServiceMap.lookup _ with _ | r <;> rfl
    · simp only [Option.getD_some]
      rcases oldServiceMap.lookup _ with _ | r <;> rfl
  · have h := hwf v hov
    unfold specEntriesHaveValue at h
    simp only []
    rw [overridesLoop_eq _ _ _ h]
    simp only [specMatchingValues]
    rcases (buildValues.LagoonYAML.environment buildValues.Environment).Types.lookup
      composeService with _ | m
    · simp only [Option.getD_none]
      rcases oldServiceMap.lookup _ with _ | r <;> rfl
    · simp only [Option.getD_some]
      rcases oldServiceMap.lookup _ with _ | r <;> rfl

theorem composeToServiceValues_returned (x : Externals) (buildValues : BuildValues)
    (composeService : String) (composeServiceValues : ServiceConfig) (debug : Bool)
    (sv : ServiceValues) (calls : List DBaaSCall)
    (h : composeToServiceValues x buildValues composeService composeServiceValues debug =
      (.returned sv none, calls)) :
    CheckServiceLagoonLabel composeServiceValues.Labels "lagoon.type" ≠ "" ∧
    ∃ lagoonType, typeAtNoneCheck buildValues composeService composeServiceValues =
        some lagoonType ∧
      ((lagoonType = "none" ∧ sv = {} ∧ calls = []) ∨
       (lagoonType ≠ "none" ∧ ∃ finalType dbaasEnvironment svcIsDBaaS,
          dbaasChecks buildValues composeServiceValues
            (overrideNameOf composeService composeServiceValues) lagoonType debug =
            (some (finalType, dbaasEnvironment, svcIsDBaaS), calls) ∧
          sv.Name = composeService ∧
          sv.OverrideName = overrideNameOf composeService composeServiceValues ∧
          sv.Type_ = finalType ∧
          sv.AutogeneratedRoutesEnabled =
            (Contains supportedAutogeneratedTypes finalType &&
              autogenEnabledOf buildValues composeServiceValues) ∧
          sv.AutogeneratedRoutesTLSAcme =
            (Contains supportedAutogeneratedTypes finalType &&
              autogenTLSAcmeEnabledOf buildValues composeServiceValues) ∧
          sv.IsDBaaS = svcIsDBaaS ∧ sv.DBaaSEnvironment = dbaasEnvironment)) := by
  by_cases hlabel : CheckServiceLagoonLabel composeServiceValues.Labels "lagoon.type" = ""
  · rw [composeToServiceValues_no_label _ _ _ _ _ hlabel] at h
    cases h
  · refine ⟨hlabel, ?_⟩
    rw [composeToServiceValues_of_label _ _ _ _ _ hlabel] at h
    rcases ht : typeAtNoneCheck buildValues composeService composeServiceValues with _ | t
    · rw [ht] at h; cases h
    · rw [ht] at h
      refine ⟨t, rfl, ?_⟩
      simp only [] at h
      by_cases hn : t = "none"
      · left
        simp only [hn, if_true] at h
        cases h
        exact ⟨hn, rfl, rfl⟩
      · right
        simp only [hn, if_false] at h
        refine ⟨hn, ?_⟩
        unfold resolveWithType at h
        rcases hd : dbaasChecks buildValues composeServiceValues
          (overrideNameOf composeService composeServiceValues) t debug with ⟨r, made⟩
        rw [hd] at h
        rcases r with _ | ⟨finalType, dbaasEnvironment, svcIsDBaaS⟩
        · cases h
        · simp only [Prod.mk.injEq] at h
          obtain ⟨h1, h2⟩ := h
          subst h2
          exact ⟨finalType, dbaasEnvironment, svcIsDBaaS, rfl,
            serviceValuesOfType_returned _ _ _ _ _ _ _ _ _ _ _ _ _ _ _ h1⟩

theorem composeToServiceValues_error (x : Externals) (buildValues : BuildValues)
    (composeService : String) (composeServiceValues : ServiceConfig) (debug : Bool)
    (sv : ServiceValues) (err : String) (calls : List DBaaSCall)
    (h : composeToServiceValues x buildValues composeService composeServiceValues debug =
      (.returned sv (some err), calls)) :
    sv = {} := by
  by_cases hlabel : CheckServiceLagoonLabel composeServiceValues.Labels "lagoon.type" = ""
  · rw [composeToServiceValues_no_label _ _ _ _ _ hlabel] at h
    cases h; rfl
  · rw [composeToServiceValues_of_label _ _ _ _ _ hlabel] at h
    rcases ht : typeAtNoneCheck buildValues composeService composeServiceValues with _ | t
    · rw [ht] at h; cases h
    · rw [ht] at h
      simp only [] at h
      by_cases hn : t = "none"
      · simp only [hn, if_true] at h
        cases h
      · simp only [hn, if_false] at h
        unfold resolveWithType at h
        rcases hd : dbaasChecks buildValues composeServiceValues
          (overrideNameOf composeService composeServiceValues) t debug with ⟨r, made⟩
        rw [hd] at h
        rcases r with _ | ⟨finalType, dbaasEnvironment, svcIsDBaaS⟩
        · cases h
        · simp only [Prod.mk.injEq] at h
          exact serviceValuesOfType_error _ _ _ _ _ _ _ _ _ _ _ _ _ _ _ _ h.1

/-! ## Type resolution -/

/-- C2: for a service that has a `lagoon.type` label, the type that reaches
the "none" check and the DBaaS stage of `composeToServiceValues` is the one
that the four layers of the specification give (label, manifest entry for the
declared service name, last matching `name:type` entry of
`ServiceTypeOverrides` for the resolved override name, table of the old
service types), provided that every entry of the list that names the service
has a type. -/
theorem type_resolution_layers (x : Externals) (buildValues : BuildValues)
    (composeService : String) (composeServiceValues : ServiceConfig) (debug : Bool)
    (hlabel : CheckServiceLagoonLabel composeServiceValues.Labels "lagoon.type" ≠ "")
    (hwf : ∀ v, buildValues.ServiceTypeOverrides = some v →
      specEntriesHaveValue v.Value (overrideNameOf composeService composeServiceValues) = true) :
    typeAtNoneCheck buildValues composeService composeServiceValues =
      some (specResolvedType buildValues composeService composeServiceValues) ∧
    composeToServiceValues x buildValues composeService composeServiceValues debug =
      if specResolvedType buildValues composeService composeServiceValues = "none" then
        (.returned {} none, [])
      else
        resolveWithType x buildValues composeService composeServiceValues debug
          (specResolvedType buildValues composeService composeServiceValues) := by
  have ht := typeAtNoneCheck_eq_spec buildValues composeService composeServiceValues hwf
  refine ⟨ht, ?_⟩
  rw [composeToServiceValues_of_label _ _ _ _ _ hlabel, ht]

/-- Witness of C2: the label says node, the manifest nginx, the entries of
`LAGOON_SERVICE_TYPES` basic and then mongo, which the table of the old types
turns into mongodb. -/
theorem type_resolution_layers_witness :
    specResolvedType overriddenBuildValues "node" nodeService = "mongodb" ∧
    (typeAtNoneCheck overriddenBuildValues "node" nodeService =
      some (specResolvedType overriddenBuildValues "node" nodeService) ∧
    composeToServiceValues (exampleExternals []) overriddenBuildValues "node" nodeService false =
      if specResolvedType overriddenBuildValues "node" nodeService = "none" then
        (.returned {} none, [])
      else
        resolveWithType (exampleExternals []) overriddenBuildValues "node" nodeService false
          (specResolvedType overriddenBuildValues "node" nodeService)) :=
  ⟨by decide,
    type_resolution_layers (exampleExternals []) overriddenBuildValues "node" nodeService false
      (by decide) (by
        intro v hv
        have hv2 : exampleServiceTypes = v := Option.some.inj hv
        subst hv2
        decide)⟩

/-- C4: when the type after all overrides and the conversion of the old types
is "none", `composeToServiceValues` returns the zero `ServiceValues` and a nil
error without any call on the DBaaS client, whatever the collaborators, the
cronjobs, the image, the build spec and the port label are. -/
theorem none_type_short_circuits (x : Externals) (buildValues : BuildValues)
    (composeService : String) (composeServiceValues : ServiceConfig) (debug : Bool)
    (hlabel : CheckServiceLagoonLabel composeServiceValues.Labels "lagoon.type" ≠ "")
    (hnone : typeAtNoneCheck buildValues composeService composeServiceValues = some "none") :
    composeToServiceValues x buildValues composeService composeServiceValues debug =
      (.returned {} none, []) := by
  rw [composeToServiceValues_of_label _ _ _ _ _ hlabel, hnone]
  simp

/-- Witness of C4: a redis service that `LAGOON_SERVICE_TYPES` turns into
"none", with duplicate cronjobs, no image and a port that is not a number. -/
theorem none_type_short_circuits_witness :
    CheckServiceLagoonLabel brokenRedisService.Labels "lagoon.type" ≠ "" ∧
    typeAtNoneCheck redisNoneBuildValues "redis" brokenRedisService = some "none" ∧
    composeToServiceValues (exampleExternals []) redisNoneBuildValues "redis" brokenRedisService
      false = (.returned {} none, []) :=
  ⟨by decide, by decide,
    none_type_short_circuits (exampleExternals []) redisNoneBuildValues "redis"
      brokenRedisService false (by decide) (by decide)⟩

theorem Ret.value_eq_some {α : Type} (r : Ret α) (v : α) :
    r.value = some v ↔ r = .returned v none := by
  cases r with
  | panicked => simp [Ret.value]
  | returned val err =>
    cases err with
    | none => simp [Ret.value]
    | some e => simp [Ret.value]

theorem contains_empty_supportedAutogeneratedTypes :
    Contains supportedAutogeneratedTypes "" = false := by decide

/-! ## Autogenerated route flags -/

/-- C7: for every service that `composeToServiceValues` resolves without
error, if the final type is not one of the types that support autogenerated
routes then `AutogeneratedRoutesEnabled` and `AutogeneratedRoutesTLSAcme` are
both false, whatever the manifest flags and the labels are. -/
theorem unsupported_type_has_no_routes (x : Externals) (buildValues : BuildValues)
    (composeService : String) (composeServiceValues : ServiceConfig) (debug : Bool)
    (sv : ServiceValues) (calls : List DBaaSCall)
    (h : composeToServiceValues x buildValues composeService composeServiceValues debug =
      (.returned sv none, calls))
    (htype : Contains supportedAutogeneratedTypes sv.Type_ = false) :
    sv.AutogeneratedRoutesEnabled = false ∧ sv.AutogeneratedRoutesTLSAcme = false := by
  obtain ⟨_, t, _, h1 | ⟨_, ft, e, d, _, _, _, hty, ha, htls, _, _⟩⟩ :=
    composeToServiceValues_returned _ _ _ _ _ _ _ h
  · obtain ⟨_, hz, _⟩ := h1
    subst hz
    exact ⟨rfl, rfl⟩
  · rw [hty] at htype
    rw [ha, htls, htype]
    exact ⟨rfl, rfl⟩

/-- Witness of C7: a mariadb service resolves to mariadb-single, which
supports no autogenerated route. -/
theorem unsupported_type_has_no_routes_witness :
    ∃ sv calls,
      composeToServiceValues (exampleExternals []) exampleBuildValues "mariadb" mariadbService
        false = (.returned sv none, calls) ∧
      Contains supportedAutogeneratedTypes sv.Type_ = false ∧
      sv.AutogeneratedRoutesEnabled = false ∧ sv.AutogeneratedRoutesTLSAcme = false :=
  ⟨_, _, rfl, by decide,
    unsupported_type_has_no_routes (exampleExternals []) exampleBuildValues "mariadb"
      mariadbService false _ _ rfl (by decide)⟩

theorem labelOverride_eq (labelValue : String) (flag : Bool) :
    labelOverride labelValue flag = (strconv_ParseBool labelValue).getD flag := by
  unfold labelOverride
  by_cases hl : labelValue = ""
  · subst hl
    have : strconv_ParseBool "" = none := by decide
    simp [this]
  · simp only [ne_eq, hl, not_false_eq_true, if_true]
    rcases strconv_ParseBool labelValue with _ | b <;> rfl

theorem manifestAutogenEnabled_eq (buildValues : BuildValues) :
    manifestAutogenEnabled buildValues =
      ((buildValues.LagoonYAML.environment buildValues.Branch).AutogenerateRoutes).getD
        (if buildValues.BuildType = "pullrequest" then
          (buildValues.LagoonYAML.Routes.Autogenerate.AllowPullRequests).getD
            (if buildValues.LagoonYAML.Routes.Autogenerate.Enabled = some false then false
              else true)
        else
          (if buildValues.LagoonYAML.Routes.Autogenerate.Enabled = some false then false
            else true)) := by
  unfold manifestAutogenEnabled
  rcases (buildValues.LagoonYAML.environment buildValues.Branch).AutogenerateRoutes
    with _ | b
  · rcases buildValues.LagoonYAML.Routes.Autogenerate.AllowPullRequests with _ | a
    · rcases buildValues.LagoonYAML.Routes.Autogenerate.Enabled with _ | e
      · simp
      · cases e <;> simp
    · rcases buildValues.LagoonYAML.Routes.Autogenerate.Enabled with _ | e
      · cases a <;> simp
      · cases e <;> cases a <;> simp
  · cases b <;> simp

/-- C8: for a service that resolves to a type that supports autogenerated
routes and whose override name is not the override name of a service that
exists already, `AutogeneratedRoutesEnabled` is the result of the chain of the
specification: true, then the global flag when it is false, then the pull
request flag for a pull request build, then the flag of the branch, then the
`lagoon.autogeneratedroute` label when it parses as a boolean. -/
theorem autogenerated_route_chain (x : Externals) (buildValues : BuildValues)
    (composeService : String) (composeServiceValues : ServiceConfig) (debug : Bool)
    (sv : ServiceValues) (calls : List DBaaSCall)
    (h : composeToServiceValues x buildValues composeService composeServiceValues debug =
      (.returned sv none, calls))
    (htype : Contains supportedAutogeneratedTypes sv.Type_ = true)
    (hfree : ∀ service ∈ buildValues.Services, service.OverrideName ≠ sv.OverrideName) :
    sv.AutogeneratedRoutesEnabled = specAutogenEnabled buildValues composeServiceValues := by
  obtain ⟨_, t, _, h1 | ⟨_, ft, e, d, _, _, hon, hty, ha, _, _, _⟩⟩ :=
    composeToServiceValues_returned _ _ _ _ _ _ _ h
  · obtain ⟨_, hz, _⟩ := h1
    subst hz
    exact absurd htype (by decide)
  · rw [hty] at htype
    rw [ha, htype, Bool.true_and]
    unfold autogenEnabledOf
    have hguard : ¬ (CheckServiceLagoonLabel composeServiceValues.Labels "lagoon.name" ≠ "" ∧
        overrideNameExists buildValues.Services
          (CheckServiceLagoonLabel composeServiceValues.Labels "lagoon.name") = true) := by
      rintro ⟨hne, hex⟩
      unfold overrideNameExists at hex
      rw [List.any_eq_true] at hex
      obtain ⟨service, hmem, heq⟩ := hex
      apply hfree service hmem
      rw [hon]
      unfold overrideNameOf
      rw [if_pos hne]
      simpa using heq
    rw [if_neg hguard, labelOverride_eq, manifestAutogenEnabled_eq]
    rfl

/-- Witness of C8: a pull request build whose manifest turns the routes off
three times, and a service whose label turns them on. -/
theorem autogenerated_route_chain_witness :
    ∃ sv calls,
      composeToServiceValues (exampleExternals []) routeFlagsBuildValues "node"
        labelledNodeService false = (.returned sv none, calls) ∧
      Contains supportedAutogeneratedTypes sv.Type_ = true ∧
      sv.AutogeneratedRoutesEnabled = true ∧
      sv.AutogeneratedRoutesEnabled = specAutogenEnabled routeFlagsBuildValues
        labelledNodeService :=
  ⟨_, _, rfl, by decide, by decide,
    autogenerated_route_chain (exampleExternals []) routeFlagsBuildValues "node"
      labelledNodeService false _ _ rfl (by decide) (by decide)⟩

/-- C9: for a service that resolves to a type that supports autogenerated
routes, `AutogeneratedRoutesTLSAcme` is the result of its own chain, which reads
the global tls-acme flag and the `lagoon.autogeneratedroute.tls-acme` label
only; hence any other resolution whose flag and label are the same, whatever
its autogenerate flags and its other labels are, gives the same value. -/
theorem tls_acme_chain (x : Externals) (buildValues : BuildValues)
    (composeService : String) (composeServiceValues : ServiceConfig) (debug : Bool)
    (sv : ServiceValues) (calls : List DBaaSCall)
    (h : composeToServiceValues x buildValues composeService composeServiceValues debug =
      (.returned sv none, calls))
    (htype : Contains supportedAutogeneratedTypes sv.Type_ = true) :
    sv.AutogeneratedRoutesTLSAcme =
      specAutogenTLSAcme buildValues.LagoonYAML.Routes.Autogenerate.TLSAcme
        (CheckServiceLagoonLabel composeServiceValues.Labels
          "lagoon.autogeneratedroute.tls-acme") ∧
    ∀ (x2 : Externals) (buildValues2 : BuildValues) (composeService2 : String)
      (composeServiceValues2 : ServiceConfig) (debug2 : Bool) (sv2 : ServiceValues)
      (calls2 : List DBaaSCall),
      composeToServiceValues x2 buildValues2 composeService2 composeServiceValues2 debug2 =
        (.returned sv2 none, calls2) →
      Contains supportedAutogeneratedTypes sv2.Type_ = true →
      buildValues2.LagoonYAML.Routes.Autogenerate.TLSAcme =
        buildValues.LagoonYAML.Routes.Autogenerate.TLSAcme →
      CheckServiceLagoonLabel composeServiceValues2.Labels "lagoon.autogeneratedroute.tls-acme" =
        CheckServiceLagoonLabel composeServiceValues.Labels
          "lagoon.autogeneratedroute.tls-acme" →
      sv2.AutogeneratedRoutesTLSAcme = sv.AutogeneratedRoutesTLSAcme := by
  have key : ∀ (x : Externals) (buildValues : BuildValues) (composeService : String)
      (composeServiceValues : ServiceConfig) (debug : Bool) (sv : ServiceValues)
      (calls : List DBaaSCall),
      composeToServiceValues x buildValues composeService composeServiceValues debug =
        (.returned sv none, calls) →
      Contains supportedAutogeneratedTypes sv.Type_ = true →
      sv.AutogeneratedRoutesTLSAcme =
        specAutogenTLSAcme buildValues.LagoonYAML.Routes.Autogenerate.TLSAcme
          (CheckServiceLagoonLabel composeServiceValues.Labels
            "lagoon.autogeneratedroute.tls-acme") := by
    intro x buildValues composeService composeServiceValues debug sv calls h htype
    obtain ⟨_, t, _, h1 | ⟨_, ft, e, d, _, _, _, hty, _, htls, _, _⟩⟩ :=
      composeToServiceValues_returned _ _ _ _ _ _ _ h
    · obtain ⟨_, hz, _⟩ := h1
      subst hz
      exact absurd htype (by decide)
    · rw [hty] at htype
      rw [htls, htype, Bool.true_and]
      unfold autogenTLSAcmeEnabledOf specAutogenTLSAcme
      rw [labelOverride_eq]
      congr 1
      unfold manifestAutogenTLSAcmeEnabled
      generalize buildValues.LagoonYAML.Routes.Autogenerate.TLSAcme = flag
      rcases flag with _ | b
      · rfl
      · cases b <;> rfl
  refine ⟨key _ _ _ _ _ _ _ h htype, ?_⟩
  intro x2 buildValues2 composeService2 composeServiceValues2 debug2 sv2 calls2 h2 htype2
    hflag hlab
  rw [key _ _ _ _ _ _ _ h htype, key _ _ _ _ _ _ _ h2 htype2, hflag, hlab]

/-- Witness of C9: the manifest leaves tls-acme on and turns the routes off,
the label of the service turns tls-acme off. -/
theorem tls_acme_chain_witness :
    ∃ sv calls,
      composeToServiceValues (exampleExternals []) routeFlagsBuildValues "node"
        labelledNodeService false = (.returned sv none, calls) ∧
      Contains supportedAutogeneratedTypes sv.Type_ = true ∧
      sv.AutogeneratedRoutesTLSAcme = false ∧
      sv.AutogeneratedRoutesTLSAcme = specAutogenTLSAcme (some true) "false" :=
  ⟨_, _, rfl, by decide, by decide,
    (tls_acme_chain (exampleExternals []) routeFlagsBuildValues "node"
      labelledNodeService false _ _ rfl (by decide)).1⟩

/-! ## DBaaS checks -/

theorem supportedDBTypes_cases (lagoonType : String)
    (h : Contains supportedDBTypes lagoonType = true) :
    lagoonType = "mariadb" ∨ lagoonType = "mariadb-dbaas" ∨ lagoonType = "postgres" ∨
      lagoonType = "postgres-dbaas" ∨ lagoonType = "mongodb" ∨ lagoonType = "mongodb-dbaas" := by
  simpa [Contains, supportedDBTypes] using h

theorem strings_Split_dbaas (lagoonType : String)
    (h : Contains supportedDBTypes lagoonType = true) :
    ∃ rest, strings_Split lagoonType "-dbaas" = specBaseType lagoonType :: rest := by
  rcases supportedDBTypes_cases lagoonType h with h | h | h | h | h | h <;> subst h
  · exact ⟨[], by decide⟩
  · exact ⟨[""], by decide⟩
  · exact ⟨[], by decide⟩
  · exact ⟨[""], by decide⟩
  · exact ⟨[], by decide⟩
  · exact ⟨[""], by decide⟩

theorem dbaasChecks_unhealthy (buildValues : BuildValues) (composeServiceValues : ServiceConfig)
    (lagoonOverrideName lagoonType : String) (debug : Bool) (err : String)
    (hdb : Contains supportedDBTypes lagoonType = true)
    (hhealth : buildValues.DBaaSClient.CheckHealth buildValues.DBaaSOperatorEndpoint = some err) :
    dbaasChecks buildValues composeServiceValues lagoonOverrideName lagoonType debug =
      (some (specBaseType lagoonType ++ "-single", buildValues.EnvironmentType, false),
        [DBaaSCall.checkHealth buildValues.DBaaSOperatorEndpoint]) := by
  obtain ⟨rest, hs⟩ := strings_Split_dbaas lagoonType hdb
  unfold dbaasChecks
  simp only [hdb, if_true, hs, hhealth]

/-- C10: for a service whose type after the overrides and the conversion of
the old types is a supported database type, a health check of the DBaaS
endpoint that returns an error does not end the resolution: the health check
is the only call made on the client (`CheckProvider` is not called), the
resolution goes on with the base type followed by "-single" and with
`svcIsDBaaS` false, and every descriptor it returns has that type and
`IsDBaaS` false. -/
theorem unhealthy_dbaas_falls_back_to_single (x : Externals) (buildValues : BuildValues)
    (composeService : String) (composeServiceValues : ServiceConfig) (debug : Bool)
    (lagoonType err : String)
    (hlabel : CheckServiceLagoonLabel composeServiceValues.Labels "lagoon.type" ≠ "")
    (htype : typeAtNoneCheck buildValues composeService composeServiceValues = some lagoonType)
    (hdb : Contains supportedDBTypes lagoonType = true)
    (hhealth : buildValues.DBaaSClient.CheckHealth buildValues.DBaaSOperatorEndpoint = some err) :
    composeToServiceValues x buildValues composeService composeServiceValues debug =
      (serviceValuesOfType x buildValues composeService composeServiceValues debug
        (overrideNameOf composeService composeServiceValues)
        (specBaseType lagoonType ++ "-single") buildValues.EnvironmentType false
        (autogenEnabledOf buildValues composeServiceValues)
        (autogenTLSAcmeEnabledOf buildValues composeServiceValues)
        (persistentPathOf x buildValues composeService composeServiceValues)
        (persistentNameOf x buildValues composeService composeServiceValues)
        (persistentSizeOf x buildValues composeService composeServiceValues),
       [DBaaSCall.checkHealth buildValues.DBaaSOperatorEndpoint]) ∧
    ∀ sv calls,
      composeToServiceValues x buildValues composeService composeServiceValues debug =
        (.returned sv none, calls) →
      sv.Type_ = specBaseType lagoonType ++ "-single" ∧ sv.IsDBaaS = false := by
  have hne : lagoonType ≠ "none" := by
    intro hn
    subst hn
    exact absurd hdb (by decide)
  have heq : composeToServiceValues x buildValues composeService composeServiceValues debug =
      (serviceValuesOfType x buildValues composeService composeServiceValues debug
        (overrideNameOf composeService composeServiceValues)
        (specBaseType lagoonType ++ "-single") buildValues.EnvironmentType false
        (autogenEnabledOf buildValues composeServiceValues)
        (autogenTLSAcmeEnabledOf buildValues composeServiceValues)
        (persistentPathOf x buildValues composeService composeServiceValues)
        (persistentNameOf x buildValues composeService composeServiceValues)
        (persistentSizeOf x buildValues composeService composeServiceValues),
       [DBaaSCall.checkHealth buildValues.DBaaSOperatorEndpoint]) := by
    rw [composeToServiceValues_of_label _ _ _ _ _ hlabel, htype]
    simp only [hne, if_false]
    unfold resolveWithType
    rw [dbaasChecks_unhealthy _ _ _ _ _ err hdb hhealth]
  refine ⟨heq, ?_⟩
  intro sv calls h
  rw [heq] at h
  simp only [Prod.mk.injEq] at h
  obtain ⟨_, _, h3, _, _, h6, _⟩ := serviceValuesOfType_returned _ _ _ _ _ _ _ _ _ _ _ _ _ _ _ h.1
  exact ⟨h3, h6⟩

/-- Witness of C10: a mariadb service and an unreachable DBaaS endpoint give
a mariadb-single service. -/
theorem unhealthy_dbaas_falls_back_to_single_witness :
    (composeToServiceValues (exampleExternals []) exampleBuildValues "mariadb" mariadbService
      false).2 = [DBaaSCall.checkHealth ""] ∧
    (resolved (exampleExternals []) exampleBuildValues mariadbService).map
      (fun sv => (sv.Type_, sv.IsDBaaS)) = some ("mariadb-single", false) ∧
    ∀ sv calls,
      composeToServiceValues (exampleExternals []) exampleBuildValues "mariadb" mariadbService
        false = (.returned sv none, calls) →
      sv.Type_ = specBaseType "mariadb" ++ "-single" ∧ sv.IsDBaaS = false :=
  ⟨by decide, by decide,
    (unhealthy_dbaas_falls_back_to_single (exampleExternals []) exampleBuildValues "mariadb"
      mariadbService false "mariadb" "unreachable" (by decide) (by decide) (by decide)
      (by decide)).2⟩

/-! ## The loops of `generateServicesFromDockerCompose` -/

theorem foldl_appendService_services (resolvedServices : List ServiceValues)
    (buildValues : BuildValues) :
    (resolvedServices.foldl appendService buildValues).Services =
      buildValues.Services ++ resolvedServices := by
  induction resolvedServices generalizing buildValues with
  | nil => simp
  | cons sv rest ih =>
    rw [List.foldl_cons, ih]
    unfold appendService
    by_cases hb : sv.BackupsEnabled = true <;> simp [hb]

theorem ResolvedInOrder.append (x : Externals) (debug : Bool) (buildValues : BuildValues)
    (declared1 declared2 : List ServiceConfig) (resolved1 resolved2 : List ServiceValues)
    (h1 : ResolvedInOrder x debug buildValues declared1 resolved1)
    (h2 : ResolvedInOrder x debug (resolved1.foldl appendService buildValues) declared2
      resolved2) :
    ResolvedInOrder x debug buildValues (declared1 ++ declared2) (resolved1 ++ resolved2) := by
  induction h1 with
  | nil bv => simpa using h2
  | cons bv c sv made declared resolvedServices hc _ ih =>
    exact ResolvedInOrder.cons bv c sv made _ _ hc (ih h2)

theorem composeServicesLoop_ok (x : Externals) (debug : Bool) (serviceName : String)
    (services : List ServiceConfig) (buildValues : BuildValues) (calls : List DBaaSCall)
    (buildValues2 : BuildValues) (calls2 : List DBaaSCall)
    (h : composeServicesLoop x debug serviceName services buildValues calls =
      .ok (buildValues2, calls2)) :
    ∃ resolvedServices,
      ResolvedInOrder x debug buildValues
        (services.filter (fun composeServiceValues => serviceName = composeServiceValues.Name))
        resolvedServices ∧
      buildValues2 = resolvedServices.foldl appendService buildValues := by
  induction services generalizing buildValues calls with
  | nil =>
    unfold composeServicesLoop at h
    cases h
    exact ⟨[], ResolvedInOrder.nil _, rfl⟩
  | cons c rest ih =>
    unfold composeServicesLoop at h
    by_cases hn : serviceName = c.Name
    · rw [if_pos hn] at h
      rcases hr : composeToServiceValues x buildValues c.Name c debug with ⟨r, made⟩
      rw [hr] at h
      rcases r with ⟨sv, err⟩ | _
      · rcases err with _ | e
        · simp only [] at h
          obtain ⟨svs, hres, hfin⟩ := ih _ _ h
          refine ⟨sv :: svs, ?_, ?_⟩
          · simp only [List.filter_cons, hn, decide_True, if_true]
            rw [hn] at hres
            exact ResolvedInOrder.cons _ _ _ made _ _ hr hres
          · simpa using hfin
        · cases h
      · cases h
    · simp only [hn, if_false] at h
      obtain ⟨svs, hres, hfin⟩ := ih _ _ h
      refine ⟨svs, ?_, hfin⟩
      simpa [List.filter_cons, hn] using hres

theorem composeServicesLoop_error (x : Externals) (debug : Bool) (serviceName : String)
    (services : List ServiceConfig) (buildValues : BuildValues) (calls : List DBaaSCall)
    (r : Ret BuildValues × List DBaaSCall)
    (h : composeServicesLoop x debug serviceName services buildValues calls = .error r) :
    r.1.value = none := by
  induction services generalizing buildValues calls with
  | nil =>
    unfold composeServicesLoop at h
    cases h
  | cons c rest ih =>
    unfold composeServicesLoop at h
    by_cases hn : serviceName = c.Name
    · rw [if_pos hn] at h
      rcases hr : composeToServiceValues x buildValues c.Name c debug with ⟨r1, made⟩
      rw [hr] at h
      rcases r1 with ⟨sv, err⟩ | _
      · rcases err with _ | e
        · exact ih _ _ h
        · cases h; rfl
      · cases h; rfl
    · rw [if_neg hn] at h
      exact ih _ _ h

theorem composeOrderLoop_error (x : Externals) (debug : Bool) (services : List ServiceConfig)
    (order : List OriginalServiceOrder) (buildValues : BuildValues) (calls : List DBaaSCall)
    (r : Ret BuildValues × List DBaaSCall)
    (h : composeOrderLoop x debug services order buildValues calls = .error r) :
    r.1.value = none := by
  induction order generalizing buildValues calls with
  | nil =>
    unfold composeOrderLoop at h
    cases h
  | cons o rest ih =>
    unfold composeOrderLoop at h
    rcases hi : composeServicesLoop x debug o.Name services buildValues calls with r1 | ⟨bv1, calls1⟩
    · rw [hi] at h
      cases h
      exact composeServicesLoop_error _ _ _ _ _ _ _ hi
    · rw [hi] at h
      exact ih _ _ h

theorem composeOrderLoop_ok (x : Externals) (debug : Bool) (services : List ServiceConfig)
    (order : List OriginalServiceOrder) (buildValues : BuildValues) (calls : List DBaaSCall)
    (buildValues2 : BuildValues) (calls2 : List DBaaSCall)
    (h : composeOrderLoop x debug services order buildValues calls =
      .ok (buildValues2, calls2)) :
    ∃ resolvedServices,
      ResolvedInOrder x debug buildValues (declaredServices services order) resolvedServices ∧
      buildValues2 = resolvedServices.foldl appendService buildValues := by
  induction order generalizing buildValues calls with
  | nil =>
    unfold composeOrderLoop at h
    cases h
    exact ⟨[], ResolvedInOrder.nil _, rfl⟩
  | cons o rest ih =>
    unfold composeOrderLoop at h
    rcases hi : composeServicesLoop x debug o.Name services buildValues calls with r | ⟨bv1, calls1⟩
    · rw [hi] at h; cases h
    · rw [hi] at h
      simp only [] at h
      obtain ⟨svs1, hres1, hfin1⟩ := composeServicesLoop_ok _ _ _ _ _ _ _ _ hi
      obtain ⟨svs2, hres2, hfin2⟩ := ih _ _ h
      refine ⟨svs1 ++ svs2, ?_, ?_⟩
      · unfold declaredServices
        rw [List.flatMap_cons]
        apply ResolvedInOrder.append _ _ _ _ _ _ _ hres1
        rw [← hfin1]
        exact hres2
      · rw [hfin2, hfin1, List.foldl_append]

theorem generateServicesFromDockerCompose_ok (x : Externals) (buildValues : BuildValues)
    (ignoreNonStringKeyErrors ignoreMissingEnvFiles debug : Bool)
    (lCompose : List ServiceConfig) (lComposeOrder : List OriginalServiceOrder)
    (buildValues2 : BuildValues) (calls : List DBaaSCall)
    (hparse : x.UnmarshaDockerComposeYAML buildValues.LagoonYAML.DockerComposeYAML
      ignoreNonStringKeyErrors ignoreMissingEnvFiles
      (composeVarsOf buildValues.EnvironmentVariables) = .ok (lCompose, lComposeOrder))
    (h : generateServicesFromDockerCompose x buildValues ignoreNonStringKeyErrors
      ignoreMissingEnvFiles debug = (.returned buildValues2 none, calls)) :
    ResolvedInOrder x debug { buildValues with Services := [] }
      (declaredServices lCompose lComposeOrder) buildValues2.Services := by
  unfold generateServicesFromDockerCompose at h
  simp only [hparse] at h
  rcases ho : composeOrderLoop x debug lCompose lComposeOrder
    { buildValues with Services := [] } [] with r | ⟨bv1, calls1⟩
  · rw [ho] at h
    simp only [] at h
    have hv := composeOrderLoop_error _ _ _ _ _ _ _ ho
    rw [h] at hv
    cases hv
  · rw [ho] at h
    simp only [Prod.mk.injEq, Ret.returned.injEq, and_true] at h
    obtain ⟨svs, hres, hfin⟩ := composeOrderLoop_ok _ _ _ _ _ _ _ _ ho
    rw [← h.1, hfin, foldl_appendService_services]
    simpa using hres

theorem typeAtNoneCheck_appendService (buildValues : BuildValues) (cService : ServiceValues)
    (composeService : String) (composeServiceValues : ServiceConfig) :
    typeAtNoneCheck (appendService buildValues cService) composeService composeServiceValues =
      typeAtNoneCheck buildValues composeService composeServiceValues := by
  unfold appendService
  by_cases hb : cService.BackupsEnabled = true <;> simp only [hb, if_true, if_false] <;> rfl

theorem append_single_ne_none (base suffix : String) (hs : 4 < suffix.length) :
    base ++ suffix ≠ "none" := by
  intro h
  have hl := congrArg String.length h
  rw [String.length_append] at hl
  have : ("none" : String).length = 4 := by decide
  omega

theorem dbaasChecks_ne_none (buildValues : BuildValues) (composeServiceValues : ServiceConfig)
    (lagoonOverrideName lagoonType : String) (debug : Bool)
    (finalType dbaasEnvironment : String) (svcIsDBaaS : Bool) (calls : List DBaaSCall)
    (hne : lagoonType ≠ "none")
    (h : dbaasChecks buildValues composeServiceValues lagoonOverrideName lagoonType debug =
      (some (finalType, dbaasEnvironment, svcIsDBaaS), calls)) :
    finalType ≠ "none" := by
  unfold dbaasChecks at h
  simp only [] at h
  split at h
  · split at h
    · cases h
    · split at h
      · cases h
        exact append_single_ne_none _ _ (by decide)
      · split at h
        · cases h
        · split at h
          · cases h
            exact append_single_ne_none _ _ (by decide)
          · cases h
            exact append_single_ne_none _ _ (by decide)
  · cases h
    exact hne

/-! ## Services of type "none" -/

theorem dbaasChecks_empty_iff (buildValues : BuildValues) (composeServiceValues : ServiceConfig)
    (lagoonOverrideName lagoonType : String) (debug : Bool)
    (finalType dbaasEnvironment : String) (svcIsDBaaS : Bool) (calls : List DBaaSCall)
    (h : dbaasChecks buildValues composeServiceValues lagoonOverrideName lagoonType debug =
      (some (finalType, dbaasEnvironment, svcIsDBaaS), calls)) :
    finalType = "" ↔ lagoonType = "" := by
  have hlong : ∀ base suffix : String, 0 < suffix.length → base ++ suffix ≠ "" := by
    intro base suffix hs hh
    have hl := congrArg String.length hh
    rw [String.length_append] at hl
    have h0 : ("" : String).length = 0 := rfl
    omega
  unfold dbaasChecks at h
  simp only [] at h
  split at h
  · rename_i hdb
    have hne : lagoonType ≠ "" := by
      intro he
      rw [he] at hdb
      exact absurd hdb (by decide)
    split at h
    · cases h
    · split at h
      · cases h
        exact ⟨fun hh => absurd hh (hlong _ _ (by decide)), fun hh => absurd hh hne⟩
      · split at h
        · cases h
        · split at h
          · cases h
            exact ⟨fun hh => absurd hh (hlong _ _ (by decide)), fun hh => absurd hh hne⟩
          · cases h
            exact ⟨fun hh => absurd hh (hlong _ _ (by decide)), fun hh => absurd hh hne⟩
  · cases h
    exact Iff.rfl

theorem ResolvedInOrder.entries (x : Externals) (debug : Bool) (buildValues : BuildValues)
    (declared : List ServiceConfig) (resolvedServices : List ServiceValues)
    (h : ResolvedInOrder x debug buildValues declared resolvedServices)
    (buildValues0 : BuildValues)
    (hsame : ∀ composeService composeServiceValues,
      typeAtNoneCheck buildValues composeService composeServiceValues =
        typeAtNoneCheck buildValues0 composeService composeServiceValues) :
    List.Forall₂
      (fun composeServiceValues cService =>
        (typeAtNoneCheck buildValues0 composeServiceValues.Name composeServiceValues =
            some "none" ∧ cService = {}) ∨
        (∃ lagoonType,
          typeAtNoneCheck buildValues0 composeServiceValues.Name composeServiceValues =
            some lagoonType ∧ lagoonType ≠ "none" ∧
          cService.Name = composeServiceValues.Name ∧ cService.Type_ ≠ "none" ∧
          (cService.Type_ = "" ↔ lagoonType = "")))
      declared resolvedServices := by
  induction h with
  | nil bv => exact List.Forall₂.nil
  | cons bv c sv made declared resolvedServices hc _ ih =>
    refine List.Forall₂.cons ?_ (ih ?_)
    · obtain ⟨_, t, ht, h1 | ⟨hne, ft, e, d, hd, hname, _, hty, _⟩⟩ :=
        composeToServiceValues_returned _ _ _ _ _ _ _ hc
      · left
        obtain ⟨hn, hz, _⟩ := h1
        rw [← hsame, ht, hn]
        exact ⟨rfl, hz⟩
      · right
        refine ⟨t, ?_, hne, hname, ?_, ?_⟩
        · rw [← hsame, ht]
        · rw [hty]
          exact dbaasChecks_ne_none _ _ _ _ _ _ _ _ _ hne hd
        · rw [hty]
          exact dbaasChecks_empty_iff _ _ _ _ _ _ _ _ _ hd
    · intro n c2
      rw [typeAtNoneCheck_appendService, hsame]

theorem forall₂_named_entries (buildValues : BuildValues) (declared : List ServiceConfig)
    (resolvedServices : List ServiceValues)
    (h : List.Forall₂
      (fun composeServiceValues cService =>
        (typeAtNoneCheck buildValues composeServiceValues.Name composeServiceValues =
            some "none" ∧ cService = {}) ∨
        (∃ lagoonType,
          typeAtNoneCheck buildValues composeServiceValues.Name composeServiceValues =
            some lagoonType ∧ lagoonType ≠ "none" ∧
          cService.Name = composeServiceValues.Name ∧ cService.Type_ ≠ "none" ∧
          (cService.Type_ = "" ↔ lagoonType = "")))
      declared resolvedServices) :
    List.Forall₂
      (fun composeServiceValues cService =>
        composeServiceValues.Name ≠ "" →
          (cService.Name = "" ↔
            typeAtNoneCheck buildValues composeServiceValues.Name composeServiceValues =
              some "none"))
      declared resolvedServices := by
  induction h with
  | nil => exact List.Forall₂.nil
  | cons hab _ ih =>
    refine List.Forall₂.cons ?_ ih
    intro hname
    rcases hab with ⟨hnone, hz⟩ | ⟨t, ht, hne, hn, _⟩
    · rw [hz]
      exact ⟨fun _ => hnone, fun _ => rfl⟩
    · rw [hn, ht]
      exact ⟨fun hh => absurd hh hname, fun hh => absurd (Option.some.inj hh) hne⟩

/-- C3, as the code has it: after a successful
`generateServicesFromDockerCompose`, `buildValues.Services` has exactly one
entry per declared service, in the declaration order, also for a service
whose type resolves to "none": the entry of such a service is the zero
`ServiceValues`, the entry of every other service has the declared name and a
type other than "none", which is empty only when the type that the overrides
resolve for the service is empty. For declared names that are not empty, the
entries with an empty name are exactly those of the services whose type
resolves to "none". -/
theorem services_hold_one_entry_per_declared_service (x : Externals)
    (buildValues : BuildValues) (ignoreNonStringKeyErrors ignoreMissingEnvFiles debug : Bool)
    (lCompose : List ServiceConfig) (lComposeOrder : List OriginalServiceOrder)
    (buildValues2 : BuildValues) (calls : List DBaaSCall)
    (hparse : x.UnmarshaDockerComposeYAML buildValues.LagoonYAML.DockerComposeYAML
      ignoreNonStringKeyErrors ignoreMissingEnvFiles
      (composeVarsOf buildValues.EnvironmentVariables) = .ok (lCompose, lComposeOrder))
    (h : generateServicesFromDockerCompose x buildValues ignoreNonStringKeyErrors
      ignoreMissingEnvFiles debug = (.returned buildValues2 none, calls)) :
    buildValues2.Services.length = (declaredServices lCompose lComposeOrder).length ∧
    List.Forall₂
      (fun composeServiceValues cService =>
        (typeAtNoneCheck buildValues composeServiceValues.Name composeServiceValues =
            some "none" ∧ cService = {}) ∨
        (∃ lagoonType,
          typeAtNoneCheck buildValues composeServiceValues.Name composeServiceValues =
            some lagoonType ∧ lagoonType ≠ "none" ∧
          cService.Name = composeServiceValues.Name ∧ cService.Type_ ≠ "none" ∧
          (cService.Type_ = "" ↔ lagoonType = "")))
      (declaredServices lCompose lComposeOrder) buildValues2.Services ∧
    List.Forall₂
      (fun composeServiceValues cService =>
        composeServiceValues.Name ≠ "" →
          (cService.Name = "" ↔
            typeAtNoneCheck buildValues composeServiceValues.Name composeServiceValues =
              some "none"))
      (declaredServices lCompose lComposeOrder) buildValues2.Services := by
  have hres := generateServicesFromDockerCompose_ok _ _ _ _ _ _ _ _ _ hparse h
  have hall := ResolvedInOrder.entries _ _ _ _ _ hres buildValues (fun _ _ => rfl)
  exact ⟨hall.length_eq.symm, hall, forall₂_named_entries _ _ _ hall⟩

/-- Witness of C3 as the code has it: a node service and a service of type
"none" give two entries, the second with an empty name. -/
theorem services_hold_one_entry_per_declared_service_witness :
    ∃ buildValues2 calls,
      generateServicesFromDockerCompose (exampleExternals [nodeService, noneService])
        exampleBuildValues false false false = (.returned buildValues2 none, calls) ∧
      buildValues2.Services.map (fun cService => (cService.Name, cService.Type_)) =
        [("node", "node"), ("", "")] ∧
      buildValues2.Services.length =
        (declaredServices [nodeService, noneService]
          [{ Name := "node" }, { Name := "redis" }]).length :=
  ⟨_, _, rfl, by decide,
    (services_hold_one_entry_per_declared_service (exampleExternals [nodeService, noneService])
      exampleBuildValues false false false [nodeService, noneService]
      [{ Name := "node" }, { Name := "redis" }] _ _ rfl rfl).1⟩

/-- Counterexample to C3: the service `redis` of type "none" is not left out
of `buildValues.Services`; it has an entry, the second of the two, whose name
and type are empty. With the entry `node:` in `LAGOON_SERVICE_TYPES` the type
that the overrides resolve for the service `node` is empty, and so is the type
of its entry, which has the name of the service. -/
theorem none_service_keeps_an_entry :
    (generateServicesFromDockerCompose (exampleExternals [nodeService, noneService])
      exampleBuildValues false false false).1.value.map
      (fun buildValues => buildValues.Services.map (fun cService =>
        (cService.Name, cService.Type_))) = some [("node", "node"), ("", "")] ∧
    typeAtNoneCheck emptyTypeBuildValues "node" nodeService = some "" ∧
    (generateServicesFromDockerCompose (exampleExternals [nodeService, noneService])
      emptyTypeBuildValues false false false).1.value.map
      (fun buildValues => buildValues.Services.map (fun cService =>
        (cService.Name, cService.Type_))) = some [("node", ""), ("", "")] := by
  refine ⟨by decide, by decide, by decide⟩

/-! ## Override name collisions -/

theorem composeToServiceValues_collision (x : Externals) (buildValues : BuildValues)
    (composeService : String) (composeServiceValues : ServiceConfig) (debug : Bool)
    (sv : ServiceValues) (err : Option String) (calls : List DBaaSCall)
    (hname : CheckServiceLagoonLabel composeServiceValues.Labels "lagoon.name" ≠ "")
    (hexists : overrideNameExists buildValues.Services
      (CheckServiceLagoonLabel composeServiceValues.Labels "lagoon.name") = true)
    (h : composeToServiceValues x buildValues composeService composeServiceValues debug =
      (.returned sv err, calls)) :
    sv.AutogeneratedRoutesEnabled = false := by
  rcases err with _ | e
  · obtain ⟨_, t, _, h1 | ⟨_, ft, e, d, _, _, _, _, ha, _⟩⟩ :=
      composeToServiceValues_returned _ _ _ _ _ _ _ h
    · obtain ⟨_, hz, _⟩ := h1
      subst hz
      rfl
    · rw [ha]
      unfold autogenEnabledOf
      rw [if_pos ⟨hname, hexists⟩, Bool.and_false]
  · have hz := composeToServiceValues_error _ _ _ _ _ _ _ _ h
    subst hz
    rfl

theorem ResolvedInOrder.collisions (x : Externals) (debug : Bool) (buildValues : BuildValues)
    (declared : List ServiceConfig) (resolvedServices : List ServiceValues)
    (h : ResolvedInOrder x debug buildValues declared resolvedServices) :
    ∀ (j : Nat) (composeServiceValues : ServiceConfig) (later : ServiceValues),
      declared[j]? = some composeServiceValues → resolvedServices[j]? = some later →
      CheckServiceLagoonLabel composeServiceValues.Labels "lagoon.name" ≠ "" →
      later.OverrideName ≠ "" →
      (∃ earlier ∈ buildValues.Services ++ resolvedServices.take j,
        earlier.OverrideName = later.OverrideName) →
      later.AutogeneratedRoutesEnabled = false := by
  induction h with
  | nil bv =>
    intro j c later hj
    simp at hj
  | cons bv c sv made declared resolvedServices hc _ ih =>
    intro j c2 later hj hl hname hne hex
    cases j with
    | zero =>
      simp only [List.getElem?_cons_zero, Option.some.injEq] at hj hl
      subst hj hl
      simp only [List.take_zero, List.append_nil] at hex
      obtain ⟨earlier, hmem, heq⟩ := hex
      apply composeToServiceValues_collision _ _ _ _ _ _ _ _ hname ?_ hc
      obtain ⟨_, t, _, h1 | ⟨_, ft, e, d, _, _, hon, _⟩⟩ :=
        composeToServiceValues_returned _ _ _ _ _ _ _ hc
      · obtain ⟨_, hz, _⟩ := h1
        subst hz
        exact absurd rfl hne
      · unfold overrideNameExists
        rw [List.any_eq_true]
        refine ⟨earlier, hmem, ?_⟩
        rw [heq, hon]
        unfold overrideNameOf
        rw [if_pos hname]
        simp
    | succ k =>
      simp only [List.getElem?_cons_succ] at hj hl
      apply ih k c2 later hj hl hname hne
      obtain ⟨earlier, hmem, heq⟩ := hex
      refine ⟨earlier, ?_, heq⟩
      have hs : (appendService bv sv).Services = bv.Services ++ [sv] := by
        unfold appendService
        by_cases hb : sv.BackupsEnabled = true <;> simp [hb]
      rw [hs]
      simpa [List.take_succ_cons, List.append_assoc] using hmem

theorem mem_take_of_getElem? {α : Type} (l : List α) (i j : Nat) (a : α)
    (hij : i < j) (h : l[i]? = some a) : a ∈ l.take j := by
  have h2 : (l.take j)[i]? = some a := by
    rw [List.getElem?_take_of_lt hij, h]
  exact List.getElem?_mem h2

/-- C5, as the code has it: after a successful
`generateServicesFromDockerCompose`, whenever two entries of
`buildValues.Services` have the same non-empty `OverrideName` and the later
one comes from a service that has a `lagoon.name` label, the later one has
`AutogeneratedRoutesEnabled = false`. -/
theorem later_service_of_a_name_has_no_autogenerated_route (x : Externals)
    (buildValues : BuildValues) (ignoreNonStringKeyErrors ignoreMissingEnvFiles debug : Bool)
    (lCompose : List ServiceConfig) (lComposeOrder : List OriginalServiceOrder)
    (buildValues2 : BuildValues) (calls : List DBaaSCall)
    (hparse : x.UnmarshaDockerComposeYAML buildValues.LagoonYAML.DockerComposeYAML
      ignoreNonStringKeyErrors ignoreMissingEnvFiles
      (composeVarsOf buildValues.EnvironmentVariables) = .ok (lCompose, lComposeOrder))
    (h : generateServicesFromDockerCompose x buildValues ignoreNonStringKeyErrors
      ignoreMissingEnvFiles debug = (.returned buildValues2 none, calls)) :
    ∀ (i j : Nat) (composeServiceValues : ServiceConfig) (earlier later : ServiceValues),
      i < j →
      (declaredServices lCompose lComposeOrder)[j]? = some composeServiceValues →
      buildValues2.Services[i]? = some earlier →
      buildValues2.Services[j]? = some later →
      CheckServiceLagoonLabel composeServiceValues.Labels "lagoon.name" ≠ "" →
      earlier.OverrideName = later.OverrideName → later.OverrideName ≠ "" →
      later.AutogeneratedRoutesEnabled = false := by
  intro i j c earlier later hij hc he hl hname heq hne
  have hres := generateServicesFromDockerCompose_ok _ _ _ _ _ _ _ _ _ hparse h
  apply ResolvedInOrder.collisions _ _ _ _ _ hres j c later hc hl hname hne
  refine ⟨earlier, ?_, heq⟩
  simp only [List.nil_append]
  exact mem_take_of_getElem? _ _ _ _ hij he

/-- Witness of C5 as the code has it: the service `web` is followed by the
service `app`, whose `lagoon.name` label is "web". -/
theorem later_service_of_a_name_has_no_autogenerated_route_witness :
    ∃ buildValues2 calls,
      generateServicesFromDockerCompose (exampleExternals [webService, renamedService])
        exampleBuildValues false false false = (.returned buildValues2 none, calls) ∧
      ∃ earlier later,
        buildValues2.Services[0]? = some earlier ∧ buildValues2.Services[1]? = some later ∧
        earlier.OverrideName = later.OverrideName ∧ later.OverrideName = "web" ∧
        later.AutogeneratedRoutesEnabled = false :=
  ⟨_, _, rfl, _, _, rfl, rfl, by decide, by decide,
    later_service_of_a_name_has_no_autogenerated_route
      (exampleExternals [webService, renamedService]) exampleBuildValues false false false
      [webService, renamedService] [{ Name := "web" }, { Name := "app" }] _ _ rfl rfl
      0 1 renamedService _ _ (by decide) (by decide) rfl rfl (by decide) (by decide)
      (by decide)⟩

/-- Counterexample to C5: the service `app`, whose `lagoon.name` label is
"web", is followed by the service `web`, which has no such label. Both
entries have the override name "web", and the later one keeps its
autogenerated route. -/
theorem later_service_named_by_declaration_keeps_route :
    (generateServicesFromDockerCompose (exampleExternals [renamedService, webService])
      exampleBuildValues false false false).1.value.map
      (fun buildValues => buildValues.Services.map (fun cService =>
        (cService.Name, cService.OverrideName, cService.AutogeneratedRoutesEnabled))) =
      some [("app", "web", true), ("web", "web", true)] := by
  decide

/-- C6, as the code has it: when the `lagoon.name` label of a service is the
override name of a service that is already in `buildValues.Services`, the
descriptor that `composeToServiceValues` returns has
`AutogeneratedRoutesEnabled = false`, whatever the manifest flags and the
labels are; `AutogeneratedRoutesTLSAcme` is not touched by the collision and
has the value of its own chain for a type that supports autogenerated routes. -/
theorem label_collision_disables_autogenerated_route (x : Externals)
    (buildValues : BuildValues) (composeService : String)
    (composeServiceValues : ServiceConfig) (debug : Bool)
    (sv : ServiceValues) (err : Option String) (calls : List DBaaSCall)
    (hname : CheckServiceLagoonLabel composeServiceValues.Labels "lagoon.name" ≠ "")
    (hexists : overrideNameExists buildValues.Services
      (CheckServiceLagoonLabel composeServiceValues.Labels "lagoon.name") = true)
    (h : composeToServiceValues x buildValues composeService composeServiceValues debug =
      (.returned sv err, calls)) :
    sv.AutogeneratedRoutesEnabled = false ∧
    sv.AutogeneratedRoutesTLSAcme =
      (Contains supportedAutogeneratedTypes sv.Type_ &&
        specAutogenTLSAcme buildValues.LagoonYAML.Routes.Autogenerate.TLSAcme
          (CheckServiceLagoonLabel composeServiceValues.Labels
            "lagoon.autogeneratedroute.tls-acme")) := by
  refine ⟨composeToServiceValues_collision _ _ _ _ _ _ _ _ hname hexists h, ?_⟩
  rcases err with _ | e
  · obtain ⟨_, t, _, h1 | ⟨_, ft, e, d, _, _, _, hty, _, htls, _, _⟩⟩ :=
      composeToServiceValues_returned _ _ _ _ _ _ _ h
    · obtain ⟨_, hz, _⟩ := h1
      subst hz
      rfl
    · rw [htls, hty]
      congr 1
      unfold autogenTLSAcmeEnabledOf specAutogenTLSAcme
      rw [labelOverride_eq]
      congr 1
      unfold manifestAutogenTLSAcmeEnabled
      generalize buildValues.LagoonYAML.Routes.Autogenerate.TLSAcme = flag
      rcases flag with _ | b
      · rfl
      · cases b <;> rfl
  · have hz := composeToServiceValues_error _ _ _ _ _ _ _ _ h
    subst hz
    rfl

/-- Witness of C6 as the code has it: a service of override name "web" exists
and the service `app` has the `lagoon.name` label "web". -/
theorem label_collision_disables_autogenerated_route_witness :
    ∃ sv calls,
      composeToServiceValues (exampleExternals []) webResolvedBuildValues "app" renamedService
        false = (.returned sv none, calls) ∧
      sv.OverrideName = "web" ∧
      (sv.AutogeneratedRoutesEnabled = false ∧
      sv.AutogeneratedRoutesTLSAcme =
        (Contains supportedAutogeneratedTypes sv.Type_ && specAutogenTLSAcme none "")) :=
  ⟨_, _, rfl, by decide,
    label_collision_disables_autogenerated_route (exampleExternals []) webResolvedBuildValues
      "app" renamedService false _ none _ (by decide) (by decide) rfl⟩

/-- Counterexample to C6: a service of override name "web" exists and the
service `app` has the `lagoon.name` label "web"; the descriptor of `app` has
`AutogeneratedRoutesEnabled = false` and `AutogeneratedRoutesTLSAcme = true`. -/
theorem label_collision_keeps_tls_acme :
    (resolved (exampleExternals []) webResolvedBuildValues renamedService).map
      (fun sv => (sv.OverrideName, sv.AutogeneratedRoutesEnabled,
        sv.AutogeneratedRoutesTLSAcme)) = some ("web", false, true) := by
  decide

/-! ## DBaaS provider check -/

theorem getDBaasEnvironment_eq (buildValues : BuildValues)
    (dbaasEnvironment lagoonOverrideName lagoonType : String) (debug : Bool)
    (hwf : ∀ v, buildValues.DBaaSEnvironmentTypeOverrides = some v →
      specEntriesHaveValue v.Value lagoonOverrideName = true) :
    ∃ err,
      getDBaasEnvironment buildValues dbaasEnvironment lagoonOverrideName lagoonType debug =
        (some (((buildValues.DBaaSClient.CheckProvider buildValues.DBaaSOperatorEndpoint
            lagoonType
            (match buildValues.DBaaSEnvironmentTypeOverrides with
              | some v =>
                ((specMatchingValues v.Value lagoonOverrideName).getLast?).getD dbaasEnvironment
              | none => dbaasEnvironment)).1, err),
          (match buildValues.DBaaSEnvironmentTypeOverrides with
            | some v =>
              ((specMatchingValues v.Value lagoonOverrideName).getLast?).getD dbaasEnvironment
            | none => dbaasEnvironment)),
        [DBaaSCall.checkProvider buildValues.DBaaSOperatorEndpoint lagoonType
          (match buildValues.DBaaSEnvironmentTypeOverrides with
            | some v =>
              ((specMatchingValues v.Value lagoonOverrideName).getLast?).getD dbaasEnvironment
            | none => dbaasEnvironment)]) := by
  unfold getDBaasEnvironment
  rcases hov : buildValues.DBaaSEnvironmentTypeOverrides with _ | v
  · simp only []
    rcases (buildValues.DBaaSClient.CheckProvider buildValues.DBaaSOperatorEndpoint lagoonType
      dbaasEnvironment).2 with _ | e
    · exact ⟨none, rfl⟩
    · exact ⟨_, rfl⟩
  · have h := hwf v hov
    unfold specEntriesHaveValue at h
    simp only []
    rw [overridesLoop_eq _ _ _ h]
    simp only [specMatchingValues]
    rcases (buildValues.DBaaSClient.CheckProvider buildValues.DBaaSOperatorEndpoint lagoonType
      _).2 with _ | e
    · exact ⟨none, rfl⟩
    · exact ⟨_, rfl⟩

theorem dbaasChecks_healthy_of (buildValues : BuildValues)
    (composeServiceValues : ServiceConfig) (lagoonOverrideName lagoonType : String)
    (debug : Bool) (found : Bool) (err : Option String) (dbaasEnvironment : String)
    (calls : List DBaaSCall)
    (hdb : Contains supportedDBTypes lagoonType = true)
    (hhealth : buildValues.DBaaSClient.CheckHealth buildValues.DBaaSOperatorEndpoint = none)
    (hg : getDBaasEnvironment buildValues
      (if CheckServiceLagoonLabel composeServiceValues.Labels
          ("lagoon." ++ specBaseType lagoonType ++ "-dbaas.environment") ≠ "" then
        CheckServiceLagoonLabel composeServiceValues.Labels
          ("lagoon." ++ specBaseType lagoonType ++ "-dbaas.environment")
        else buildValues.EnvironmentType)
      lagoonOverrideName (specBaseType lagoonType) debug =
        (some ((found, err), dbaasEnvironment), calls)) :
    dbaasChecks buildValues composeServiceValues lagoonOverrideName lagoonType debug =
      (some (specBaseType lagoonType ++ (if found = true then "-dbaas" else "-single"),
        dbaasEnvironment, found),
       DBaaSCall.checkHealth buildValues.DBaaSOperatorEndpoint :: calls) := by
  obtain ⟨rest, hs⟩ := strings_Split_dbaas lagoonType hdb
  unfold dbaasChecks
  simp only [hdb, if_true, hs, hhealth]
  rw [hg]
  cases found <;> simp

theorem dbaasChecks_healthy (buildValues : BuildValues) (composeService : String)
    (composeServiceValues : ServiceConfig) (lagoonType : String) (debug : Bool)
    (hdb : Contains supportedDBTypes lagoonType = true)
    (hhealth : buildValues.DBaaSClient.CheckHealth buildValues.DBaaSOperatorEndpoint = none)
    (hwf : ∀ v, buildValues.DBaaSEnvironmentTypeOverrides = some v →
      specEntriesHaveValue v.Value (overrideNameOf composeService composeServiceValues) = true) :
    dbaasChecks buildValues composeServiceValues
        (overrideNameOf composeService composeServiceValues) lagoonType debug =
      (some (specBaseType lagoonType ++
          (if (buildValues.DBaaSClient.CheckProvider buildValues.DBaaSOperatorEndpoint
              (specBaseType lagoonType)
              (specDBaaSEnvironment buildValues composeService composeServiceValues
                lagoonType)).1 = true then "-dbaas" else "-single"),
        specDBaaSEnvironment buildValues composeService composeServiceValues lagoonType,
        (buildValues.DBaaSClient.CheckProvider buildValues.DBaaSOperatorEndpoint
          (specBaseType lagoonType)
          (specDBaaSEnvironment buildValues composeService composeServiceValues
            lagoonType)).1),
       [DBaaSCall.checkHealth buildValues.DBaaSOperatorEndpoint,
        DBaaSCall.checkProvider buildValues.DBaaSOperatorEndpoint (specBaseType lagoonType)
          (specDBaaSEnvironment buildValues composeService composeServiceValues
            lagoonType)]) := by
  obtain ⟨err, hg⟩ := getDBaasEnvironment_eq buildValues
    (if CheckServiceLagoonLabel composeServiceValues.Labels
        ("lagoon." ++ specBaseType lagoonType ++ "-dbaas.environment") ≠ "" then
      CheckServiceLagoonLabel composeServiceValues.Labels
        ("lagoon." ++ specBaseType lagoonType ++ "-dbaas.environment")
      else buildValues.EnvironmentType)
    (overrideNameOf composeService composeServiceValues) (specBaseType lagoonType) debug hwf
  exact dbaasChecks_healthy_of buildValues composeServiceValues _ lagoonType debug _ err _ _
    hdb hhealth hg

theorem composeToServiceValues_healthy (x : Externals) (buildValues : BuildValues)
    (composeService : String) (composeServiceValues : ServiceConfig) (debug : Bool)
    (lagoonType : String)
    (hlabel : CheckServiceLagoonLabel composeServiceValues.Labels "lagoon.type" ≠ "")
    (htype : typeAtNoneCheck buildValues composeService composeServiceValues = some lagoonType)
    (hdb : Contains supportedDBTypes lagoonType = true)
    (hhealth : buildValues.DBaaSClient.CheckHealth buildValues.DBaaSOperatorEndpoint = none)
    (hwf : ∀ v, buildValues.DBaaSEnvironmentTypeOverrides = some v →
      specEntriesHaveValue v.Value (overrideNameOf composeService composeServiceValues) = true) :
    composeToServiceValues x buildValues composeService composeServiceValues debug =
      (serviceValuesOfType x buildValues composeService composeServiceValues debug
        (overrideNameOf composeService composeServiceValues)
        (specBaseType lagoonType ++
          (if (buildValues.DBaaSClient.CheckProvider buildValues.DBaaSOperatorEndpoint
              (specBaseType lagoonType)
              (specDBaaSEnvironment buildValues composeService composeServiceValues
                lagoonType)).1 = true then "-dbaas" else "-single"))
        (specDBaaSEnvironment buildValues composeService composeServiceValues lagoonType)
        (buildValues.DBaaSClient.CheckProvider buildValues.DBaaSOperatorEndpoint
          (specBaseType lagoonType)
          (specDBaaSEnvironment buildValues composeService composeServiceValues
            lagoonType)).1
        (autogenEnabledOf buildValues composeServiceValues)
        (autogenTLSAcmeEnabledOf buildValues composeServiceValues)
        (persistentPathOf x buildValues composeService composeServiceValues)
        (persistentNameOf x buildValues composeService composeServiceValues)
        (persistentSizeOf x buildValues composeService composeServiceValues),
       [DBaaSCall.checkHealth buildValues.DBaaSOperatorEndpoint,
        DBaaSCall.checkProvider buildValues.DBaaSOperatorEndpoint (specBaseType lagoonType)
          (specDBaaSEnvironment buildValues composeService composeServiceValues
            lagoonType)]) := by
  have hne : lagoonType ≠ "none" := by
    intro hn
    subst hn
    exact absurd hdb (by decide)
  rw [composeToServiceValues_of_label _ _ _ _ _ hlabel, htype]
  simp only [hne, if_false]
  unfold resolveWithType
  rw [dbaasChecks_healthy _ _ _ _ _ hdb hhealth hwf]

theorem specBaseType_mem (lagoonType : String)
    (hdb : Contains supportedDBTypes lagoonType = true) :
    specBaseType lagoonType ∈ ["mariadb", "postgres", "mongodb"] := by
  rcases supportedDBTypes_cases lagoonType hdb with h | h | h | h | h | h <;> subst h <;> decide

theorem append_suffix_ne_self (base suffix : String) (hs : 0 < suffix.length) :
    base ++ suffix ≠ base := by
  intro h
  have hl := congrArg String.length h
  rw [String.length_append] at hl
  omega

/-- C11: for a service whose type after the overrides and the conversion of
the old types is a supported database type and whose health check succeeds,
the resolution goes on with the base type (mariadb, postgres or mongodb)
followed by "-dbaas" and with `IsDBaaS` true if the provider check says that
the environment exists, and followed by "-single" with `IsDBaaS` false
otherwise; the type of a descriptor it returns is never the base type itself.
This holds in particular when the provider check returns without error. The
DBaaS environment overrides that name the service are assumed to have a
value. -/
theorem provider_decides_dbaas_or_single (x : Externals) (buildValues : BuildValues)
    (composeService : String) (composeServiceValues : ServiceConfig) (debug : Bool)
    (lagoonType : String)
    (hlabel : CheckServiceLagoonLabel composeServiceValues.Labels "lagoon.type" ≠ "")
    (htype : typeAtNoneCheck buildValues composeService composeServiceValues = some lagoonType)
    (hdb : Contains supportedDBTypes lagoonType = true)
    (hhealth : buildValues.DBaaSClient.CheckHealth buildValues.DBaaSOperatorEndpoint = none)
    (hwf : ∀ v, buildValues.DBaaSEnvironmentTypeOverrides = some v →
      specEntriesHaveValue v.Value (overrideNameOf composeService composeServiceValues) =
        true) :
    specBaseType lagoonType ∈ ["mariadb", "postgres", "mongodb"] ∧
    (composeToServiceValues x buildValues composeService composeServiceValues debug).1 =
      serviceValuesOfType x buildValues composeService composeServiceValues debug
        (overrideNameOf composeService composeServiceValues)
        (specBaseType lagoonType ++
          (if (buildValues.DBaaSClient.CheckProvider buildValues.DBaaSOperatorEndpoint
              (specBaseType lagoonType)
              (specDBaaSEnvironment buildValues composeService composeServiceValues
                lagoonType)).1 = true then "-dbaas" else "-single"))
        (specDBaaSEnvironment buildValues composeService composeServiceValues lagoonType)
        (buildValues.DBaaSClient.CheckProvider buildValues.DBaaSOperatorEndpoint
          (specBaseType lagoonType)
          (specDBaaSEnvironment buildValues composeService composeServiceValues
            lagoonType)).1
        (autogenEnabledOf buildValues composeServiceValues)
        (autogenTLSAcmeEnabledOf buildValues composeServiceValues)
        (persistentPathOf x buildValues composeService composeServiceValues)
        (persistentNameOf x buildValues composeService composeServiceValues)
        (persistentSizeOf x buildValues composeService composeServiceValues) ∧
    ∀ sv calls,
      composeToServiceValues x buildValues composeService composeServiceValues debug =
        (.returned sv none, calls) →
      sv.Type_ ≠ specBaseType lagoonType ∧
      ((buildValues.DBaaSClient.CheckProvider buildValues.DBaaSOperatorEndpoint
          (specBaseType lagoonType)
          (specDBaaSEnvironment buildValues composeService composeServiceValues
            lagoonType)).1 = true →
        sv.Type_ = specBaseType lagoonType ++ "-dbaas" ∧ sv.IsDBaaS = true) ∧
      ((buildValues.DBaaSClient.CheckProvider buildValues.DBaaSOperatorEndpoint
          (specBaseType lagoonType)
          (specDBaaSEnvironment buildValues composeService composeServiceValues
            lagoonType)).1 = false →
        sv.Type_ = specBaseType lagoonType ++ "-single" ∧ sv.IsDBaaS = false) := by
  have heq := composeToServiceValues_healthy x buildValues composeService composeServiceValues
    debug lagoonType hlabel htype hdb hhealth hwf
  refine ⟨specBaseType_mem lagoonType hdb, by rw [heq], ?_⟩
  intro sv calls h
  rw [heq] at h
  simp only [Prod.mk.injEq] at h
  obtain ⟨_, _, h3, _, _, h6, _⟩ := serviceValuesOfType_returned _ _ _ _ _ _ _ _ _ _ _ _ _ _ _ h.1
  refine ⟨?_, ?_, ?_⟩
  · rw [h3]
    apply append_suffix_ne_self
    split <;> decide
  · intro hf
    rw [h3, h6, hf]
    exact ⟨rfl, rfl⟩
  · intro hf
    rw [h3, h6, hf]
    exact ⟨rfl, rfl⟩

/-- Witness of C11: a mariadb service, a healthy endpoint and a provider that
exists give a mariadb-dbaas service. -/
theorem provider_decides_dbaas_or_single_witness :
    (resolved (exampleExternals []) dbaasBuildValues mariadbService).map
      (fun sv => (sv.Type_, sv.IsDBaaS)) = some ("mariadb-dbaas", true) ∧
    ∀ sv calls,
      composeToServiceValues (exampleExternals []) dbaasBuildValues "mariadb" mariadbService
        false = (.returned sv none, calls) →
      sv.Type_ ≠ specBaseType "mariadb" ∧
      ((dbaasBuildValues.DBaaSClient.CheckProvider dbaasBuildValues.DBaaSOperatorEndpoint
          (specBaseType "mariadb")
          (specDBaaSEnvironment dbaasBuildValues "mariadb" mariadbService "mariadb")).1 = true →
        sv.Type_ = specBaseType "mariadb" ++ "-dbaas" ∧ sv.IsDBaaS = true) ∧
      ((dbaasBuildValues.DBaaSClient.CheckProvider dbaasBuildValues.DBaaSOperatorEndpoint
          (specBaseType "mariadb")
          (specDBaaSEnvironment dbaasBuildValues "mariadb" mariadbService "mariadb")).1 = false →
        sv.Type_ = specBaseType "mariadb" ++ "-single" ∧ sv.IsDBaaS = false) :=
  ⟨by decide,
    (provider_decides_dbaas_or_single (exampleExternals []) dbaasBuildValues "mariadb"
      mariadbService false "mariadb" (by decide) (by decide) (by decide) (by decide)
      (by
        intro v hv
        have hv2 : exampleEnvironmentTypes = v := Option.some.inj hv
        subst hv2
        decide)).2.2⟩

/-- Evaluation for C12: the health check succeeds and the provider check
returns an error next to the answer `true`; the service resolves to
mariadb-dbaas with `IsDBaaS` true, not to mariadb-single. -/
theorem provider_error_with_true_gives_dbaas :
    (resolved (exampleExternals []) failingProviderBuildValues mariadbService).map
      (fun sv => (sv.Type_, sv.IsDBaaS)) = some ("mariadb-dbaas", true) ∧
    (composeToServiceValues (exampleExternals []) failingProviderBuildValues "mariadb"
      mariadbService false).2 =
      [DBaaSCall.checkHealth "http://dbaas.example.com",
       DBaaSCall.checkProvider "http://dbaas.example.com" "mariadb" "production"] := by
  decide

/-- C13: when the health check succeeds for a supported database service,
the environment name given to `CheckProvider`, which is also the
`DBaaSEnvironment` of the descriptor, is the one that the specification
describes: the last entry of `DBaaSEnvironmentTypeOverrides` for the resolved
override name, otherwise the label `lagoon.<base>-dbaas.environment`,
otherwise the environment type. The overrides that name the service are
assumed to have a value. -/
theorem dbaas_environment_priority (x : Externals) (buildValues : BuildValues)
    (composeService : String) (composeServiceValues : ServiceConfig) (debug : Bool)
    (lagoonType : String)
    (hlabel : CheckServiceLagoonLabel composeServiceValues.Labels "lagoon.type" ≠ "")
    (htype : typeAtNoneCheck buildValues composeService composeServiceValues = some lagoonType)
    (hdb : Contains supportedDBTypes lagoonType = true)
    (hhealth : buildValues.DBaaSClient.CheckHealth buildValues.DBaaSOperatorEndpoint = none)
    (hwf : ∀ v, buildValues.DBaaSEnvironmentTypeOverrides = some v →
      specEntriesHaveValue v.Value (overrideNameOf composeService composeServiceValues) =
        true) :
    (composeToServiceValues x buildValues composeService composeServiceValues debug).2 =
      [DBaaSCall.checkHealth buildValues.DBaaSOperatorEndpoint,
       DBaaSCall.checkProvider buildValues.DBaaSOperatorEndpoint (specBaseType lagoonType)
         (specDBaaSEnvironment buildValues composeService composeServiceValues lagoonType)] ∧
    ∀ sv calls,
      composeToServiceValues x buildValues composeService composeServiceValues debug =
        (.returned sv none, calls) →
      sv.DBaaSEnvironment =
        specDBaaSEnvironment buildValues composeService composeServiceValues lagoonType := by
  have heq := composeToServiceValues_healthy x buildValues composeService composeServiceValues
    debug lagoonType hlabel htype hdb hhealth hwf
  refine ⟨by rw [heq], ?_⟩
  intro sv calls h
  rw [heq] at h
  simp only [Prod.mk.injEq] at h
  obtain ⟨_, _, _, _, _, _, h7⟩ :=
    serviceValuesOfType_returned _ _ _ _ _ _ _ _ _ _ _ _ _ _ _ h.1
  exact h7

/-- Witness of C13: the label of the service says "labelled", the last entry
of the overrides for `mariadb` says "test". -/
theorem dbaas_environment_priority_witness :
    specDBaaSEnvironment dbaasBuildValues "mariadb" labelledMariadbService "mariadb" = "test" ∧
    (resolved (exampleExternals []) dbaasBuildValues labelledMariadbService).map
      (fun sv => sv.DBaaSEnvironment) = some "test" ∧
    (composeToServiceValues (exampleExternals []) dbaasBuildValues "mariadb"
      labelledMariadbService false).2 =
      [DBaaSCall.checkHealth dbaasBuildValues.DBaaSOperatorEndpoint,
       DBaaSCall.checkProvider dbaasBuildValues.DBaaSOperatorEndpoint (specBaseType "mariadb")
         (specDBaaSEnvironment dbaasBuildValues "mariadb" labelledMariadbService "mariadb")] :=
  ⟨by decide, by decide,
    (dbaas_environment_priority (exampleExternals []) dbaasBuildValues "mariadb"
      labelledMariadbService false "mariadb" (by decide) (by decide) (by decide) (by decide)
      (by
        intro v hv
        have hv2 : exampleEnvironmentTypes = v := Option.some.inj hv
        subst hv2
        decide)).1⟩

/-! ## Image provenance -/

theorem imageBuildInformation_no_image (x : Externals) (buildValues : BuildValues)
    (composeService : String) (composeServiceValues : ServiceConfig)
    (hdocker : dockerfileOf buildValues composeService composeServiceValues = "")
    (himage : composeServiceValues.Image = "") :
    imageBuildInformation x buildValues composeService composeServiceValues =
      .error ("defined Dockerfile or Image for service " ++ composeService ++ " defined") := by
  unfold dockerfileOf at hdocker
  unfold imageBuildInformation
  rcases hb : composeServiceValues.Build with _ | build
  · rw [hb] at hdocker
    by_cases ho : ((buildValues.LagoonYAML.environment buildValues.Environment).override
        composeService).Build.Dockerfile = ""
    · simp [ho, himage]
    · simp [ho] at hdocker
  · rw [hb] at hdocker
    by_cases ho : ((buildValues.LagoonYAML.environment buildValues.Environment).override
        composeService).Build.Dockerfile = ""
    · simp only [ho, ne_eq, not_true_eq_false, if_false] at hdocker
      simp [ho, hdocker, himage]
    · simp [ho] at hdocker

theorem imageBuildInformation_pull (x : Externals) (buildValues : BuildValues)
    (composeService : String) (composeServiceValues : ServiceConfig)
    (hdocker : dockerfileOf buildValues composeService composeServiceValues = "")
    (himage : composeServiceValues.Image ≠ "") :
    ∃ base : ImageBuild,
      base.DockerFile = "" ∧ base.PullImage = "" ∧ base.PromoteImage = "" ∧
      base.TemporaryImage = "" ∧ base.BuildImage = "" ∧
      imageBuildInformation x buildValues composeService composeServiceValues =
        match pullReferenceByPriority x buildValues composeService composeServiceValues with
        | .error err => .error err
        | .ok reference =>
          .ok { base with PullImage := pullImageFor x buildValues reference } := by
  unfold dockerfileOf at hdocker
  unfold imageBuildInformation pullReferenceByPriority substituted pullImageFor
  rcases hb : composeServiceValues.Build with _ | build
  · rw [hb] at hdocker
    by_cases ho : ((buildValues.LagoonYAML.environment buildValues.Environment).override
        composeService).Build.Dockerfile = ""
    · refine ⟨{}, rfl, rfl, rfl, rfl, rfl, ?_⟩
      simp only [ho, himage, ne_eq, not_true_eq_false, if_false, if_true]
      by_cases hoi : ((buildValues.LagoonYAML.environment buildValues.Environment).override
          composeService).Image = ""
      · by_cases hl : CheckServiceLagoonLabel composeServiceValues.Labels "lagoon.image" = ""
        · simp only [hoi, hl, not_true_eq_false, if_false, if_true]
          by_cases hc : strings_Contains composeServiceValues.Image '/' = true <;>
            by_cases hr : ContainsRegistry x.MatchString buildValues.ContainerRegistry composeServiceValues.Image = true <;>
            by_cases hi : buildValues.ImageCache = "" <;>
            by_cases hn : strings_Count composeServiceValues.Image '/' = 1 <;>
            simp [hc, hr, hi, hn]
        · simp only [hoi, hl, not_true_eq_false, not_false_eq_true, if_false, if_true]
          rcases x.EvalEnv _ with e | v
          · rfl
          · simp only []
            by_cases hc : strings_Contains v '/' = true <;>
            by_cases hr : ContainsRegistry x.MatchString buildValues.ContainerRegistry v = true <;>
            by_cases hi : buildValues.ImageCache = "" <;>
            by_cases hn : strings_Count v '/' = 1 <;>
            simp [hc, hr, hi, hn]
      · simp only [hoi, not_false_eq_true, if_true]
        rcases x.EvalEnv _ with e | v
        · rfl
        · simp only []
          by_cases hc : strings_Contains v '/' = true <;>
            by_cases hr : ContainsRegistry x.MatchString buildValues.ContainerRegistry v = true <;>
            by_cases hi : buildValues.ImageCache = "" <;>
            by_cases hn : strings_Count v '/' = 1 <;>
            simp [hc, hr, hi, hn]
    · simp [ho] at hdocker
  · rw [hb] at hdocker
    by_cases ho : ((buildValues.LagoonYAML.environment buildValues.Environment).override
        composeService).Build.Dockerfile = ""
    · simp only [ho, ne_eq, not_true_eq_false, if_false] at hdocker
      refine ⟨⟨"", if build.Context = "" then "." else build.Context, "", build.Target, "", "",
        ""⟩, rfl, rfl, rfl, rfl, rfl, ?_⟩
      simp only [ho, hdocker, himage, ne_eq, not_true_eq_false, if_false, if_true]
      by_cases hoi : ((buildValues.LagoonYAML.environment buildValues.Environment).override
          composeService).Image = ""
      · by_cases hl : CheckServiceLagoonLabel composeServiceValues.Labels "lagoon.image" = ""
        · simp only [hoi, hl, not_true_eq_false, if_false, if_true]
          by_cases hc : strings_Contains composeServiceValues.Image '/' = true <;>
            by_cases hr : ContainsRegistry x.MatchString buildValues.ContainerRegistry composeServiceValues.Image = true <;>
            by_cases hi : buildValues.ImageCache = "" <;>
            by_cases hn : strings_Count composeServiceValues.Image '/' = 1 <;>
            simp [hc, hr, hi, hn]
        · simp only [hoi, hl, not_true_eq_false, not_false_eq_true, if_false, if_true]
          rcases x.EvalEnv _ with e | v
          · rfl
          · simp only []
            by_cases hc : strings_Contains v '/' = true <;>
            by_cases hr : ContainsRegistry x.MatchString buildValues.ContainerRegistry v = true <;>
            by_cases hi : buildValues.ImageCache = "" <;>
            by_cases hn : strings_Count v '/' = 1 <;>
            simp [hc, hr, hi, hn]
      · simp only [hoi, not_false_eq_true, if_true]
        rcases x.EvalEnv _ with e | v
        · rfl
        · simp only []
          by_cases hc : strings_Contains v '/' = true <;>
            by_cases hr : ContainsRegistry x.MatchString buildValues.ContainerRegistry v = true <;>
            by_cases hi : buildValues.ImageCache = "" <;>
            by_cases hn : strings_Count v '/' = 1 <;>
            simp [hc, hr, hi, hn]
    · simp [ho] at hdocker

theorem imageBuildInformation_build (x : Externals) (buildValues : BuildValues)
    (composeService : String) (composeServiceValues : ServiceConfig) (imageBuild : ImageBuild)
    (hdocker : dockerfileOf buildValues composeService composeServiceValues ≠ "")
    (h : imageBuildInformation x buildValues composeService composeServiceValues =
      .ok imageBuild) :
    imageBuild.DockerFile = dockerfileOf buildValues composeService composeServiceValues ∧
    imageBuild.PullImage = "" ∧ imageBuild.PromoteImage = "" := by
  unfold dockerfileOf at hdocker ⊢
  unfold imageBuildInformation at h
  rcases hb : composeServiceValues.Build with _ | build
  · rw [hb] at hdocker h
    by_cases ho : ((buildValues.LagoonYAML.environment buildValues.Environment).override
        composeService).Build.Dockerfile = ""
    · simp [ho] at hdocker
    · simp only [ho, ne_eq, not_false_eq_true, if_true, if_false] at h ⊢
      repeat' (split at h)
      all_goals first | (cases h; done) | (cases h; simp)
  · rw [hb] at hdocker h
    by_cases ho : ((buildValues.LagoonYAML.environment buildValues.Environment).override
        composeService).Build.Dockerfile = ""
    · simp only [ho, ne_eq, not_true_eq_false, if_false] at hdocker h ⊢
      simp only [hdocker, if_false] at h
      repeat' (split at h)
      all_goals first | (cases h; done) | (cases h; simp)
    · simp only [ho, ne_eq, not_false_eq_true, if_true, if_false] at h ⊢
      repeat' (split at h)
      all_goals first | (cases h; done) | (cases h; simp)

theorem string_append_ne_empty_right (a b : String) (hb : b ≠ "") : a ++ b ≠ "" := by
  intro h
  apply hb
  have hl := congrArg String.length h
  rw [String.length_append] at hl
  have h0 : ("" : String).length = 0 := rfl
  rw [h0] at hl
  have hb0 : b.length = 0 := by omega
  exact String.ext (List.eq_nil_of_length_eq_zero hb0)

theorem string_append_ne_empty_left (a b : String) (ha : a ≠ "") : a ++ b ≠ "" := by
  intro h
  apply ha
  have hl := congrArg String.length h
  rw [String.length_append] at hl
  have h0 : ("" : String).length = 0 := rfl
  rw [h0] at hl
  have ha0 : a.length = 0 := by omega
  exact String.ext (List.eq_nil_of_length_eq_zero ha0)

theorem pullImageFor_ne_empty (x : Externals) (buildValues : BuildValues) (pullImage : String) :
    pullImageFor x buildValues pullImage ≠ "" := by
  have haliased : (if ¬ strings_Contains pullImage '/' then "library/" ++ pullImage
      else pullImage) ≠ "" := by
    by_cases hc : strings_Contains pullImage '/' = true
    · simp only [hc, not_true_eq_false, if_false]
      intro he
      subst he
      exact absurd hc (by decide)
    · simp only [hc, not_false_eq_true, if_true]
      exact string_append_ne_empty_left _ _ (by decide)
  unfold pullImageFor
  simp only []
  split
  · split
    · exact string_append_ne_empty_right _ _ haliased
    · exact haliased
  · exact haliased

theorem imageBuildOf_promote (x : Externals) (buildValues : BuildValues)
    (composeService : String) (composeServiceValues : ServiceConfig)
    (hpromote : buildValues.BuildType = "promote") :
    imageBuildOf x buildValues composeService composeServiceValues =
      .ok { BuildImage := buildValues.ImageRegistry ++ "/" ++ buildValues.Project ++ "/" ++
              buildValues.Environment ++ "/" ++ composeService ++ ":" ++ "latest"
            PromoteImage := buildValues.ImageRegistry ++ "/" ++ buildValues.Project ++ "/" ++
              buildValues.PromotionSourceEnvironment ++ "/" ++ composeService ++ ":" ++
              "latest" } := by
  unfold imageBuildOf
  simp [hpromote]

theorem imageBuildOf_not_promote (x : Externals) (buildValues : BuildValues)
    (composeService : String) (composeServiceValues : ServiceConfig)
    (hpromote : buildValues.BuildType ≠ "promote") :
    imageBuildOf x buildValues composeService composeServiceValues =
      match imageBuildInformation x buildValues composeService composeServiceValues with
      | .error err => .error err
      | .ok imageBuild =>
        .ok { imageBuild with
          BuildImage := buildValues.ImageRegistry ++ "/" ++ buildValues.Project ++ "/" ++
            buildValues.Environment ++ "/" ++ composeService ++ ":" ++ "latest" } := by
  unfold imageBuildOf
  simp only [ne_eq, hpromote, not_false_eq_true, if_true, if_false]

theorem imageBuildOf_exactlyOnePath (x : Externals) (buildValues : BuildValues)
    (composeService : String) (composeServiceValues : ServiceConfig) (imageBuild : ImageBuild)
    (h : imageBuildOf x buildValues composeService composeServiceValues = .ok imageBuild) :
    exactlyOnePath imageBuild := by
  by_cases hpromote : buildValues.BuildType = "promote"
  · rw [imageBuildOf_promote _ _ _ _ hpromote] at h
    cases h
    right; right
    refine ⟨rfl, rfl, ?_⟩
    exact string_append_ne_empty_right _ _ (by decide)
  · rw [imageBuildOf_not_promote _ _ _ _ hpromote] at h
    rcases hi : imageBuildInformation x buildValues composeService composeServiceValues
      with e | ib
    · rw [hi] at h; cases h
    · rw [hi] at h
      cases h
      by_cases hdocker : dockerfileOf buildValues composeService composeServiceValues = ""
      · right; left
        by_cases himage : composeServiceValues.Image = ""
        · rw [imageBuildInformation_no_image _ _ _ _ hdocker himage] at hi
          cases hi
        · obtain ⟨base, h1, h2, h3, _, _, heq⟩ :=
            imageBuildInformation_pull x _ _ _ hdocker himage
          rw [hi] at heq
          rcases hp : pullReferenceByPriority x buildValues composeService
            composeServiceValues with e | r
          · rw [hp] at heq
            cases heq
          · rw [hp] at heq
            simp only [Except.ok.injEq] at heq
            subst heq
            exact ⟨h1, pullImageFor_ne_empty _ _ _, h3⟩
      · left
        obtain ⟨h1, h2, h3⟩ := imageBuildInformation_build _ _ _ _ _ hdocker hi
        refine ⟨?_, h2, h3⟩
        show ib.DockerFile ≠ ""
        rw [h1]
        exact hdocker

theorem servicePorts_returned_volume (x : Externals) (composeService : String)
    (composeServiceValues : ServiceConfig) (cService sv : ServiceValues)
    (h : servicePorts x composeService composeServiceValues cService = .returned sv none) :
    sv.ImageBuild = cService.ImageBuild ∧
    sv.PersistentVolumePath = cService.PersistentVolumePath ∧
    sv.PersistentVolumeName = cService.PersistentVolumeName ∧
    sv.PersistentVolumeSize = cService.PersistentVolumeSize := by
  unfold servicePorts at h
  simp only [] at h
  split at h
  · cases h
  · rename_i c hc
    split at hc
    · split at hc
      · cases hc
      · cases hc
        split at h
        · cases h; simp
        · cases h; simp
    · cases hc
      split at h
      · cases h; simp
      · cases h; simp

theorem serviceValuesOfType_returned_volume (x : Externals) (buildValues : BuildValues)
    (composeService : String) (composeServiceValues : ServiceConfig) (debug : Bool)
    (lagoonOverrideName lagoonType dbaasEnvironment : String) (svcIsDBaaS : Bool)
    (autogenEnabled autogenTLSAcmeEnabled : Bool)
    (servicePersistentPath servicePersistentName servicePersistentSize : String)
    (sv : ServiceValues)
    (h : serviceValuesOfType x buildValues composeService composeServiceValues debug
      lagoonOverrideName lagoonType dbaasEnvironment svcIsDBaaS autogenEnabled
      autogenTLSAcmeEnabled servicePersistentPath servicePersistentName
      servicePersistentSize = .returned sv none) :
    sv.PersistentVolumePath = servicePersistentPath ∧
    sv.PersistentVolumeName = servicePersistentName ∧
    sv.PersistentVolumeSize = servicePersistentSize ∧
    ((Contains ignoredImageTypes lagoonType = true ∧ sv.ImageBuild = none) ∨
     (Contains ignoredImageTypes lagoonType = false ∧
      ∃ imageBuild, imageBuildOf x buildValues composeService composeServiceValues =
        .ok imageBuild ∧ sv.ImageBuild = some imageBuild)) := by
  unfold serviceValuesOfType at h
  simp only [] at h
  split at h
  · cases h
  · split at h
    · cases h
    · split at h
      · cases h
      · split at h
        · cases h
        · split at h
          · cases h
          · rename_i c hc
            obtain ⟨h1, h2, h3, h4⟩ :=
              servicePorts_returned_volume x composeService composeServiceValues c sv h
            split at hc
            · rename_i hig
              split at hc
              · cases hc
              · rename_i ib hib
                cases hc
                refine ⟨h2, h3, h4, Or.inr ⟨?_, ib, hib, h1⟩⟩
                simpa using hig
            · rename_i hig
              cases hc
              refine ⟨h2, h3, h4, Or.inl ⟨?_, h1⟩⟩
              simpa using hig

theorem composeToServiceValues_returned_volume (x : Externals) (buildValues : BuildValues)
    (composeService : String) (composeServiceValues : ServiceConfig) (debug : Bool)
    (sv : ServiceValues) (calls : List DBaaSCall)
    (h : composeToServiceValues x buildValues composeService composeServiceValues debug =
      (.returned sv none, calls))
    (hresolved : typeAtNoneCheck buildValues composeService composeServiceValues ≠
      some "none") :
    sv.PersistentVolumePath =
      persistentPathOf x buildValues composeService composeServiceValues ∧
    sv.PersistentVolumeName =
      persistentNameOf x buildValues composeService composeServiceValues ∧
    sv.PersistentVolumeSize =
      persistentSizeOf x buildValues composeService composeServiceValues ∧
    ((Contains ignoredImageTypes sv.Type_ = true ∧ sv.ImageBuild = none) ∨
     (Contains ignoredImageTypes sv.Type_ = false ∧
      ∃ imageBuild, imageBuildOf x buildValues composeService composeServiceValues =
        .ok imageBuild ∧ sv.ImageBuild = some imageBuild)) := by
  by_cases hlabel : CheckServiceLagoonLabel composeServiceValues.Labels "lagoon.type" = ""
  · rw [composeToServiceValues_no_label _ _ _ _ _ hlabel] at h
    cases h
  · rw [composeToServiceValues_of_label _ _ _ _ _ hlabel] at h
    rcases ht : typeAtNoneCheck buildValues composeService composeServiceValues with _ | t
    · rw [ht] at h; cases h
    · rw [ht] at h hresolved
      have hn : t ≠ "none" := fun hn => hresolved (by rw [hn])
      simp only [hn, if_false] at h
      unfold resolveWithType at h
      rcases hd : dbaasChecks buildValues composeServiceValues
        (overrideNameOf composeService composeServiceValues) t debug with ⟨r, made⟩
      rw [hd] at h
      rcases r with _ | ⟨finalType, dbaasEnvironment, svcIsDBaaS⟩
      · cases h
      · simp only [Prod.mk.injEq] at h
        obtain ⟨_, _, h3, _⟩ := serviceValuesOfType_returned _ _ _ _ _ _ _ _ _ _ _ _ _ _ _ h.1
        rw [h3]
        exact serviceValuesOfType_returned_volume _ _ _ _ _ _ _ _ _ _ _ _ _ _ _ h.1

/-- C14: for every service that `composeToServiceValues` resolves (the type
at the check of line 293 is not "none") and whose type has an image, the
descriptor holds an image provenance record in which exactly one of
`DockerFile`, `PullImage` and `PromoteImage` is not empty. -/
theorem image_record_has_exactly_one_path (x : Externals) (buildValues : BuildValues)
    (composeService : String) (composeServiceValues : ServiceConfig) (debug : Bool)
    (sv : ServiceValues) (calls : List DBaaSCall)
    (h : composeToServiceValues x buildValues composeService composeServiceValues debug =
      (.returned sv none, calls))
    (hresolved : typeAtNoneCheck buildValues composeService composeServiceValues ≠
      some "none")
    (himage : Contains ignoredImageTypes sv.Type_ = false) :
    ∃ imageBuild, sv.ImageBuild = some imageBuild ∧ exactlyOnePath imageBuild := by
  obtain ⟨_, _, _, hi | ⟨_, ib, hib, hsv⟩⟩ :=
    composeToServiceValues_returned_volume _ _ _ _ _ _ _ h hresolved
  · rw [hi.1] at himage
    cases himage
  · exact ⟨ib, hsv, imageBuildOf_exactlyOnePath _ _ _ _ _ hib⟩

/-- Witness of C14: the node service pulls the image alpine. -/
theorem image_record_has_exactly_one_path_witness :
    ∃ sv calls,
      composeToServiceValues (exampleExternals []) exampleBuildValues "node" nodeService
        false = (.returned sv none, calls) ∧
      (sv.ImageBuild.map (fun imageBuild =>
        (imageBuild.DockerFile, imageBuild.PullImage, imageBuild.PromoteImage))) =
        some ("", "library/alpine", "") ∧
      ∃ imageBuild, sv.ImageBuild = some imageBuild ∧ exactlyOnePath imageBuild :=
  ⟨_, _, rfl, by decide,
    image_record_has_exactly_one_path (exampleExternals []) exampleBuildValues "node"
      nodeService false _ _ rfl (by decide) (by decide)⟩

/-- C15, as the code has it: on the pull path of `composeToServiceValues` (a
build that is not a promotion, no Dockerfile resolved), the image reference is
the image of the manifest override if it is not empty, otherwise the
`lagoon.image` label if it is not empty, otherwise the image that the service
declares; `PullImage` is the name under which that reference is pulled. -/
theorem pull_reference_priority (x : Externals) (buildValues : BuildValues)
    (composeService : String) (composeServiceValues : ServiceConfig) (debug : Bool)
    (sv : ServiceValues) (calls : List DBaaSCall)
    (h : composeToServiceValues x buildValues composeService composeServiceValues debug =
      (.returned sv none, calls))
    (hresolved : typeAtNoneCheck buildValues composeService composeServiceValues ≠
      some "none")
    (himage : Contains ignoredImageTypes sv.Type_ = false)
    (hpromote : buildValues.BuildType ≠ "promote")
    (hdocker : dockerfileOf buildValues composeService composeServiceValues = "") :
    ∃ imageBuild reference,
      sv.ImageBuild = some imageBuild ∧
      pullReferenceByPriority x buildValues composeService composeServiceValues =
        .ok reference ∧
      imageBuild.PullImage = pullImageFor x buildValues reference := by
  obtain ⟨_, _, _, hi | ⟨_, ib, hib, hsv⟩⟩ :=
    composeToServiceValues_returned_volume _ _ _ _ _ _ _ h hresolved
  · rw [hi.1] at himage
    cases himage
  · rw [imageBuildOf_not_promote _ _ _ _ hpromote] at hib
    by_cases hdeclared : composeServiceValues.Image = ""
    · rw [imageBuildInformation_no_image _ _ _ _ hdocker hdeclared] at hib
      cases hib
    · obtain ⟨base, _, _, _, _, _, heq⟩ := imageBuildInformation_pull x _ _ _ hdocker hdeclared
      rw [heq] at hib
      rcases hp : pullReferenceByPriority x buildValues composeService composeServiceValues
        with e | r
      · rw [hp] at hib
        cases hib
      · rw [hp] at hib
        simp only [Except.ok.injEq] at hib
        exact ⟨ib, r, hsv, rfl, by rw [← hib]⟩

/-- Witness of C15 as the code has it: the manifest overrides the image, the
service has a `lagoon.image` label and declares an image. -/
theorem pull_reference_priority_witness :
    pullReferenceByPriority (exampleExternals []) imageOverrideBuildValues "node"
      imageLabelService = .ok "override/node" ∧
    ∃ sv calls,
      composeToServiceValues (exampleExternals []) imageOverrideBuildValues "node"
        imageLabelService false = (.returned sv none, calls) ∧
      ∃ imageBuild reference,
        sv.ImageBuild = some imageBuild ∧
        pullReferenceByPriority (exampleExternals []) imageOverrideBuildValues "node"
          imageLabelService = .ok reference ∧
        imageBuild.PullImage =
          pullImageFor (exampleExternals []) imageOverrideBuildValues reference :=
  ⟨rfl, _, _, rfl,
    pull_reference_priority (exampleExternals []) imageOverrideBuildValues "node"
      imageLabelService false _ _ rfl (by decide) (by decide) (by decide) (by decide)⟩

/-- Counterexample to C15: the service has the `lagoon.image` label
"label/node" and the manifest overrides its image by "override/node";
`PullImage` is the image of the manifest, not the one of the label. -/
theorem manifest_image_wins_over_label :
    (resolved (exampleExternals []) imageOverrideBuildValues imageLabelService).map
      (fun sv => sv.ImageBuild.map (fun imageBuild => imageBuild.PullImage)) =
      some (some "override/node") := by
  decide

/-- Evaluation for C16: the image alpine has no slash, matches no container
registry and an image cache is set; `PullImage` is "library/alpine", without
the image cache in front. -/
theorem bare_image_name_skips_image_cache :
    (resolved (exampleExternals []) imageCacheBuildValues nodeService).map
      (fun sv => sv.ImageBuild.map (fun imageBuild => imageBuild.PullImage)) =
      some (some "library/alpine") ∧
    pullImageFor (exampleExternals []) imageCacheBuildValues "alpine" = "library/alpine" ∧
    pullImageFor (exampleExternals []) imageCacheBuildValues "uselagoon/node" =
      "imagecache.example.com/uselagoon/node" := by
  decide

/-- C17: for the build type "promote", the image stage of
`composeToServiceValues` cannot fail and gives a record in which only
`BuildImage` and `PromoteImage` are set, to
`<registry>/<project>/<environment>/<service>:latest` and to
`<registry>/<project>/<promotion source environment>/<service>:latest`; this
record is the one of every resolved service whose type has an image. -/
theorem promote_only_rewrites_tags (x : Externals) (buildValues : BuildValues)
    (composeService : String) (composeServiceValues : ServiceConfig) (debug : Bool)
    (hpromote : buildValues.BuildType = "promote") :
    imageBuildOf x buildValues composeService composeServiceValues =
      .ok { BuildImage := buildValues.ImageRegistry ++ "/" ++ buildValues.Project ++ "/" ++
              buildValues.Environment ++ "/" ++ composeService ++ ":" ++ "latest"
            PromoteImage := buildValues.ImageRegistry ++ "/" ++ buildValues.Project ++ "/" ++
              buildValues.PromotionSourceEnvironment ++ "/" ++ composeService ++ ":" ++
              "latest" } ∧
    ∀ sv calls,
      composeToServiceValues x buildValues composeService composeServiceValues debug =
        (.returned sv none, calls) →
      typeAtNoneCheck buildValues composeService composeServiceValues ≠ some "none" →
      Contains ignoredImageTypes sv.Type_ = false →
      sv.ImageBuild = some
        { TemporaryImage := "", Context := "", DockerFile := "", Target := "", PullImage := ""
          BuildImage := buildValues.ImageRegistry ++ "/" ++ buildValues.Project ++ "/" ++
            buildValues.Environment ++ "/" ++ composeService ++ ":" ++ "latest"
          PromoteImage := buildValues.ImageRegistry ++ "/" ++ buildValues.Project ++ "/" ++
            buildValues.PromotionSourceEnvironment ++ "/" ++ composeService ++ ":" ++
            "latest" } := by
  refine ⟨imageBuildOf_promote _ _ _ _ hpromote, ?_⟩
  intro sv calls h hresolved himage
  obtain ⟨_, _, _, hi | ⟨_, ib, hib, hsv⟩⟩ :=
    composeToServiceValues_returned_volume _ _ _ _ _ _ _ h hresolved
  · rw [hi.1] at himage
    cases himage
  · rw [imageBuildOf_promote _ _ _ _ hpromote] at hib
    cases hib
    exact hsv

/-- Witness of C17: the promotion of a service that has neither an image nor
a build spec. -/
theorem promote_only_rewrites_tags_witness :
    (resolved (exampleExternals []) promoteBuildValues labelOnlyImageService).map
      (fun sv => sv.ImageBuild) =
      some (some { BuildImage := "harbor.example.com/example-project/production/node:latest"
                   PromoteImage := "harbor.example.com/example-project/main/node:latest" }) ∧
    imageBuildOf (exampleExternals []) promoteBuildValues "node" labelOnlyImageService =
      .ok { BuildImage := promoteBuildValues.ImageRegistry ++ "/" ++
              promoteBuildValues.Project ++ "/" ++ promoteBuildValues.Environment ++ "/" ++
              "node" ++ ":" ++ "latest"
            PromoteImage := promoteBuildValues.ImageRegistry ++ "/" ++
              promoteBuildValues.Project ++ "/" ++
              promoteBuildValues.PromotionSourceEnvironment ++ "/" ++ "node" ++ ":" ++
              "latest" } :=
  ⟨by decide,
    (promote_only_rewrites_tags (exampleExternals []) promoteBuildValues "node"
      labelOnlyImageService false (by decide)).1⟩

theorem head?_data_append (a b : String) (c : Char) (h : a.data.head? = some c) :
    (a ++ b).data.head? = some c := by
  rw [String.data_append]
  rcases ha : a.data with _ | ⟨d, rest⟩
  · rw [ha] at h; cases h
  · rw [ha] at h
    simpa using h

theorem pullReferenceByPriority_error (x : Externals) (buildValues : BuildValues)
    (composeService : String) (composeServiceValues : ServiceConfig) (err : String)
    (h : pullReferenceByPriority x buildValues composeService composeServiceValues =
      .error err) :
    err.data.head? = some 'e' := by
  have hsub : ∀ image, substituted x image = .error err → err.data.head? = some 'e' := by
    intro image hs
    unfold substituted at hs
    split at hs
    · cases hs
      exact head?_data_append _ _ _ (head?_data_append _ _ _ (by decide))
    · cases hs
  unfold pullReferenceByPriority at h
  split at h
  · exact hsub _ h
  · split at h
    · exact hsub _ h
    · cases h

/-- C18, as the code has it: for a build that is not a promotion and a service
for which no Dockerfile is resolved, the image stage of
`composeToServiceValues` fails with the error that names the service if and
only if the service declares no image, whatever the `lagoon.image` label and
the image of the manifest override are. With a declared image, a reference
that is chosen and substituted gives a pull image; without one, no service
whose type has an image is resolved. -/
theorem missing_image_iff_no_declared_image (x : Externals) (buildValues : BuildValues)
    (composeService : String) (composeServiceValues : ServiceConfig) (debug : Bool)
    (hpromote : buildValues.BuildType ≠ "promote")
    (hdocker : dockerfileOf buildValues composeService composeServiceValues = "") :
    (imageBuildOf x buildValues composeService composeServiceValues =
        .error ("defined Dockerfile or Image for service " ++ composeService ++ " defined") ↔
      composeServiceValues.Image = "") ∧
    (composeServiceValues.Image ≠ "" → ∀ reference,
      pullReferenceByPriority x buildValues composeService composeServiceValues =
        .ok reference →
      ∃ imageBuild,
        imageBuildOf x buildValues composeService composeServiceValues = .ok imageBuild ∧
        imageBuild.PullImage = pullImageFor x buildValues reference) ∧
    (composeServiceValues.Image = "" → ∀ sv calls,
      composeToServiceValues x buildValues composeService composeServiceValues debug =
        (.returned sv none, calls) →
      typeAtNoneCheck buildValues composeService composeServiceValues ≠ some "none" →
      Contains ignoredImageTypes sv.Type_ = true) := by
  have hno : composeServiceValues.Image = "" →
      imageBuildOf x buildValues composeService composeServiceValues =
        .error ("defined Dockerfile or Image for service " ++ composeService ++
          " defined") := by
    intro himage
    rw [imageBuildOf_not_promote _ _ _ _ hpromote,
      imageBuildInformation_no_image _ _ _ _ hdocker himage]
  refine ⟨⟨?_, hno⟩, ?_, ?_⟩
  · intro herr
    by_contra himage
    obtain ⟨base, _, _, _, _, _, heq⟩ := imageBuildInformation_pull x _ _ _ hdocker himage
    rw [imageBuildOf_not_promote _ _ _ _ hpromote, heq] at herr
    rcases hp : pullReferenceByPriority x buildValues composeService composeServiceValues
      with e | r
    · rw [hp] at herr
      simp only [Except.error.injEq] at herr
      have he := pullReferenceByPriority_error _ _ _ _ _ hp
      rw [herr] at he
      have hd : ("defined Dockerfile or Image for service " ++ composeService ++
          " defined").data.head? = some 'd' :=
        head?_data_append _ _ _ (head?_data_append _ _ _ (by decide))
      rw [hd] at he
      exact absurd he (by decide)
    · rw [hp] at herr
      cases herr
  · intro himage reference hp
    obtain ⟨base, _, _, _, _, _, heq⟩ := imageBuildInformation_pull x _ _ _ hdocker himage
    rw [imageBuildOf_not_promote _ _ _ _ hpromote, heq, hp]
    exact ⟨_, rfl, rfl⟩
  · intro himage sv calls h hresolved
    obtain ⟨_, _, _, hi | ⟨_, ib, hib, _⟩⟩ :=
      composeToServiceValues_returned_volume _ _ _ _ _ _ _ h hresolved
    · exact hi.1
    · rw [hno himage] at hib
      cases hib

/-- Witness of C18 as the code has it: the node service declares the image
alpine, which is pulled. -/
theorem missing_image_iff_no_declared_image_witness :
    nodeService.Image ≠ "" ∧
    ∃ imageBuild,
      imageBuildOf (exampleExternals []) exampleBuildValues "node" nodeService =
        .ok imageBuild ∧
      imageBuild.PullImage = pullImageFor (exampleExternals []) exampleBuildValues "alpine" :=
  ⟨by decide,
    (missing_image_iff_no_declared_image (exampleExternals []) exampleBuildValues "node"
      nodeService false (by decide) (by decide)).2.1 (by decide) "alpine" rfl⟩

/-- Counterexample to C18: the service declares no image and has the
`lagoon.image` label "uselagoon/node"; the resolution fails with the error that
names the service although a reference is available. -/
theorem image_label_alone_is_not_enough :
    (composeToServiceValues (exampleExternals []) exampleBuildValues "node"
      labelOnlyImageService false).1 =
      .returned {} (some "defined Dockerfile or Image for service node defined") := by
  decide

/-! ## Persistent volumes -/

theorem overrideNameOf_ne_empty (composeService : String)
    (composeServiceValues : ServiceConfig) (hname : composeService ≠ "") :
    overrideNameOf composeService composeServiceValues ≠ "" := by
  unfold overrideNameOf
  split
  · assumption
  · exact hname

/-- C19: for every service with a non-empty declared name that
`composeToServiceValues` resolves without error, a non-empty
`PersistentVolumePath` comes with a non-empty `PersistentVolumeName`, which is
the `lagoon.persistent.name` label when it is set and the `OverrideName`
otherwise; without a path and without the label the name is empty. -/
theorem persistent_path_has_a_name (x : Externals) (buildValues : BuildValues)
    (composeService : String) (composeServiceValues : ServiceConfig) (debug : Bool)
    (sv : ServiceValues) (calls : List DBaaSCall)
    (h : composeToServiceValues x buildValues composeService composeServiceValues debug =
      (.returned sv none, calls))
    (hname : composeService ≠ "") :
    (sv.PersistentVolumePath ≠ "" →
      sv.PersistentVolumeName ≠ "" ∧
      sv.PersistentVolumeName =
        if CheckServiceLagoonLabel composeServiceValues.Labels "lagoon.persistent.name" ≠ ""
        then CheckServiceLagoonLabel composeServiceValues.Labels "lagoon.persistent.name"
        else sv.OverrideName) ∧
    (sv.PersistentVolumePath = "" →
      CheckServiceLagoonLabel composeServiceValues.Labels "lagoon.persistent.name" = "" →
      sv.PersistentVolumeName = "") := by
  obtain ⟨_, t, ht, h1 | ⟨hne, ft, e, d, _, _, hon, _⟩⟩ :=
    composeToServiceValues_returned _ _ _ _ _ _ _ h
  · obtain ⟨_, hz, _⟩ := h1
    subst hz
    exact ⟨fun hp => absurd rfl hp, fun _ _ => rfl⟩
  · have hresolved : typeAtNoneCheck buildValues composeService composeServiceValues ≠
        some "none" := by
      rw [ht]
      intro hs
      exact hne (Option.some.inj hs)
    obtain ⟨hpath, hpn, _, _⟩ :=
      composeToServiceValues_returned_volume _ _ _ _ _ _ _ h hresolved
    have hov := overrideNameOf_ne_empty composeService composeServiceValues hname
    rw [hpn, hpath, hon]
    unfold persistentNameOf
    by_cases hl : CheckServiceLagoonLabel composeServiceValues.Labels
        "lagoon.persistent.name" = ""
    · refine ⟨fun hp => ?_, fun hp _ => ?_⟩
      · simp only [hl, hp, ne_eq, not_false_eq_true, and_self, if_true, not_true_eq_false,
          if_false]
        exact ⟨hov, trivial⟩
      · simp only [hl, hp, ne_eq, not_true_eq_false, and_false, if_false]
    · refine ⟨fun _ => ?_, fun _ hl2 => absurd hl2 hl⟩
      simp only [hl, false_and, if_false, ne_eq, not_false_eq_true, if_true, and_self]

/-- Witness of C19: a node service with the persistent path /app/files and
without a name label gets its override name as the name of the volume. -/
theorem persistent_path_has_a_name_witness :
    ∃ sv calls,
      composeToServiceValues (exampleExternals []) exampleBuildValues "node" persistentService
        false = (.returned sv none, calls) ∧
      (sv.PersistentVolumePath, sv.PersistentVolumeName, sv.OverrideName) =
        ("/app/files", "node", "node") ∧
      ((sv.PersistentVolumePath ≠ "" →
        sv.PersistentVolumeName ≠ "" ∧
        sv.PersistentVolumeName =
          if CheckServiceLagoonLabel persistentService.Labels "lagoon.persistent.name" ≠ ""
          then CheckServiceLagoonLabel persistentService.Labels "lagoon.persistent.name"
          else sv.OverrideName) ∧
      (sv.PersistentVolumePath = "" →
        CheckServiceLagoonLabel persistentService.Labels "lagoon.persistent.name" = "" →
        sv.PersistentVolumeName = "")) :=
  ⟨_, _, rfl, by decide,
    persistent_path_has_a_name (exampleExternals []) exampleBuildValues "node"
      persistentService false _ _ rfl (by decide)⟩

/-- Evaluation for C20: with the table of the default volumes, a service
labelled mariadb that the DBaaS fallback resolves to mariadb-single gets an
empty `PersistentVolumePath` and `PersistentVolumeSize`, while the table gives
/var/lib/mysql and 5Gi for the type mariadb-single, which a service labelled
mariadb-single itself gets. -/
theorem fallback_single_misses_default_volume :
    (resolved volumeExternals exampleBuildValues mariadbService).map
      (fun sv => (sv.Type_, sv.PersistentVolumePath, sv.PersistentVolumeSize)) =
      some ("mariadb-single", "", "") ∧
    volumeExternals.ServiceTypes "mariadb-single" =
      some { PersistentVolumePath := "/var/lib/mysql", PersistentVolumeSize := "5Gi" } ∧
    (resolved volumeExternals exampleBuildValues mariadbSingleService).map
      (fun sv => (sv.Type_, sv.PersistentVolumePath, sv.PersistentVolumeSize)) =
      some ("mariadb-single", "/var/lib/mysql", "5Gi") := by
  decide

/-! ## Ports, spot instances and cronjobs of a resolved service -/

theorem servicePorts_returned_rest (x : Externals) (composeService : String)
    (composeServiceValues : ServiceConfig) (cService sv : ServiceValues)
    (h : servicePorts x composeService composeServiceValues cService = .returned sv none) :
    sv.UseSpotInstances = cService.UseSpotInstances ∧
    sv.ForceSpotInstances = cService.ForceSpotInstances ∧
    sv.CronjobUseSpotInstances = cService.CronjobUseSpotInstances ∧
    sv.CronjobForceSpotInstances = cService.CronjobForceSpotInstances ∧
    sv.Replicas = cService.Replicas ∧
    sv.InPodCronjobs = cService.InPodCronjobs ∧
    sv.NativeCronjobs = cService.NativeCronjobs ∧
    sv.BackupsEnabled = cService.BackupsEnabled := by
  unfold servicePorts at h
  simp only [] at h
  split at h
  · cases h
  · rename_i c hc
    split at hc
    · split at hc
      · cases hc
      · cases hc
        split at h
        · cases h; simp
        · cases h; simp
    · cases hc
      split at h
      · cases h; simp
      · cases h; simp

theorem servicePorts_eq (x : Externals) (composeService : String)
    (composeServiceValues : ServiceConfig) (cService : ServiceValues) :
    servicePorts x composeService composeServiceValues cService =
      if CheckServiceLagoonLabel composeServiceValues.Labels "lagoon.service.port" = "" then
        .returned { cService with
          AdditionalServicePorts := cService.AdditionalServicePorts ++
            if CheckServiceLagoonLabel composeServiceValues.Labels
                "lagoon.service.usecomposeports" = "true" then
              composeServiceValues.Ports.map (fun compPort =>
                { ServicePort := compPort
                  ServiceName := composeService ++ "-" ++ toString compPort.Target })
            else [] } none
      else
        match strconv_Atoi
            (CheckServiceLagoonLabel composeServiceValues.Labels "lagoon.service.port") with
        | .error reason =>
          .returned {} (some ("The provided service port " ++
            CheckServiceLagoonLabel composeServiceValues.Labels "lagoon.service.port" ++
            " for service " ++ composeService ++
            " is not a valid integer: strconv.Atoi: parsing " ++
            x.Quote (CheckServiceLagoonLabel composeServiceValues.Labels
              "lagoon.service.port") ++ ": " ++ reason))
        | .ok sPort =>
          .returned { cService with
            ServicePort := toInt32 sPort
            AdditionalServicePorts := cService.AdditionalServicePorts ++
              if CheckServiceLagoonLabel composeServiceValues.Labels
                  "lagoon.service.usecomposeports" = "true" then
                composeServiceValues.Ports.map (fun compPort =>
                  { ServicePort := compPort
                    ServiceName := composeService ++ "-" ++ toString compPort.Target })
              else [] } none := by
  unfold servicePorts
  by_cases hl : CheckServiceLagoonLabel composeServiceValues.Labels "lagoon.service.port" = ""
  · simp only [hl, ne_eq, not_true_eq_false, if_false, if_true]
    split <;> simp
  · simp only [hl, ne_eq, not_false_eq_true, if_true, if_false]
    rcases strconv_Atoi _ with reason | sPort
    · rfl
    · simp only []
      split <;> simp

theorem serviceValuesOfType_stages (x : Externals) (buildValues : BuildValues)
    (composeService : String) (composeServiceValues : ServiceConfig) (debug : Bool)
    (lagoonOverrideName lagoonType dbaasEnvironment : String) (svcIsDBaaS : Bool)
    (autogenEnabled autogenTLSAcmeEnabled : Bool)
    (servicePersistentPath servicePersistentName servicePersistentSize : String)
    (sv : ServiceValues)
    (h : serviceValuesOfType x buildValues composeService composeServiceValues debug
      lagoonOverrideName lagoonType dbaasEnvironment svcIsDBaaS autogenEnabled
      autogenTLSAcmeEnabled servicePersistentPath servicePersistentName
      servicePersistentSize = .returned sv none) :
    ∃ cService : ServiceValues,
      servicePorts x composeService composeServiceValues cService = .returned sv none ∧
      cService.ServicePort = 0 ∧ cService.AdditionalServicePorts = [] ∧
      spotLoop lagoonType (strings_Split (spotTypesOf x buildValues debug).1 ",")
        (false, false) = some (cService.UseSpotInstances, cService.ForceSpotInstances) ∧
      spotLoop lagoonType (strings_Split (spotTypesOf x buildValues debug).2 ",")
        (false, false) =
        some (cService.CronjobUseSpotInstances, cService.CronjobForceSpotInstances) ∧
      cService.Replicas = spotReplicasLoop lagoonType buildValues.EnvironmentType
        (strings_Split "nginx,nginx-persistent,nginx-php,nginx-php-persistent" ",") 0 ∧
      checkDuplicateCronjobs x.MarshalCronjobs
        (buildValues.LagoonYAML.environment buildValues.Branch).Cronjobs = none ∧
      cronjobsOf x buildValues composeService lagoonOverrideName =
        .ok (cService.InPodCronjobs, cService.NativeCronjobs) ∧
      cService.BackupsEnabled = Contains typesWithBackups lagoonType := by
  have hspot : spotTypesOf x buildValues debug =
      (if x.CheckFeatureFlag "SPOT_INSTANCE_DEVELOPMENT" buildValues.EnvironmentVariables debug
          = "enabled" ∧ buildValues.EnvironmentType = "development" then
        (x.CheckFeatureFlag "SPOT_INSTANCE_DEVELOPMENT_TYPES"
          buildValues.EnvironmentVariables debug,
         x.CheckFeatureFlag "SPOT_INSTANCE_DEVELOPMENT_CRONJOB_TYPES"
          buildValues.EnvironmentVariables debug)
      else if x.CheckFeatureFlag "SPOT_INSTANCE_PRODUCTION" buildValues.EnvironmentVariables
          debug = "enabled" ∧ buildValues.EnvironmentType = "production" then
        (x.CheckFeatureFlag "SPOT_INSTANCE_PRODUCTION_TYPES"
          buildValues.EnvironmentVariables debug,
         x.CheckFeatureFlag "SPOT_INSTANCE_PRODUCTION_CRONJOB_TYPES"
          buildValues.EnvironmentVariables debug)
      else ("", "")) := rfl
  unfold serviceValuesOfType at h
  unfold cronjobsOf
  rw [hspot]
  simp only [] at h
  by_cases hd : x.CheckFeatureFlag "SPOT_INSTANCE_DEVELOPMENT" buildValues.EnvironmentVariables
      debug = "enabled" ∧ buildValues.EnvironmentType = "development" <;>
  by_cases hp : x.CheckFeatureFlag "SPOT_INSTANCE_PRODUCTION" buildValues.EnvironmentVariables
      debug = "enabled" ∧ buildValues.EnvironmentType = "production" <;>
  simp only [hd, hp, if_true, if_false] at h ⊢ <;>
  (split at h
   · cases h
   · rename_i use force hs1
     split at h
     · cases h
     · rename_i cuse cforce hs2
       split at h
       · cases h
       · rename_i hdup
         split at h
         · cases h
         · rename_i inpod native hcron
           split at h
           · cases h
           · rename_i c hc
             split at hc
             · split at hc
               · cases hc
               · cases hc
                 refine ⟨_, h, rfl, rfl, hs1, ?_, rfl, hdup, hcron, ?_⟩
                 · first | exact hs2 | (cases hs2; exact hs1)
                 · cases hb : Contains typesWithBackups lagoonType <;> simp [hb]
             · cases hc
               refine ⟨_, h, rfl, rfl, hs1, ?_, rfl, hdup, hcron, ?_⟩
               · first | exact hs2 | (cases hs2; exact hs1)
               · cases hb : Contains typesWithBackups lagoonType <;> simp [hb])

theorem composeToServiceValues_stages (x : Externals) (buildValues : BuildValues)
    (composeService : String) (composeServiceValues : ServiceConfig) (debug : Bool)
    (sv : ServiceValues) (calls : List DBaaSCall)
    (h : composeToServiceValues x buildValues composeService composeServiceValues debug =
      (.returned sv none, calls))
    (hresolved : typeAtNoneCheck buildValues composeService composeServiceValues ≠
      some "none") :
    ∃ cService : ServiceValues,
      servicePorts x composeService composeServiceValues cService = .returned sv none ∧
      cService.ServicePort = 0 ∧ cService.AdditionalServicePorts = [] ∧
      spotLoop sv.Type_ (strings_Split (spotTypesOf x buildValues debug).1 ",")
        (false, false) = some (cService.UseSpotInstances, cService.ForceSpotInstances) ∧
      spotLoop sv.Type_ (strings_Split (spotTypesOf x buildValues debug).2 ",")
        (false, false) =
        some (cService.CronjobUseSpotInstances, cService.CronjobForceSpotInstances) ∧
      cService.Replicas = spotReplicasLoop sv.Type_ buildValues.EnvironmentType
        (strings_Split "nginx,nginx-persistent,nginx-php,nginx-php-persistent" ",") 0 ∧
      checkDuplicateCronjobs x.MarshalCronjobs
        (buildValues.LagoonYAML.environment buildValues.Branch).Cronjobs = none ∧
      cronjobsOf x buildValues composeService
        (overrideNameOf composeService composeServiceValues) =
        .ok (cService.InPodCronjobs, cService.NativeCronjobs) ∧
      cService.BackupsEnabled = Contains typesWithBackups sv.Type_ := by
  by_cases hlabel : CheckServiceLagoonLabel composeServiceValues.Labels "lagoon.type" = ""
  · rw [composeToServiceValues_no_label _ _ _ _ _ hlabel] at h
    cases h
  · rw [composeToServiceValues_of_label _ _ _ _ _ hlabel] at h
    rcases ht : typeAtNoneCheck buildValues composeService composeServiceValues with _ | t
    · rw [ht] at h; cases h
    · rw [ht] at h hresolved
      have hn : t ≠ "none" := fun hn => hresolved (by rw [hn])
      simp only [hn, if_false] at h
      unfold resolveWithType at h
      rcases hd : dbaasChecks buildValues composeServiceValues
        (overrideNameOf composeService composeServiceValues) t debug with ⟨r, made⟩
      rw [hd] at h
      rcases r with _ | ⟨finalType, dbaasEnvironment, svcIsDBaaS⟩
      · cases h
      · simp only [Prod.mk.injEq] at h
        obtain ⟨_, _, h3, _⟩ := serviceValuesOfType_returned _ _ _ _ _ _ _ _ _ _ _ _ _ _ _ h.1
        rw [h3]
        exact serviceValuesOfType_stages _ _ _ _ _ _ _ _ _ _ _ _ _ _ _ h.1

/-! ## Service ports -/

/-- C21: at the port step of `composeToServiceValues`, a non-empty
`lagoon.service.port` label that `strconv.Atoi` rejects makes the function
return the zero `ServiceValues` and an error that holds the label and the
name of the service; a label that parses as an integer does not make the step
fail and sets `ServicePort`; with an empty label the step does not fail and a
resolved service has `ServicePort` 0. With a label that is rejected, no
service other than one of type "none" is resolved without error. -/
theorem service_port_label_must_be_an_integer (x : Externals) (buildValues : BuildValues)
    (composeService : String) (composeServiceValues : ServiceConfig) (debug : Bool) :
    (∀ reason cService,
      CheckServiceLagoonLabel composeServiceValues.Labels "lagoon.service.port" ≠ "" →
      strconv_Atoi (CheckServiceLagoonLabel composeServiceValues.Labels
        "lagoon.service.port") = .error reason →
      (∃ before between after : String,
        servicePorts x composeService composeServiceValues cService =
          .returned {} (some (before ++
            CheckServiceLagoonLabel composeServiceValues.Labels "lagoon.service.port" ++
            between ++ composeService ++ after))) ∧
      ∀ sv calls,
        composeToServiceValues x buildValues composeService composeServiceValues debug =
          (.returned sv none, calls) →
        typeAtNoneCheck buildValues composeService composeServiceValues = some "none") ∧
    (∀ sPort cService,
      strconv_Atoi (CheckServiceLagoonLabel composeServiceValues.Labels
        "lagoon.service.port") = .ok sPort →
      ∃ sv, servicePorts x composeService composeServiceValues cService = .returned sv none ∧
        sv.ServicePort = toInt32 sPort) ∧
    (CheckServiceLagoonLabel composeServiceValues.Labels "lagoon.service.port" = "" →
      (∀ cService, ∃ sv,
        servicePorts x composeService composeServiceValues cService = .returned sv none ∧
        sv.ServicePort = cService.ServicePort) ∧
      ∀ sv calls,
        composeToServiceValues x buildValues composeService composeServiceValues debug =
          (.returned sv none, calls) →
        sv.ServicePort = 0) := by
  refine ⟨?_, ?_, ?_⟩
  · intro reason cService hl herr
    have hstage : ∀ c, servicePorts x composeService composeServiceValues c =
        .returned {} (some ("The provided service port " ++
          CheckServiceLagoonLabel composeServiceValues.Labels "lagoon.service.port" ++
          " for service " ++ composeService ++
          " is not a valid integer: strconv.Atoi: parsing " ++
          x.Quote (CheckServiceLagoonLabel composeServiceValues.Labels
            "lagoon.service.port") ++ ": " ++ reason)) := by
      intro c
      rw [servicePorts_eq, if_neg hl, herr]
    refine ⟨⟨"The provided service port ", " for service ",
      " is not a valid integer: strconv.Atoi: parsing " ++
        x.Quote (CheckServiceLagoonLabel composeServiceValues.Labels
          "lagoon.service.port") ++ ": " ++ reason, ?_⟩, ?_⟩
    · rw [hstage]
      simp only [String.append_assoc]
    · intro sv calls h
      by_contra hresolved
      obtain ⟨c, hc, _⟩ := composeToServiceValues_stages _ _ _ _ _ _ _ h hresolved
      rw [hstage] at hc
      cases hc
  · intro sPort cService hok
    have hl : CheckServiceLagoonLabel composeServiceValues.Labels "lagoon.service.port" ≠
        "" := by
      intro hl
      rw [hl] at hok
      cases hok
    rw [servicePorts_eq, if_neg hl, hok]
    exact ⟨_, rfl, rfl⟩
  · intro hl
    refine ⟨?_, ?_⟩
    · intro cService
      rw [servicePorts_eq, if_pos hl]
      exact ⟨_, rfl, rfl⟩
    · intro sv calls h
      by_cases hresolved : typeAtNoneCheck buildValues composeService composeServiceValues =
          some "none"
      · obtain ⟨_, t, ht, h1 | ⟨hne, _⟩⟩ := composeToServiceValues_returned _ _ _ _ _ _ _ h
        · obtain ⟨_, hz, _⟩ := h1
          subst hz
          rfl
        · rw [ht] at hresolved
          exact absurd (Option.some.inj hresolved) hne
      · obtain ⟨c, hc, hport, _⟩ := composeToServiceValues_stages _ _ _ _ _ _ _ h hresolved
        rw [servicePorts_eq, if_pos hl] at hc
        simp only [Ret.returned.injEq, and_true] at hc
        rw [← hc]
        exact hport

/-- Witness of C21: the label "abc" of the service `node` is rejected; the
error holds the label and the name of the service. -/
theorem service_port_label_must_be_an_integer_witness :
    (composeToServiceValues (exampleExternals []) exampleBuildValues "node" badPortService
      false).1 = .returned {} (some ("The provided service port abc for service node is not " ++
        "a valid integer: strconv.Atoi: parsing abc: invalid syntax")) ∧
    ∃ before between after : String,
      servicePorts (exampleExternals []) "node" badPortService {} =
        .returned {} (some (before ++
          CheckServiceLagoonLabel badPortService.Labels "lagoon.service.port" ++
          between ++ "node" ++ after)) :=
  ⟨by decide,
    ((service_port_label_must_be_an_integer (exampleExternals []) exampleBuildValues "node"
      badPortService false).1 "invalid syntax" {} (by decide) rfl).1⟩

/-- C22: for every resolved service, `AdditionalServicePorts` holds one entry
per compose port, in the order of the declaration, each with its compose port
and the name `<service>-<target port>`, when the label
`lagoon.service.usecomposeports` is "true"; for every other value of the label
it is empty. -/
theorem additional_ports_follow_compose_ports (x : Externals) (buildValues : BuildValues)
    (composeService : String) (composeServiceValues : ServiceConfig) (debug : Bool)
    (sv : ServiceValues) (calls : List DBaaSCall)
    (h : composeToServiceValues x buildValues composeService composeServiceValues debug =
      (.returned sv none, calls))
    (hresolved : typeAtNoneCheck buildValues composeService composeServiceValues ≠
      some "none") :
    (CheckServiceLagoonLabel composeServiceValues.Labels "lagoon.service.usecomposeports" =
        "true" →
      sv.AdditionalServicePorts.length = composeServiceValues.Ports.length ∧
      ∀ (i : Nat) (compPort : ServicePortConfig),
        composeServiceValues.Ports[i]? = some compPort →
        sv.AdditionalServicePorts[i]? =
          some ({ ServicePort := compPort
                  ServiceName := composeService ++ "-" ++ toString compPort.Target } :
            AdditionalServicePort)) ∧
    (CheckServiceLagoonLabel composeServiceValues.Labels "lagoon.service.usecomposeports" ≠
        "true" →
      sv.AdditionalServicePorts = []) := by
  obtain ⟨c, hc, _, hadd, _⟩ := composeToServiceValues_stages _ _ _ _ _ _ _ h hresolved
  have hports : sv.AdditionalServicePorts =
      if CheckServiceLagoonLabel composeServiceValues.Labels
          "lagoon.service.usecomposeports" = "true" then
        composeServiceValues.Ports.map (fun compPort =>
          ({ ServicePort := compPort
             ServiceName := composeService ++ "-" ++ toString compPort.Target } :
            AdditionalServicePort))
      else [] := by
    rw [servicePorts_eq] at hc
    split at hc
    · simp only [Ret.returned.injEq, and_true] at hc
      rw [← hc, hadd]
      simp
    · split at hc
      · cases hc
      · simp only [Ret.returned.injEq, and_true] at hc
        rw [← hc, hadd]
        simp
  refine ⟨fun htrue => ?_, fun hother => ?_⟩
  · rw [hports, if_pos htrue]
    refine ⟨by simp, ?_⟩
    intro i compPort hi
    rw [List.getElem?_map, hi]
    rfl
  · rw [hports, if_neg hother]

/-- Witness of C22: a basic service with two compose ports. -/
theorem additional_ports_follow_compose_ports_witness :
    ∃ sv calls,
      composeToServiceValues (exampleExternals []) exampleBuildValues "basic"
        composePortsService false = (.returned sv none, calls) ∧
      sv.AdditionalServicePorts.map (fun port => (port.ServiceName, port.ServicePort.Target)) =
        [("basic-8191", 8191), ("basic-8211", 8211)] ∧
      sv.ServicePort = 8080 ∧
      ((CheckServiceLagoonLabel composePortsService.Labels "lagoon.service.usecomposeports" =
          "true" →
        sv.AdditionalServicePorts.length = composePortsService.Ports.length ∧
        ∀ (i : Nat) (compPort : ServicePortConfig),
          composePortsService.Ports[i]? = some compPort →
          sv.AdditionalServicePorts[i]? =
            some ({ ServicePort := compPort
                    ServiceName := "basic" ++ "-" ++ toString compPort.Target } :
              AdditionalServicePort)) ∧
      (CheckServiceLagoonLabel composePortsService.Labels "lagoon.service.usecomposeports" ≠
          "true" →
        sv.AdditionalServicePorts = [])) :=
  ⟨_, _, rfl, by decide, by decide,
    additional_ports_follow_compose_ports (exampleExternals []) exampleBuildValues "basic"
      composePortsService false _ _ rfl (by decide)⟩

/-! ## Duplicate cronjobs -/

theorem splitDuplicates_snd_eq_nil (cronjobs unique duplicates : List Cronjob) :
    (splitDuplicates cronjobs unique duplicates).2 = [] ↔
      duplicates = [] ∧
      (∀ v ∈ cronjobs, ∀ w ∈ unique, v.Name ≠ w.Name) ∧
      cronjobs.Pairwise (fun a b => a.Name ≠ b.Name) := by
  induction cronjobs generalizing unique duplicates with
  | nil => simp [splitDuplicates]
  | cons v rest ih =>
    unfold splitDuplicates
    by_cases hany : unique.any (fun u => decide (v.Name = u.Name)) = true
    · rw [if_pos hany, ih]
      rw [List.any_eq_true] at hany
      obtain ⟨w, hw, hvw⟩ := hany
      constructor
      · rintro ⟨hd, _⟩
        simp at hd
      · rintro ⟨_, hu, _⟩
        exact absurd (by simpa using hvw) (hu v (List.mem_cons_self _ _) w hw)
    · rw [if_neg hany, ih]
      have hnot : ∀ w ∈ unique, v.Name ≠ w.Name := by
        intro w hw heq
        apply hany
        rw [List.any_eq_true]
        exact ⟨w, hw, by simpa using heq⟩
      constructor
      · rintro ⟨hd, hu, hp⟩
        refine ⟨hd, ?_, ?_⟩
        · intro a ha w hw
          rcases List.mem_cons.mp ha with h | h
          · rw [h]; exact hnot w hw
          · exact hu a h w (List.mem_append_left _ hw)
        · rw [List.pairwise_cons]
          refine ⟨?_, hp⟩
          intro a ha heq
          exact hu a ha v (List.mem_append_right _ (List.mem_singleton_self _)) heq.symm
      · rintro ⟨hd, hu, hp⟩
        rw [List.pairwise_cons] at hp
        refine ⟨hd, ?_, hp.2⟩
        intro a ha w hw
        rcases List.mem_append.mp hw with h | h
        · exact hu a (List.mem_cons_of_mem _ ha) w h
        · rw [List.mem_singleton.mp h]
          exact fun heq => hp.1 a ha heq.symm

theorem duplicateCronjobs_eq_nil (cronjobs : List Cronjob) :
    duplicateCronjobs cronjobs = [] ↔ cronjobs.Pairwise (fun a b => a.Name ≠ b.Name) := by
  have h := splitDuplicates_snd_eq_nil cronjobs [] []
  unfold duplicateCronjobs
  rcases hs : splitDuplicates cronjobs [] [] with ⟨unique, duplicates⟩
  rw [hs] at h
  simp only [] at h ⊢
  constructor
  · intro hnil
    have hd : duplicates = [] := (List.append_eq_nil.mp hnil).1
    exact (h.mp hd).2.2
  · intro hp
    have hd : duplicates = [] := h.mpr (by simpa using hp)
    subst hd
    simp

/-- C23: `checkDuplicateCronjobs` returns an error if and only if two entries
of the list have the same name: it returns nil exactly for the lists whose
names are pairwise distinct, the empty list among them. -/
theorem duplicate_cronjobs_are_detected (marshal : List Cronjob → String)
    (cronjobs : List Cronjob) :
    (checkDuplicateCronjobs marshal cronjobs = none ↔
      cronjobs.Pairwise (fun a b => a.Name ≠ b.Name)) ∧
    ((∃ err, checkDuplicateCronjobs marshal cronjobs = some err) ↔
      ¬ cronjobs.Pairwise (fun a b => a.Name ≠ b.Name)) ∧
    checkDuplicateCronjobs marshal [] = none := by
  have hnone : checkDuplicateCronjobs marshal cronjobs = none ↔
      cronjobs.Pairwise (fun a b => a.Name ≠ b.Name) := by
    rw [← duplicateCronjobs_eq_nil]
    unfold checkDuplicateCronjobs
    simp only []
    split <;> simp_all
  refine ⟨hnone, ?_, rfl⟩
  rw [← hnone]
  rcases checkDuplicateCronjobs marshal cronjobs with _ | e <;> simp

/-- Evaluation for C24: of three cronjobs of the same name, the list that is
reported holds the second and the third one once and the first one twice. -/
theorem first_of_three_duplicates_is_reported_twice :
    (duplicateCronjobs tripleCronjobs).map (fun cronjob => cronjob.Command) =
      ["second", "third", "first", "first"] ∧
    (tripleCronjobs.map (fun cronjob => cronjob.Command)) = ["first", "second", "third"] := by
  decide

/-! ## Native cronjob names -/

theorem replaceNonAlnumRuns_chars (l : List Char) (inRun : Bool) :
    ∀ c ∈ replaceNonAlnumRuns l inRun, c.isAlphanum = true ∨ c = '-' := by
  induction l generalizing inRun with
  | nil => simp [replaceNonAlnumRuns]
  | cons a rest ih =>
    intro c hc
    unfold replaceNonAlnumRuns at hc
    by_cases ha : a.isAlphanum = true
    · rw [if_pos ha] at hc
      rcases List.mem_cons.mp hc with h | h
      · left; rw [h]; exact ha
      · exact ih false c h
    · rw [if_neg ha] at hc
      cases inRun with
      | true =>
        simp only [if_true] at hc
        exact ih true c hc
      | false =>
        simp only [Bool.false_eq_true, if_false] at hc
        rcases List.mem_cons.mp hc with h | h
        · right; exact h
        · exact ih true c h

theorem replaceNonAlnumRuns_keeps_alnum (l : List Char) (inRun : Bool) :
    (replaceNonAlnumRuns l inRun).filter (fun c => c.isAlphanum) =
      l.filter (fun c => c.isAlphanum) := by
  induction l generalizing inRun with
  | nil => simp [replaceNonAlnumRuns]
  | cons a rest ih =>
    unfold replaceNonAlnumRuns
    by_cases ha : a.isAlphanum = true
    · rw [if_pos ha]
      simp only [List.filter_cons, ha, if_true, ih]
    · rw [if_neg ha]
      have hh : ('-' : Char).isAlphanum = false := by decide
      cases inRun with
      | true =>
        simp [List.filter_cons, ha, ih]
      | false =>
        simp [List.filter_cons, ha, hh, ih]

theorem cronjobsLoop_native (x : Externals) (buildValues : BuildValues)
    (composeService lagoonOverrideName : String) (cronjobs inpod native : List Cronjob)
    (inpod2 native2 : List Cronjob)
    (h : cronjobsLoop x buildValues composeService lagoonOverrideName cronjobs inpod native =
      .ok (inpod2, native2)) :
    ∀ c ∈ native2, c ∈ native ∨
      ∃ declared ∈ cronjobs,
        c.Name = nativeCronjobName x lagoonOverrideName declared.Name := by
  induction cronjobs generalizing inpod native with
  | nil =>
    unfold cronjobsLoop at h
    cases h
    intro c hc
    exact Or.inl hc
  | cons d rest ih =>
    unfold cronjobsLoop at h
    intro c hc
    split at h
    · split at h
      · cases h
      · split at h
        · cases h
        · split at h
          · rcases ih _ _ h c hc with hm | ⟨e, he, hn⟩
            · exact Or.inl hm
            · exact Or.inr ⟨e, List.mem_cons_of_mem _ he, hn⟩
          · rcases ih _ _ h c hc with hm | ⟨e, he, hn⟩
            · rcases List.mem_append.mp hm with hm | hm
              · exact Or.inl hm
              · rw [List.mem_singleton.mp hm]
                exact Or.inr ⟨d, List.mem_cons_self _ _, rfl⟩
            · exact Or.inr ⟨e, List.mem_cons_of_mem _ he, hn⟩
    · rcases ih _ _ h c hc with hm | ⟨e, he, hn⟩
      · exact Or.inl hm
      · exact Or.inr ⟨e, List.mem_cons_of_mem _ he, hn⟩

theorem nativeCronjobName_of_replacement (x : Externals) (buildValues : BuildValues)
    (composeService : String) (composeServiceValues : ServiceConfig) (debug : Bool)
    (lagoonOverrideName name : String) :
    (String.mk (replaceNonAlnumRuns
        ("cronjob-" ++ lagoonOverrideName ++ "-" ++ x.ToLower name).data false)).data.filter
        (fun c => c.isAlphanum) =
      ("cronjob-" ++ lagoonOverrideName ++ "-" ++ x.ToLower name).data.filter
        (fun c => c.isAlphanum) ∧
    (∀ c ∈ (String.mk (replaceNonAlnumRuns
        ("cronjob-" ++ lagoonOverrideName ++ "-" ++ x.ToLower name).data false)).data,
      c.isAlphanum = true ∨ c = '-') ∧
    ((String.mk (replaceNonAlnumRuns
        ("cronjob-" ++ lagoonOverrideName ++ "-" ++ x.ToLower name).data false)).length ≤ 52 →
      nativeCronjobName x lagoonOverrideName name =
        String.mk (replaceNonAlnumRuns
          ("cronjob-" ++ lagoonOverrideName ++ "-" ++ x.ToLower name).data false)) ∧
    (52 < (String.mk (replaceNonAlnumRuns
        ("cronjob-" ++ lagoonOverrideName ++ "-" ++ x.ToLower name).data false)).length →
      nativeCronjobName x lagoonOverrideName name =
        String.mk ((String.mk (replaceNonAlnumRuns
          ("cronjob-" ++ lagoonOverrideName ++ "-" ++ x.ToLower name).data false)).data.take
            45) ++ "-" ++
        String.mk ((x.GetBase32EncodedLowercase (x.GetSha256Hash
          (String.mk (replaceNonAlnumRuns
            ("cronjob-" ++ lagoonOverrideName ++ "-" ++ x.ToLower name).data
              false)))).data.take 6) ∧
      ((6 ≤ (x.GetBase32EncodedLowercase (x.GetSha256Hash
          (String.mk (replaceNonAlnumRuns
            ("cronjob-" ++ lagoonOverrideName ++ "-" ++ x.ToLower name).data
              false)))).length) →
        (nativeCronjobName x lagoonOverrideName name).length = 52)) ∧
    (nativeCronjobName x lagoonOverrideName name).length ≤ 52 ∧
    ∀ sv calls,
      composeToServiceValues x buildValues composeService composeServiceValues debug =
        (.returned sv none, calls) →
      ∀ cronjob ∈ sv.NativeCronjobs,
        ∃ declared ∈ (buildValues.LagoonYAML.environment buildValues.Branch).Cronjobs,
          cronjob.Name = nativeCronjobName x sv.OverrideName declared.Name := by
  refine ⟨replaceNonAlnumRuns_keeps_alnum _ _, replaceNonAlnumRuns_chars _ _, ?_, ?_, ?_, ?_⟩
  · intro hle
    unfold nativeCronjobName
    simp only []
    rw [if_neg (by omega)]
  · intro hlt
    refine ⟨?_, ?_⟩
    · unfold nativeCronjobName
      simp only []
      rw [if_pos hlt]
    · intro hhash
      unfold nativeCronjobName
      simp only []
      rw [if_pos hlt]
      have h1 : ("-" : String).length = 1 := rfl
      rw [String.length_append, String.length_append, h1]
      simp only [String.length, List.length_take] at hlt ⊢
      have hmin : min 6 (x.GetBase32EncodedLowercase (x.GetSha256Hash
          (String.mk (replaceNonAlnumRuns
            ("cronjob-" ++ lagoonOverrideName ++ "-" ++ x.ToLower name).data
              false)))).data.length = 6 := Nat.min_eq_left hhash
      rw [hmin]
      omega
  · unfold nativeCronjobName
    simp only []
    split
    · rename_i hlt
      have h1 : ("-" : String).length = 1 := rfl
      rw [String.length_append, String.length_append, h1]
      simp only [String.length, List.length_take] at hlt ⊢
      omega
    · omega
  · intro sv calls h cronjob hc
    by_cases hresolved : typeAtNoneCheck buildValues composeService composeServiceValues =
        some "none"
    · obtain ⟨_, t, ht, h1 | ⟨hne, _⟩⟩ := composeToServiceValues_returned _ _ _ _ _ _ _ h
      · obtain ⟨_, hz, _⟩ := h1
        subst hz
        simp at hc
      · rw [ht] at hresolved
        exact absurd (Option.some.inj hresolved) hne
    · obtain ⟨c, hports, _, _, _, _, _, _, hcron, _⟩ :=
        composeToServiceValues_stages _ _ _ _ _ _ _ h hresolved
      obtain ⟨_, _, _, _, _, _, hnat, _⟩ := servicePorts_returned_rest _ _ _ _ _ hports
      obtain ⟨_, t, ht, h1 | ⟨_, _, _, _, _, _, hon, _⟩⟩ :=
        composeToServiceValues_returned _ _ _ _ _ _ _ h
      · rw [ht] at hresolved
        exact absurd (congrArg some h1.1) hresolved
      · rw [hnat] at hc
        rw [hon]
        unfold cronjobsOf at hcron
        split at hcron
        · rcases cronjobsLoop_native _ _ _ _ _ _ _ _ _ hcron cronjob hc with hm | hm
          · simp at hm
          · exact hm
        · simp only [Except.ok.injEq, Prod.mk.injEq] at hcron
          rw [← hcron.2] at hc
          simp at hc

theorem replaceNonAlnumRuns_cons (c : Char) (cs : List Char) (inRun : Bool) :
    replaceNonAlnumRuns (c :: cs) inRun =
      if c.isAlphanum then c :: replaceNonAlnumRuns cs false
      else if inRun then replaceNonAlnumRuns cs true
      else '-' :: replaceNonAlnumRuns cs true := by
  rw [replaceNonAlnumRuns]

theorem specSlug_run (ag : Char) (g : List Char)
    (hg : ∀ c ∈ g, c.isAlphanum = ag.isAlphanum) :
    (if (ag :: g).reverse.all (fun c => c.isAlphanum) then (ag :: g).reverse else ['-']) =
      if ag.isAlphanum then (ag :: g).reverse else ['-'] := by
  have hall : (ag :: g).reverse.all (fun c => c.isAlphanum) = ag.isAlphanum := by
    rw [List.all_reverse, List.all_cons]
    cases ha : ag.isAlphanum
    · rfl
    · rw [Bool.true_and, List.all_eq_true]
      intro c hc
      rw [hg c hc, ha]
  rw [hall]

theorem splitBy_loop_slug (as : List Char) (ag : Char) (g : List Char)
    (gs : List (List Char)) (hg : ∀ c ∈ g, c.isAlphanum = ag.isAlphanum) :
    ((List.splitBy.loop (fun a b => a.isAlphanum == b.isAlphanum) as ag g gs).map
        (fun run => if run.all (fun c => c.isAlphanum) then run else ['-'])).flatten =
      (gs.reverse.map
        (fun run => if run.all (fun c => c.isAlphanum) then run else ['-'])).flatten ++
      (if ag.isAlphanum then (ag :: g).reverse else ['-']) ++
      replaceNonAlnumRuns as (!ag.isAlphanum) := by
  induction as generalizing ag g gs with
  | nil =>
    have hl : List.splitBy.loop (fun a b : Char => a.isAlphanum == b.isAlphanum) [] ag g gs =
        ((ag :: g).reverse :: gs).reverse := rfl
    rw [hl, List.reverse_cons, List.map_append, List.flatten_append]
    simp only [List.map_cons, List.map_nil, List.flatten_cons, List.flatten_nil,
      List.append_nil, replaceNonAlnumRuns]
    rw [specSlug_run ag g hg]
  | cons a rest ih =>
    by_cases hsame : (ag.isAlphanum == a.isAlphanum) = true
    · have hl : List.splitBy.loop (fun a b : Char => a.isAlphanum == b.isAlphanum)
          (a :: rest) ag g gs =
          List.splitBy.loop (fun a b : Char => a.isAlphanum == b.isAlphanum) rest a
            (ag :: g) gs := by
        show (match (ag.isAlphanum == a.isAlphanum) with
          | true => List.splitBy.loop _ rest a (ag :: g) gs
          | false => List.splitBy.loop _ rest a [] ((ag :: g).reverse :: gs)) = _
        rw [hsame]
      have heq : ag.isAlphanum = a.isAlphanum := by simpa using hsame
      rw [hl, ih a (ag :: g) gs (by
        intro c hc
        rcases List.mem_cons.mp hc with hc | hc
        · rw [hc, heq]
        · rw [hg c hc, heq])]
      simp only [List.append_assoc]
      congr 1
      rw [replaceNonAlnumRuns_cons]
      cases ha : a.isAlphanum
      · rw [ha] at heq
        simp [heq]
      · rw [ha] at heq
        simp [heq]
    · have hfalse : (ag.isAlphanum == a.isAlphanum) = false := by
        simpa using hsame
      have hl : List.splitBy.loop (fun a b : Char => a.isAlphanum == b.isAlphanum)
          (a :: rest) ag g gs =
          List.splitBy.loop (fun a b : Char => a.isAlphanum == b.isAlphanum) rest a
            [] ((ag :: g).reverse :: gs) := by
        show (match (ag.isAlphanum == a.isAlphanum) with
          | true => List.splitBy.loop _ rest a (ag :: g) gs
          | false => List.splitBy.loop _ rest a [] ((ag :: g).reverse :: gs)) = _
        rw [hfalse]
      rw [hl, ih a [] ((ag :: g).reverse :: gs) (by simp)]
      rw [List.reverse_cons, List.map_append, List.flatten_append]
      simp only [List.map_cons, List.map_nil, List.flatten_cons, List.flatten_nil,
        List.append_nil, List.append_assoc]
      rw [specSlug_run ag g hg]
      congr 2
      rw [replaceNonAlnumRuns_cons]
      cases ha : a.isAlphanum <;> cases hb : ag.isAlphanum
      · rw [ha, hb] at hfalse
        cases hfalse
      · simp
      · simp
      · rw [ha, hb] at hfalse
        cases hfalse

theorem replaceNonAlnumRuns_eq_specSlug (l : List Char) :
    replaceNonAlnumRuns l false = specSlug l := by
  unfold specSlug
  rcases l with _ | ⟨a, rest⟩
  · rfl
  · have hl : List.splitBy (fun a b : Char => a.isAlphanum == b.isAlphanum) (a :: rest) =
        List.splitBy.loop (fun a b : Char => a.isAlphanum == b.isAlphanum) rest a [] [] := rfl
    rw [hl, splitBy_loop_slug rest a [] [] (by simp), replaceNonAlnumRuns_cons]
    cases ha : a.isAlphanum <;> simp

/-- C25: the name of a native cronjob is derived from the text
`cronjob-<override name>-<lowercased name>`, in which the code replaces each
maximal run of characters that are not letters or digits by one hyphen: the
replacement of the code gives `s`, the text cut into its maximal runs with
each run of other characters turned into one hyphen (`s` keeps the letters and
digits of the text and holds nothing but letters, digits and hyphens). The
name is `s` when `s` has at most 52 characters, and otherwise the first 45
characters of `s`, a hyphen and the first 6 characters of the encoded hash of
`s`. It has at most 52 characters, and exactly 52 when the name is cut and the
encoded hash has at least 6 characters (the base32 text of a SHA-256 hash has
56). Every native cronjob of a resolved service has such a name, made from the
override name of the service and the name of a cronjob of the branch. -/
theorem native_cronjob_name_rule (x : Externals) (buildValues : BuildValues)
    (composeService : String) (composeServiceValues : ServiceConfig) (debug : Bool)
    (lagoonOverrideName name : String) :
    replaceNonAlnumRuns
        ("cronjob-" ++ lagoonOverrideName ++ "-" ++ x.ToLower name).data false =
      specSlug ("cronjob-" ++ lagoonOverrideName ++ "-" ++ x.ToLower name).data ∧
    (String.mk (specSlug
        ("cronjob-" ++ lagoonOverrideName ++ "-" ++ x.ToLower name).data)).data.filter
        (fun c => c.isAlphanum) =
      ("cronjob-" ++ lagoonOverrideName ++ "-" ++ x.ToLower name).data.filter
        (fun c => c.isAlphanum) ∧
    (∀ c ∈ (String.mk (specSlug
        ("cronjob-" ++ lagoonOverrideName ++ "-" ++ x.ToLower name).data)).data,
      c.isAlphanum = true ∨ c = '-') ∧
    ((String.mk (specSlug
        ("cronjob-" ++ lagoonOverrideName ++ "-" ++ x.ToLower name).data)).length ≤ 52 →
      nativeCronjobName x lagoonOverrideName name =
        String.mk (specSlug
        ("cronjob-" ++ lagoonOverrideName ++ "-" ++ x.ToLower name).data)) ∧
    (52 < (String.mk (specSlug
        ("cronjob-" ++ lagoonOverrideName ++ "-" ++ x.ToLower name).data)).length →
      nativeCronjobName x lagoonOverrideName name =
        String.mk ((String.mk (specSlug
        ("cronjob-" ++ lagoonOverrideName ++ "-" ++ x.ToLower name).data)).data.take
            45) ++ "-" ++
        String.mk ((x.GetBase32EncodedLowercase (x.GetSha256Hash
          (String.mk (specSlug
        ("cronjob-" ++ lagoonOverrideName ++ "-" ++ x.ToLower name).data)))).data.take 6) ∧
      ((6 ≤ (x.GetBase32EncodedLowercase (x.GetSha256Hash
          (String.mk (specSlug
        ("cronjob-" ++ lagoonOverrideName ++ "-" ++ x.ToLower name).data)))).length) →
        (nativeCronjobName x lagoonOverrideName name).length = 52)) ∧
    (nativeCronjobName x lagoonOverrideName name).length ≤ 52 ∧
    ∀ sv calls,
      composeToServiceValues x buildValues composeService composeServiceValues debug =
        (.returned sv none, calls) →
      ∀ cronjob ∈ sv.NativeCronjobs,
        ∃ declared ∈ (buildValues.LagoonYAML.environment buildValues.Branch).Cronjobs,
          cronjob.Name = nativeCronjobName x sv.OverrideName declared.Name := by
  have hs := replaceNonAlnumRuns_eq_specSlug
    ("cronjob-" ++ lagoonOverrideName ++ "-" ++ x.ToLower name).data
  have hold := nativeCronjobName_of_replacement x buildValues composeService
    composeServiceValues debug lagoonOverrideName name
  rw [hs] at hold
  exact ⟨hs, hold⟩

/-- Witness of C25: the cli service of the example gets one native cronjob,
whose long name is cut to 52 characters; a run of six characters that are not
letters or digits gives one hyphen. -/
theorem native_cronjob_name_rule_witness :
    (composeToServiceValues hashExternals longCronjobBuildValues "cli" cliService
        false).1.value.map (fun sv => sv.NativeCronjobs.map (fun c => c.Name)) =
      some ["cronjob-cli-drush-cron-run-the-queue-workers--mfrggz"] ∧
    nativeCronjobName hashExternals "cli" "Queue  --  Run" = "cronjob-cli-queue-run" ∧
    specSlug "a - b--c".data = "a-b-c".data ∧
    (nativeCronjobName hashExternals "cli"
      "Drush cron: run the queue workers every fifteen minutes!").length = 52 :=
  ⟨by decide, by decide, by decide,
   ((native_cronjob_name_rule hashExternals longCronjobBuildValues "cli" cliService false "cli"
      "Drush cron: run the queue workers every fifteen minutes!").2.2.2.2.1 (by decide)).2
      (by decide)⟩

/-! ## Spot instances and replicas -/

theorem spotLoop_eq (lagoonType : String) (l : List String) (use force use2 force2 : Bool)
    (h : spotLoop lagoonType l (use, force) = some (use2, force2)) :
    use2 = (use || l.any (specSpotEntryMatches lagoonType)) ∧
    force2 = (force || l.any (specSpotEntryForces lagoonType)) := by
  induction l generalizing use force with
  | nil =>
    unfold spotLoop at h
    cases h
    simp
  | cons t rest ih =>
    unfold spotLoop at h
    by_cases ht : t = ""
    · rw [if_neg (not_not.mpr ht)] at h
      obtain ⟨h1, h2⟩ := ih _ _ h
      simp [h1, h2, specSpotEntryMatches, specSpotEntryForces, ht]
    · rw [if_pos ht] at h
      rcases hs : strings_Split t ":" with _ | ⟨first, more⟩
      · rw [hs] at h; cases h
      · rw [hs] at h
        simp only [] at h
        by_cases hf : first = lagoonType
        · rw [if_pos hf] at h
          rcases more with _ | ⟨second, more2⟩
          · cases h
          · simp only [] at h
            obtain ⟨h1, h2⟩ := ih _ _ h
            by_cases hp : second = "force"
            · simp [h1, h2, specSpotEntryMatches, specSpotEntryForces, ht, hs, hf, hp]
            · simp [h1, h2, specSpotEntryMatches, specSpotEntryForces, ht, hs, hf, hp]
        · rw [if_neg hf] at h
          obtain ⟨h1, h2⟩ := ih _ _ h
          rcases more with _ | ⟨second, more2⟩
          · simp [h1, h2, specSpotEntryMatches, specSpotEntryForces, ht, hs]
          · simp [h1, h2, specSpotEntryMatches, specSpotEntryForces, ht, hs, hf]

theorem specSpotPair_force_use (types lagoonType : String) :
    (specSpotPair types lagoonType).2 = true → (specSpotPair types lagoonType).1 = true := by
  unfold specSpotPair
  simp only [List.any_eq_true]
  rintro ⟨t, ht, hf⟩
  refine ⟨t, ht, ?_⟩
  unfold specSpotEntryForces at hf
  unfold specSpotEntryMatches
  rcases hs : strings_Split t ":" with _ | ⟨a, _ | ⟨b, more⟩⟩
  · rw [hs] at hf; simp at hf
  · rw [hs] at hf; simp at hf
  · rw [hs] at hf
    simp only [Bool.and_eq_true, decide_eq_true_eq] at hf ⊢
    exact ⟨hf.1, hf.2.1⟩

theorem specSpotPair_empty (lagoonType : String) :
    specSpotPair "" lagoonType = (false, false) := by
  have hs : strings_Split "" "," = [""] := by decide
  unfold specSpotPair
  rw [hs]
  simp [specSpotEntryMatches, specSpotEntryForces]

theorem composeToServiceValues_spot (x : Externals) (buildValues : BuildValues)
    (composeService : String) (composeServiceValues : ServiceConfig) (debug : Bool)
    (sv : ServiceValues) (calls : List DBaaSCall)
    (h : composeToServiceValues x buildValues composeService composeServiceValues debug =
      (.returned sv none, calls))
    (hresolved : typeAtNoneCheck buildValues composeService composeServiceValues ≠
      some "none") :
    (sv.UseSpotInstances, sv.ForceSpotInstances) =
      specSpotPair (spotTypesOf x buildValues debug).1 sv.Type_ ∧
    (sv.CronjobUseSpotInstances, sv.CronjobForceSpotInstances) =
      specSpotPair (spotTypesOf x buildValues debug).2 sv.Type_ := by
  obtain ⟨c, hports, _, _, hs1, hs2, _⟩ :=
    composeToServiceValues_stages _ _ _ _ _ _ _ h hresolved
  obtain ⟨h1, h2, h3, h4, _⟩ := servicePorts_returned_rest _ _ _ _ _ hports
  obtain ⟨ha, hb⟩ := spotLoop_eq _ _ _ _ _ _ hs1
  obtain ⟨hc, hd⟩ := spotLoop_eq _ _ _ _ _ _ hs2
  rw [h1, h2, h3, h4, ha, hb, hc, hd]
  simp [specSpotPair]

/-- C26: for a resolved service, when the environment type is "production"
and the flag `SPOT_INSTANCE_PRODUCTION` is "enabled", `UseSpotInstances` holds
exactly when a non-empty `type:policy` entry of the list
`SPOT_INSTANCE_PRODUCTION_TYPES` has the resolved type, and
`ForceSpotInstances` exactly when such an entry has the policy "force"; the
cronjob pair follows the same rule over `SPOT_INSTANCE_PRODUCTION_CRONJOB_TYPES`.
The same holds for "development" with the development flag and lists. When
the flag of the environment type is not enabled, or the environment type is
neither of the two, the four fields are false. `ForceSpotInstances` implies
`UseSpotInstances`, and likewise for the cronjob pair. -/
theorem spot_fields_follow_the_types_lists (x : Externals) (buildValues : BuildValues)
    (composeService : String) (composeServiceValues : ServiceConfig) (debug : Bool)
    (sv : ServiceValues) (calls : List DBaaSCall)
    (h : composeToServiceValues x buildValues composeService composeServiceValues debug =
      (.returned sv none, calls))
    (hresolved : typeAtNoneCheck buildValues composeService composeServiceValues ≠
      some "none") :
    (buildValues.EnvironmentType = "production" →
      x.CheckFeatureFlag "SPOT_INSTANCE_PRODUCTION" buildValues.EnvironmentVariables debug =
        "enabled" →
      (sv.UseSpotInstances, sv.ForceSpotInstances) =
        specSpotPair (x.CheckFeatureFlag "SPOT_INSTANCE_PRODUCTION_TYPES"
          buildValues.EnvironmentVariables debug) sv.Type_ ∧
      (sv.CronjobUseSpotInstances, sv.CronjobForceSpotInstances) =
        specSpotPair (x.CheckFeatureFlag "SPOT_INSTANCE_PRODUCTION_CRONJOB_TYPES"
          buildValues.EnvironmentVariables debug) sv.Type_) ∧
    (buildValues.EnvironmentType = "development" →
      x.CheckFeatureFlag "SPOT_INSTANCE_DEVELOPMENT" buildValues.EnvironmentVariables debug =
        "enabled" →
      (sv.UseSpotInstances, sv.ForceSpotInstances) =
        specSpotPair (x.CheckFeatureFlag "SPOT_INSTANCE_DEVELOPMENT_TYPES"
          buildValues.EnvironmentVariables debug) sv.Type_ ∧
      (sv.CronjobUseSpotInstances, sv.CronjobForceSpotInstances) =
        specSpotPair (x.CheckFeatureFlag "SPOT_INSTANCE_DEVELOPMENT_CRONJOB_TYPES"
          buildValues.EnvironmentVariables debug) sv.Type_) ∧
    (¬ (buildValues.EnvironmentType = "production" ∧
        x.CheckFeatureFlag "SPOT_INSTANCE_PRODUCTION" buildValues.EnvironmentVariables debug =
          "enabled") →
     ¬ (buildValues.EnvironmentType = "development" ∧
        x.CheckFeatureFlag "SPOT_INSTANCE_DEVELOPMENT" buildValues.EnvironmentVariables debug =
          "enabled") →
      sv.UseSpotInstances = false ∧ sv.ForceSpotInstances = false ∧
      sv.CronjobUseSpotInstances = false ∧ sv.CronjobForceSpotInstances = false) ∧
    (sv.ForceSpotInstances = true → sv.UseSpotInstances = true) ∧
    (sv.CronjobForceSpotInstances = true → sv.CronjobUseSpotInstances = true) := by
  obtain ⟨h1, h2⟩ := composeToServiceValues_spot _ _ _ _ _ _ _ h hresolved
  refine ⟨?_, ?_, ?_, ?_, ?_⟩
  · intro he hf
    have hne : ¬ (x.CheckFeatureFlag "SPOT_INSTANCE_DEVELOPMENT"
        buildValues.EnvironmentVariables debug = "enabled" ∧
        buildValues.EnvironmentType = "development") := by
      rw [he]; intro hd; exact absurd hd.2 (by decide)
    have hst : spotTypesOf x buildValues debug =
        (x.CheckFeatureFlag "SPOT_INSTANCE_PRODUCTION_TYPES"
          buildValues.EnvironmentVariables debug,
         x.CheckFeatureFlag "SPOT_INSTANCE_PRODUCTION_CRONJOB_TYPES"
          buildValues.EnvironmentVariables debug) := by
      unfold spotTypesOf
      simp only []
      rw [if_neg hne, if_pos ⟨hf, he⟩]
    rw [hst] at h1 h2
    exact ⟨h1, h2⟩
  · intro he hf
    have hst : spotTypesOf x buildValues debug =
        (x.CheckFeatureFlag "SPOT_INSTANCE_DEVELOPMENT_TYPES"
          buildValues.EnvironmentVariables debug,
         x.CheckFeatureFlag "SPOT_INSTANCE_DEVELOPMENT_CRONJOB_TYPES"
          buildValues.EnvironmentVariables debug) := by
      unfold spotTypesOf
      simp only []
      rw [if_pos ⟨hf, he⟩]
    rw [hst] at h1 h2
    exact ⟨h1, h2⟩
  · intro hp hd
    have hst : spotTypesOf x buildValues debug = ("", "") := by
      unfold spotTypesOf
      simp only []
      rw [if_neg (fun hh => hd ⟨hh.2, hh.1⟩), if_neg (fun hh => hp ⟨hh.2, hh.1⟩)]
    rw [hst, specSpotPair_empty] at h1 h2
    simp only [Prod.mk.injEq] at h1 h2
    exact ⟨h1.1, h1.2, h2.1, h2.2⟩
  · intro hf
    have ha := congrArg Prod.fst h1
    have hb := congrArg Prod.snd h1
    simp only [] at ha hb
    rw [ha]
    exact specSpotPair_force_use _ _ (hb ▸ hf)
  · intro hf
    have ha := congrArg Prod.fst h2
    have hb := congrArg Prod.snd h2
    simp only [] at ha hb
    rw [ha]
    exact specSpotPair_force_use _ _ (hb ▸ hf)

/-- Witness of C26: a node service of a production environment with the
lists `nginx:force,,node:use` and `cli:use,node:force`. -/
theorem spot_fields_follow_the_types_lists_witness :
    ∃ sv calls,
      composeToServiceValues spotExternals exampleBuildValues "node" nodeService false =
        (.returned sv none, calls) ∧
      (sv.UseSpotInstances, sv.ForceSpotInstances, sv.CronjobUseSpotInstances,
        sv.CronjobForceSpotInstances) = (true, false, true, true) ∧
      (sv.UseSpotInstances, sv.ForceSpotInstances) =
        specSpotPair "nginx:force,,node:use" sv.Type_ ∧
      (sv.CronjobUseSpotInstances, sv.CronjobForceSpotInstances) =
        specSpotPair "cli:use,node:force" sv.Type_ :=
  ⟨_, _, rfl, by decide,
    (spot_fields_follow_the_types_lists spotExternals exampleBuildValues "node" nodeService
      false _ _ rfl (by decide)).1 (by decide) (by decide)⟩

theorem spotReplicasLoop_eq (lagoonType environmentType : String) :
    spotReplicasLoop lagoonType environmentType
        (strings_Split "nginx,nginx-persistent,nginx-php,nginx-php-persistent" ",") 0 =
      if environmentType = "production" ∧
          lagoonType ∈ ["nginx", "nginx-persistent", "nginx-php", "nginx-php-persistent"]
      then 2 else 0 := by
  have hs : strings_Split "nginx,nginx-persistent,nginx-php,nginx-php-persistent" "," =
      ["nginx", "nginx-persistent", "nginx-php", "nginx-php-persistent"] := by decide
  rw [hs]
  by_cases he : environmentType = "production"
  · by_cases h1 : lagoonType = "nginx"
    · subst h1; subst he; decide
    · by_cases h2 : lagoonType = "nginx-persistent"
      · subst h2; subst he; decide
      · by_cases h3 : lagoonType = "nginx-php"
        · subst h3; subst he; decide
        · by_cases h4 : lagoonType = "nginx-php-persistent"
          · subst h4; subst he; decide
          · have e1 : ¬ ("nginx" = lagoonType) := fun hh => h1 hh.symm
            have e2 : ¬ ("nginx-persistent" = lagoonType) := fun hh => h2 hh.symm
            have e3 : ¬ ("nginx-php" = lagoonType) := fun hh => h3 hh.symm
            have e4 : ¬ ("nginx-php-persistent" = lagoonType) := fun hh => h4 hh.symm
            simp [spotReplicasLoop, h1, h2, h3, h4, e1, e2, e3, e4]
  · simp [spotReplicasLoop, he]

/-- C27: a descriptor that `composeToServiceValues` returns without error has
`Replicas` 2 when the environment type is "production" and its type is one of
nginx, nginx-persistent, nginx-php and nginx-php-persistent, and 0 in every
other case: the value is a function of the environment type and the type
alone, whatever the spot flags and lists are. -/
theorem replicas_are_two_for_production_nginx (x : Externals) (buildValues : BuildValues)
    (composeService : String) (composeServiceValues : ServiceConfig) (debug : Bool)
    (sv : ServiceValues) (calls : List DBaaSCall)
    (h : composeToServiceValues x buildValues composeService composeServiceValues debug =
      (.returned sv none, calls)) :
    sv.Replicas =
      if buildValues.EnvironmentType = "production" ∧
          sv.Type_ ∈ ["nginx", "nginx-persistent", "nginx-php", "nginx-php-persistent"]
      then 2 else 0 := by
  by_cases hresolved : typeAtNoneCheck buildValues composeService composeServiceValues =
      some "none"
  · obtain ⟨_, t, ht, h1 | ⟨hne, _⟩⟩ := composeToServiceValues_returned _ _ _ _ _ _ _ h
    · obtain ⟨_, hz, _⟩ := h1
      subst hz
      exact (if_neg (fun hh => absurd hh.2 (by decide))).symm
    · rw [ht] at hresolved
      exact absurd (Option.some.inj hresolved) hne
  · obtain ⟨c, hports, _, _, _, _, hrep, _⟩ :=
      composeToServiceValues_stages _ _ _ _ _ _ _ h hresolved
    obtain ⟨_, _, _, _, hr, _⟩ := servicePorts_returned_rest _ _ _ _ _ hports
    rw [hr, hrep, spotReplicasLoop_eq]

/-- Witness of C27: an nginx service has two replicas in production and none
in development, with the spot flag enabled or not. -/
theorem replicas_are_two_for_production_nginx_witness :
    ∃ sv calls,
      composeToServiceValues spotExternals exampleBuildValues "nginx" nginxService false =
        (.returned sv none, calls) ∧
      sv.Replicas = 2 ∧
      (composeToServiceValues (exampleExternals []) exampleBuildValues "nginx" nginxService
        false).1.value.map (fun s => s.Replicas) = some 2 ∧
      (composeToServiceValues spotExternals
        { exampleBuildValues with EnvironmentType := "development" } "nginx" nginxService
        false).1.value.map (fun s => s.Replicas) = some 0 ∧
      sv.Replicas =
        if exampleBuildValues.EnvironmentType = "production" ∧
            sv.Type_ ∈ ["nginx", "nginx-persistent", "nginx-php", "nginx-php-persistent"]
        then 2 else 0 :=
  ⟨_, _, rfl, by decide, by decide, by decide,
    replicas_are_two_for_production_nginx spotExternals exampleBuildValues "nginx" nginxService
      false _ _ rfl⟩

/-! ## A failed run -/

theorem composeServicesLoop_failed (x : Externals) (debug : Bool) (serviceName : String)
    (services : List ServiceConfig) (buildValues : BuildValues) (calls : List DBaaSCall)
    (buildValues2 : BuildValues) (err : String) (calls2 : List DBaaSCall)
    (h : composeServicesLoop x debug serviceName services buildValues calls =
      .error (.returned buildValues2 (some err), calls2)) :
    ∃ pre c post resolvedServices cService made earlier,
      services.filter (fun composeServiceValues => serviceName = composeServiceValues.Name) =
        pre ++ c :: post ∧
      ResolvedInOrder x debug buildValues pre resolvedServices ∧
      buildValues2 = resolvedServices.foldl appendService buildValues ∧
      composeToServiceValues x buildValues2 c.Name c debug =
        (.returned cService (some err), made) ∧
      calls2 = earlier ++ made := by
  induction services generalizing buildValues calls with
  | nil =>
    unfold composeServicesLoop at h
    cases h
  | cons c rest ih =>
    unfold composeServicesLoop at h
    by_cases hn : serviceName = c.Name
    · rw [if_pos hn] at h
      rcases hr : composeToServiceValues x buildValues c.Name c debug with ⟨r1, made⟩
      rw [hr] at h
      rcases r1 with ⟨sv, e⟩ | _
      · rcases e with _ | e
        · simp only [] at h
          obtain ⟨pre, c2, post, svs, sv2, made2, earlier, hsplit, hres, hfin, hfail, hcalls⟩ :=
            ih _ _ h
          refine ⟨c :: pre, c2, post, sv :: svs, sv2, made2, earlier, ?_, ?_, ?_, hfail, hcalls⟩
          · rw [List.filter_cons_of_pos (by simpa using hn), hsplit]
            rfl
          · exact ResolvedInOrder.cons _ _ _ _ _ _ hr hres
          · rw [hfin]; rfl
        · simp only [Except.error.injEq, Prod.mk.injEq, Ret.returned.injEq,
            Option.some.injEq] at h
          obtain ⟨⟨hb, he⟩, hc⟩ := h
          subst hb; subst he
          refine ⟨[], c, rest.filter (fun composeServiceValues =>
            serviceName = composeServiceValues.Name), [], sv, made, calls, ?_,
            ResolvedInOrder.nil _, rfl, hr, hc.symm⟩
          rw [List.filter_cons_of_pos (by simpa using hn)]
          rfl
      · cases h
    · rw [if_neg hn] at h
      obtain ⟨pre, c2, post, svs, sv2, made2, earlier, hsplit, hres, hfin, hfail, hcalls⟩ :=
        ih _ _ h
      refine ⟨pre, c2, post, svs, sv2, made2, earlier, ?_, hres, hfin, hfail, hcalls⟩
      rw [List.filter_cons_of_neg (by simpa using hn), hsplit]

theorem composeOrderLoop_failed (x : Externals) (debug : Bool) (services : List ServiceConfig)
    (order : List OriginalServiceOrder) (buildValues : BuildValues) (calls : List DBaaSCall)
    (buildValues2 : BuildValues) (err : String) (calls2 : List DBaaSCall)
    (h : composeOrderLoop x debug services order buildValues calls =
      .error (.returned buildValues2 (some err), calls2)) :
    ∃ pre c post resolvedServices cService made earlier,
      declaredServices services order = pre ++ c :: post ∧
      ResolvedInOrder x debug buildValues pre resolvedServices ∧
      buildValues2 = resolvedServices.foldl appendService buildValues ∧
      composeToServiceValues x buildValues2 c.Name c debug =
        (.returned cService (some err), made) ∧
      calls2 = earlier ++ made := by
  induction order generalizing buildValues calls with
  | nil =>
    unfold composeOrderLoop at h
    cases h
  | cons o rest ih =>
    unfold composeOrderLoop at h
    rcases hi : composeServicesLoop x debug o.Name services buildValues calls with
      r | ⟨bv1, calls1⟩
    · rw [hi] at h
      simp only [Except.error.injEq] at h
      subst h
      obtain ⟨pre, c, post, svs, sv, made, earlier, hsplit, hres, hfin, hfail, hcalls⟩ :=
        composeServicesLoop_failed _ _ _ _ _ _ _ _ _ hi
      refine ⟨pre, c, post ++ declaredServices services rest, svs, sv, made, earlier, ?_,
        hres, hfin, hfail, hcalls⟩
      unfold declaredServices
      rw [List.flatMap_cons, hsplit]
      simp
    · rw [hi] at h
      simp only [] at h
      obtain ⟨svs1, hres1, hfin1⟩ := composeServicesLoop_ok _ _ _ _ _ _ _ _ hi
      obtain ⟨pre, c, post, svs, sv, made, earlier, hsplit, hres, hfin, hfail, hcalls⟩ :=
        ih _ _ h
      refine ⟨services.filter (fun composeServiceValues => o.Name = composeServiceValues.Name)
        ++ pre, c, post, svs1 ++ svs, sv, made, earlier, ?_, ?_, ?_, hfail, hcalls⟩
      · unfold declaredServices
        rw [List.flatMap_cons]
        unfold declaredServices at hsplit
        rw [hsplit]
        simp
      · refine ResolvedInOrder.append _ _ _ _ _ _ _ hres1 ?_
        rw [← hfin1]
        exact hres
      · rw [hfin, hfin1, List.foldl_append]

theorem ResolvedInOrder.length (x : Externals) (debug : Bool) (buildValues : BuildValues)
    (declared : List ServiceConfig) (resolvedServices : List ServiceValues)
    (h : ResolvedInOrder x debug buildValues declared resolvedServices) :
    resolvedServices.length = declared.length := by
  induction h with
  | nil _ => rfl
  | cons _ _ _ _ _ _ _ _ ih => simp [ih]

/-- C28 as the code has it: when the resolution of a declared service fails,
`generateServicesFromDockerCompose` returns the error of the first service, in
the order of the declaration, whose resolution fails: the services declared
before it are resolved without error, and the calls of the failing service are
the last ones made on the DBaaS client. The build values are left with the
descriptors of the services declared before the failing one in
`buildValues.Services`, one for each, and with none of a later service. -/
theorem failed_run_stops_at_first_failure (x : Externals) (buildValues : BuildValues)
    (ignoreNonStringKeyErrors ignoreMissingEnvFiles debug : Bool)
    (lCompose : List ServiceConfig) (lComposeOrder : List OriginalServiceOrder)
    (buildValues2 : BuildValues) (err : String) (calls : List DBaaSCall)
    (hparse : x.UnmarshaDockerComposeYAML buildValues.LagoonYAML.DockerComposeYAML
      ignoreNonStringKeyErrors ignoreMissingEnvFiles
      (composeVarsOf buildValues.EnvironmentVariables) = .ok (lCompose, lComposeOrder))
    (h : generateServicesFromDockerCompose x buildValues ignoreNonStringKeyErrors
      ignoreMissingEnvFiles debug = (.returned buildValues2 (some err), calls)) :
    ∃ pre c post cService made earlier,
      declaredServices lCompose lComposeOrder = pre ++ c :: post ∧
      ResolvedInOrder x debug { buildValues with Services := [] } pre buildValues2.Services ∧
      buildValues2.Services.length = pre.length ∧
      composeToServiceValues x buildValues2 c.Name c debug =
        (.returned cService (some err), made) ∧
      calls = earlier ++ made := by
  unfold generateServicesFromDockerCompose at h
  simp only [hparse] at h
  rcases ho : composeOrderLoop x debug lCompose lComposeOrder
    { buildValues with Services := [] } [] with r | ⟨bv1, calls1⟩
  · rw [ho] at h
    simp only [] at h
    subst h
    obtain ⟨pre, c, post, svs, sv, made, earlier, hsplit, hres, hfin, hfail, hcalls⟩ :=
      composeOrderLoop_failed _ _ _ _ _ _ _ _ _ ho
    have hsvs : buildValues2.Services = svs := by
      rw [hfin, foldl_appendService_services]
      rfl
    refine ⟨pre, c, post, sv, made, earlier, hsplit, ?_, ?_, hfail, hcalls⟩
    · rw [hsvs]; exact hres
    · rw [hsvs]
      exact ResolvedInOrder.length _ _ _ _ _ hres
  · rw [ho] at h
    simp only [Prod.mk.injEq, Ret.returned.injEq] at h
    exact absurd h.1.2 (by simp)

/-- Witness of C28 as the code has it: of the services mariadb, cli and node
the second has no type label; the run fails with the error of cli and leaves
the descriptor of mariadb. -/
theorem failed_run_stops_at_first_failure_witness :
    ∃ buildValues2 err calls,
      generateServicesFromDockerCompose
        (exampleExternals [mariadbSingleService, unlabelledService, nodeService])
        exampleBuildValues false false false = (.returned buildValues2 (some err), calls) ∧
      ∃ pre c post cService made earlier,
        declaredServices [mariadbSingleService, unlabelledService, nodeService]
          [{ Name := "mariadb" }, { Name := "cli" }, { Name := "node" }] = pre ++ c :: post ∧
        ResolvedInOrder (exampleExternals [mariadbSingleService, unlabelledService, nodeService])
          false { exampleBuildValues with Services := [] } pre buildValues2.Services ∧
        buildValues2.Services.length = pre.length ∧
        composeToServiceValues
          (exampleExternals [mariadbSingleService, unlabelledService, nodeService])
          buildValues2 c.Name c false = (.returned cService (some err), made) ∧
        calls = earlier ++ made :=
  ⟨_, _, _, rfl,
    failed_run_stops_at_first_failure
      (exampleExternals [mariadbSingleService, unlabelledService, nodeService])
      exampleBuildValues false false false
      [mariadbSingleService, unlabelledService, nodeService]
      [{ Name := "mariadb" }, { Name := "cli" }, { Name := "node" }] _ _ _ rfl rfl⟩

/-- Counterexample to C28: of the services mariadb, cli and node the second
has no type label. The run fails with the error of cli, and the build values
are left with the descriptor of mariadb in `buildValues.Services` and with
`BackupsEnabled` turned on. -/
theorem failed_run_keeps_resolved_services :
    (generateServicesFromDockerCompose
      (exampleExternals [mariadbSingleService, unlabelledService, nodeService])
      exampleBuildValues false false false).1.error =
      some ("No lagoon.type has been set for service cli. If a Lagoon service is not " ++
        "required, please set the lagoon.type to \x27none\x27 for this service in " ++
        "docker-compose.yaml. See the Lagoon documentation for supported service types.") ∧
    (generateServicesFromDockerCompose
      (exampleExternals [mariadbSingleService, unlabelledService, nodeService])
      exampleBuildValues false false false).1.left.map
      (fun buildValues => (buildValues.BackupsEnabled,
        buildValues.Services.map (fun cService => (cService.Name, cService.Type_)))) =
      some (true, [("mariadb", "mariadb-single")]) ∧
    exampleBuildValues.BackupsEnabled = false :=
  ⟨rfl, by decide, by decide⟩

/-! ## Determinism -/

theorem cronjobsLoop_client (x : Externals) (buildValues : BuildValues) (client : DBaaSClient)
    (composeService lagoonOverrideName : String) (cronjobs inpod native : List Cronjob) :
    cronjobsLoop x (withClient buildValues client) composeService lagoonOverrideName cronjobs
        inpod native =
      cronjobsLoop x buildValues composeService lagoonOverrideName cronjobs inpod native := by
  induction cronjobs generalizing inpod native with
  | nil => unfold cronjobsLoop; rfl
  | cons c rest ih =>
    unfold cronjobsLoop
    simp only [ih]
    rfl

theorem imageBuildOf_client (x : Externals) (buildValues : BuildValues) (client : DBaaSClient)
    (composeService : String) (composeServiceValues : ServiceConfig) :
    imageBuildOf x (withClient buildValues client) composeService composeServiceValues =
      imageBuildOf x buildValues composeService composeServiceValues := rfl

theorem serviceValuesOfType_client (x : Externals) (buildValues : BuildValues)
    (client : DBaaSClient) (composeService : String) (composeServiceValues : ServiceConfig)
    (debug : Bool) (lagoonOverrideName lagoonType dbaasEnvironment : String) (svcIsDBaaS : Bool)
    (autogenEnabled autogenTLSAcmeEnabled : Bool)
    (servicePersistentPath servicePersistentName servicePersistentSize : String) :
    serviceValuesOfType x (withClient buildValues client) composeService composeServiceValues
        debug lagoonOverrideName lagoonType dbaasEnvironment svcIsDBaaS autogenEnabled
        autogenTLSAcmeEnabled servicePersistentPath servicePersistentName
        servicePersistentSize =
      serviceValuesOfType x buildValues composeService composeServiceValues
        debug lagoonOverrideName lagoonType dbaasEnvironment svcIsDBaaS autogenEnabled
        autogenTLSAcmeEnabled servicePersistentPath servicePersistentName
        servicePersistentSize := by
  unfold serviceValuesOfType
  simp only [cronjobsLoop_client, imageBuildOf_client]
  rfl

theorem getDBaasEnvironment_client (buildValues : BuildValues) (client : DBaaSClient)
    (dbaasEnvironment lagoonOverrideName lagoonType : String) (debug : Bool)
    (hagree : ∀ call ∈ (getDBaasEnvironment buildValues dbaasEnvironment lagoonOverrideName
      lagoonType debug).2, buildValues.DBaaSClient.outcome call = client.outcome call) :
    getDBaasEnvironment (withClient buildValues client) dbaasEnvironment lagoonOverrideName
        lagoonType debug =
      getDBaasEnvironment buildValues dbaasEnvironment lagoonOverrideName lagoonType debug := by
  unfold getDBaasEnvironment at hagree ⊢
  simp only [withClient] at hagree ⊢
  split
  · rfl
  · rename_i e he
    rw [he] at hagree
    simp only [] at hagree
    have hp : buildValues.DBaaSClient.CheckProvider buildValues.DBaaSOperatorEndpoint lagoonType
        e = client.CheckProvider buildValues.DBaaSOperatorEndpoint lagoonType e := by
      apply hagree (DBaaSCall.checkProvider buildValues.DBaaSOperatorEndpoint lagoonType e)
      split <;> simp
    rw [hp]

theorem dbaasChecks_client (buildValues : BuildValues) (client : DBaaSClient)
    (composeServiceValues : ServiceConfig) (lagoonOverrideName lagoonType : String)
    (debug : Bool)
    (hagree : ∀ call ∈ (dbaasChecks buildValues composeServiceValues lagoonOverrideName
      lagoonType debug).2, buildValues.DBaaSClient.outcome call = client.outcome call) :
    dbaasChecks (withClient buildValues client) composeServiceValues lagoonOverrideName
        lagoonType debug =
      dbaasChecks buildValues composeServiceValues lagoonOverrideName lagoonType debug := by
  unfold dbaasChecks at hagree ⊢
  simp only [] at hagree ⊢
  by_cases hdb : Contains supportedDBTypes lagoonType = true
  · rw [if_pos hdb] at hagree
    rw [if_pos hdb, if_pos hdb]
    rcases hs : strings_Split lagoonType "-dbaas" with _ | ⟨base, more⟩
    · rfl
    · rw [hs] at hagree
      simp only [] at hagree ⊢
      have hh : buildValues.DBaaSClient.CheckHealth buildValues.DBaaSOperatorEndpoint =
          client.CheckHealth buildValues.DBaaSOperatorEndpoint := by
        have := hagree (DBaaSCall.checkHealth buildValues.DBaaSOperatorEndpoint) (by
          rcases buildValues.DBaaSClient.CheckHealth buildValues.DBaaSOperatorEndpoint with _ | e
          · simp only []
            split <;> (try split) <;> simp
          · simp)
        exact congrArg Prod.snd this
      have hhc : (withClient buildValues client).DBaaSClient.CheckHealth
          (withClient buildValues client).DBaaSOperatorEndpoint =
          buildValues.DBaaSClient.CheckHealth buildValues.DBaaSOperatorEndpoint := hh.symm
      rw [hhc]
      rcases hH : buildValues.DBaaSClient.CheckHealth buildValues.DBaaSOperatorEndpoint with
        _ | e
      · rw [hH] at hagree
        simp only [] at hagree ⊢
        have hg := getDBaasEnvironment_client buildValues client
          (if CheckServiceLagoonLabel composeServiceValues.Labels
              ("lagoon." ++ base ++ "-dbaas.environment") ≠ "" then
            CheckServiceLagoonLabel composeServiceValues.Labels
              ("lagoon." ++ base ++ "-dbaas.environment")
           else buildValues.EnvironmentType) lagoonOverrideName base debug (by
            intro call hcall
            apply hagree call
            split <;> (try split) <;> simp_all)
        have he : (withClient buildValues client).EnvironmentType =
          buildValues.EnvironmentType := rfl
        rw [he, hg]
        rfl
      · rfl
  · rw [if_neg hdb, if_neg hdb]
    rfl
theorem resolveWithType_calls (x : Externals) (buildValues : BuildValues)
    (composeService : String) (composeServiceValues : ServiceConfig) (debug : Bool)
    (lagoonType : String) :
    (resolveWithType x buildValues composeService composeServiceValues debug lagoonType).2 =
      (dbaasChecks buildValues composeServiceValues
        (overrideNameOf composeService composeServiceValues) lagoonType debug).2 := by
  unfold resolveWithType
  rcases dbaasChecks buildValues composeServiceValues
    (overrideNameOf composeService composeServiceValues) lagoonType debug with
    ⟨_ | ⟨t, e, b⟩, calls⟩ <;> rfl

theorem composeToServiceValues_client (x : Externals) (buildValues : BuildValues)
    (client : DBaaSClient) (composeService : String) (composeServiceValues : ServiceConfig)
    (debug : Bool)
    (hagree : ∀ call ∈ (composeToServiceValues x buildValues composeService
      composeServiceValues debug).2, buildValues.DBaaSClient.outcome call = client.outcome call) :
    composeToServiceValues x (withClient buildValues client) composeService
        composeServiceValues debug =
      composeToServiceValues x buildValues composeService composeServiceValues debug := by
  by_cases hlabel : CheckServiceLagoonLabel composeServiceValues.Labels "lagoon.type" = ""
  · rw [composeToServiceValues_no_label _ _ _ _ _ hlabel,
      composeToServiceValues_no_label _ _ _ _ _ hlabel]
  · rw [composeToServiceValues_of_label _ _ _ _ _ hlabel] at hagree
    rw [composeToServiceValues_of_label _ _ _ _ _ hlabel,
      composeToServiceValues_of_label _ _ _ _ _ hlabel]
    have ht : typeAtNoneCheck (withClient buildValues client) composeService
        composeServiceValues = typeAtNoneCheck buildValues composeService
        composeServiceValues := rfl
    rw [ht]
    rcases hty : typeAtNoneCheck buildValues composeService composeServiceValues with _ | t
    · rfl
    · rw [hty] at hagree
      simp only [] at hagree ⊢
      by_cases hnone : t = "none"
      · rw [if_pos hnone, if_pos hnone]
      · rw [if_neg hnone] at hagree
        rw [if_neg hnone, if_neg hnone]
        rw [resolveWithType_calls] at hagree
        unfold resolveWithType
        rw [dbaasChecks_client _ _ _ _ _ _ hagree]
        simp only [serviceValuesOfType_client]
        rfl

theorem appendService_withClient (buildValues : BuildValues) (client : DBaaSClient)
    (cService : ServiceValues) :
    appendService (withClient buildValues client) cService =
      withClient (appendService buildValues cService) client := by
  unfold appendService
  simp only []
  split <;> rfl

theorem appendService_client (buildValues : BuildValues) (cService : ServiceValues) :
    (appendService buildValues cService).DBaaSClient = buildValues.DBaaSClient := by
  unfold appendService
  simp only []
  split <;> rfl

theorem foldl_appendService_client (resolvedServices : List ServiceValues)
    (buildValues : BuildValues) :
    (resolvedServices.foldl appendService buildValues).DBaaSClient =
      buildValues.DBaaSClient := by
  induction resolvedServices generalizing buildValues with
  | nil => rfl
  | cons sv rest ih => rw [List.foldl_cons, ih, appendService_client]

theorem composeServicesLoop_calls (x : Externals) (debug : Bool) (serviceName : String)
    (services : List ServiceConfig) (buildValues : BuildValues) (calls : List DBaaSCall) :
    ∀ call ∈ calls,
      call ∈ loopCalls (composeServicesLoop x debug serviceName services buildValues calls) := by
  induction services generalizing buildValues calls with
  | nil =>
    intro call hc
    unfold composeServicesLoop
    exact hc
  | cons c rest ih =>
    intro call hc
    unfold composeServicesLoop
    by_cases hn : serviceName = c.Name
    · rw [if_pos hn]
      rcases composeToServiceValues x buildValues c.Name c debug with ⟨⟨sv, _ | e⟩ | _, made⟩
      · exact ih _ _ call (List.mem_append_left _ hc)
      · exact List.mem_append_left _ hc
      · exact List.mem_append_left _ hc
    · rw [if_neg hn]
      exact ih _ _ call hc

theorem composeOrderLoop_calls (x : Externals) (debug : Bool) (services : List ServiceConfig)
    (order : List OriginalServiceOrder) (buildValues : BuildValues) (calls : List DBaaSCall) :
    ∀ call ∈ calls,
      call ∈ loopCalls (composeOrderLoop x debug services order buildValues calls) := by
  induction order generalizing buildValues calls with
  | nil =>
    intro call hc
    unfold composeOrderLoop
    exact hc
  | cons o rest ih =>
    intro call hc
    unfold composeOrderLoop
    have h1 := composeServicesLoop_calls x debug o.Name services buildValues calls call hc
    rcases hi : composeServicesLoop x debug o.Name services buildValues calls with
      r | ⟨bv1, calls1⟩
    · rw [hi] at h1
      exact h1
    · rw [hi] at h1
      exact ih _ _ call h1

theorem composeServicesLoop_client (x : Externals) (debug : Bool) (serviceName : String)
    (client : DBaaSClient) (services : List ServiceConfig) (buildValues : BuildValues)
    (calls : List DBaaSCall)
    (hagree : ∀ call ∈ loopCalls (composeServicesLoop x debug serviceName services buildValues
      calls), buildValues.DBaaSClient.outcome call = client.outcome call) :
    composeServicesLoop x debug serviceName services (withClient buildValues client) calls =
      loopWithClient client
        (composeServicesLoop x debug serviceName services buildValues calls) := by
  induction services generalizing buildValues calls with
  | nil =>
    unfold composeServicesLoop
    rfl
  | cons c rest ih =>
    unfold composeServicesLoop at hagree ⊢
    by_cases hn : serviceName = c.Name
    · rw [if_pos hn] at hagree
      rw [if_pos hn, if_pos hn]
      have hmade : ∀ call ∈ (composeToServiceValues x buildValues c.Name c debug).2,
          buildValues.DBaaSClient.outcome call = client.outcome call := by
        intro call hc
        apply hagree call
        rcases hr : composeToServiceValues x buildValues c.Name c debug with
          ⟨⟨sv, _ | e⟩ | _, made⟩
        · rw [hr] at hc
          exact composeServicesLoop_calls _ _ _ _ _ _ call (List.mem_append_right _ hc)
        · rw [hr] at hc
          exact List.mem_append_right _ hc
        · rw [hr] at hc
          exact List.mem_append_right _ hc
      rw [composeToServiceValues_client _ _ _ _ _ _ hmade]
      rcases hr : composeToServiceValues x buildValues c.Name c debug with
        ⟨⟨sv, _ | e⟩ | _, made⟩
      · rw [hr] at hagree
        simp only [] at hagree ⊢
        rw [appendService_withClient]
        apply ih
        rw [appendService_client]
        exact hagree
      · rfl
      · rfl
    · rw [if_neg hn] at hagree
      rw [if_neg hn, if_neg hn]
      exact ih _ _ hagree

theorem loopWithClient_client (client : DBaaSClient)
    (r : Except (Ret BuildValues × List DBaaSCall) (BuildValues × List DBaaSCall))
    (buildValues : BuildValues) (calls : List DBaaSCall) (h : r = .ok (buildValues, calls)) :
    loopWithClient client r = .ok (withClient buildValues client, calls) := by
  subst h
  rfl

theorem composeOrderLoop_client (x : Externals) (debug : Bool) (services : List ServiceConfig)
    (client : DBaaSClient) (order : List OriginalServiceOrder) (buildValues : BuildValues)
    (calls : List DBaaSCall)
    (hclient : ∀ call ∈ loopCalls (composeOrderLoop x debug services order buildValues calls),
      buildValues.DBaaSClient.outcome call = client.outcome call) :
    composeOrderLoop x debug services order (withClient buildValues client) calls =
      loopWithClient client (composeOrderLoop x debug services order buildValues calls) := by
  induction order generalizing buildValues calls with
  | nil =>
    unfold composeOrderLoop
    rfl
  | cons o rest ih =>
    unfold composeOrderLoop at hclient ⊢
    have hinner : ∀ call ∈ loopCalls (composeServicesLoop x debug o.Name services buildValues
        calls), buildValues.DBaaSClient.outcome call = client.outcome call := by
      intro call hc
      apply hclient call
      rcases hi : composeServicesLoop x debug o.Name services buildValues calls with
        r | ⟨bv1, calls1⟩
      · rw [hi] at hc
        exact hc
      · rw [hi] at hc
        exact composeOrderLoop_calls _ _ _ _ _ _ call hc
    rw [composeServicesLoop_client _ _ _ _ _ _ _ hinner]
    rcases hi : composeServicesLoop x debug o.Name services buildValues calls with
      r | ⟨bv1, calls1⟩
    · rfl
    · rw [hi] at hclient
      simp only [loopWithClient] at hclient ⊢
      obtain ⟨svs, _, hfin⟩ := composeServicesLoop_ok _ _ _ _ _ _ _ _ hi
      apply ih
      have hsame : bv1.DBaaSClient = buildValues.DBaaSClient := by
        rw [hfin, foldl_appendService_client]
      rw [hsame]
      exact hclient
theorem generateServicesFromDockerCompose_client (x : Externals) (buildValues : BuildValues)
    (client : DBaaSClient) (ignoreNonStringKeyErrors ignoreMissingEnvFiles debug : Bool)
    (hagree : ∀ call ∈ (generateServicesFromDockerCompose x buildValues
      ignoreNonStringKeyErrors ignoreMissingEnvFiles debug).2,
      buildValues.DBaaSClient.outcome call = client.outcome call) :
    generateServicesFromDockerCompose x (withClient buildValues client)
        ignoreNonStringKeyErrors ignoreMissingEnvFiles debug =
      (retWithClient client (generateServicesFromDockerCompose x buildValues
        ignoreNonStringKeyErrors ignoreMissingEnvFiles debug).1,
       (generateServicesFromDockerCompose x buildValues
        ignoreNonStringKeyErrors ignoreMissingEnvFiles debug).2) := by
  unfold generateServicesFromDockerCompose at hagree ⊢
  simp only [] at hagree ⊢
  have hp : x.UnmarshaDockerComposeYAML (withClient buildValues client).LagoonYAML.DockerComposeYAML
      ignoreNonStringKeyErrors ignoreMissingEnvFiles
      (composeVarsOf (withClient buildValues client).EnvironmentVariables) =
    x.UnmarshaDockerComposeYAML buildValues.LagoonYAML.DockerComposeYAML
      ignoreNonStringKeyErrors ignoreMissingEnvFiles
      (composeVarsOf buildValues.EnvironmentVariables) := rfl
  rw [hp]
  rcases hparse : x.UnmarshaDockerComposeYAML buildValues.LagoonYAML.DockerComposeYAML
      ignoreNonStringKeyErrors ignoreMissingEnvFiles
      (composeVarsOf buildValues.EnvironmentVariables) with err | ⟨lCompose, lComposeOrder⟩
  · rfl
  · rw [hparse] at hagree
    simp only [] at hagree ⊢
    have hloop := composeOrderLoop_client x debug lCompose client lComposeOrder
      { buildValues with Services := [] } [] (by
        intro call hc
        apply hagree call
        rcases hl : composeOrderLoop x debug lCompose lComposeOrder
          { buildValues with Services := [] } [] with r | ⟨bv1, calls1⟩
        · rw [hl] at hc; exact hc
        · rw [hl] at hc; exact hc)
    have hinit : ({ withClient buildValues client with Services := [] } : BuildValues) =
      withClient { buildValues with Services := [] } client := rfl
    rw [hinit, hloop]
    rcases composeOrderLoop x debug lCompose lComposeOrder
      { buildValues with Services := [] } [] with r | ⟨bv1, calls1⟩
    · rfl
    · rfl

/-- C29: two runs with the same inputs (compose records, manifest, variables
and build settings) and the same collaborators give the same result when the
second run has a Dockerfile existence check and an environment substitution
with the outcomes of the first, and a DBaaS client that gives, to every call
that the first run makes, the outcome that the client of the first run gives.
`composeToServiceValues` returns the same descriptor, the same error and makes
the same calls; `generateServicesFromDockerCompose` returns the same error,
leaves the same descriptors and the same `BackupsEnabled`, and makes the same
calls. -/
theorem resolution_is_deterministic (x : Externals) (buildValues : BuildValues)
    (statNotExist : String → Bool) (evalEnv : String → Except String String)
    (client : DBaaSClient) (composeService : String) (composeServiceValues : ServiceConfig)
    (ignoreNonStringKeyErrors ignoreMissingEnvFiles debug : Bool) :
    ((∀ path, statNotExist path = x.statNotExist path) →
     (∀ s, evalEnv s = x.EvalEnv s) →
     (∀ call ∈ (composeToServiceValues x buildValues composeService composeServiceValues
        debug).2, client.outcome call = buildValues.DBaaSClient.outcome call) →
      composeToServiceValues (withChecks x statNotExist evalEnv) (withClient buildValues client)
          composeService composeServiceValues debug =
        composeToServiceValues x buildValues composeService composeServiceValues debug) ∧
    ((∀ path, statNotExist path = x.statNotExist path) →
     (∀ s, evalEnv s = x.EvalEnv s) →
     (∀ call ∈ (generateServicesFromDockerCompose x buildValues ignoreNonStringKeyErrors
        ignoreMissingEnvFiles debug).2,
        client.outcome call = buildValues.DBaaSClient.outcome call) →
      (generateServicesFromDockerCompose (withChecks x statNotExist evalEnv)
          (withClient buildValues client) ignoreNonStringKeyErrors ignoreMissingEnvFiles
          debug).1.error =
        (generateServicesFromDockerCompose x buildValues ignoreNonStringKeyErrors
          ignoreMissingEnvFiles debug).1.error ∧
      (generateServicesFromDockerCompose (withChecks x statNotExist evalEnv)
          (withClient buildValues client) ignoreNonStringKeyErrors ignoreMissingEnvFiles
          debug).1.left.map (fun left => (left.Services, left.BackupsEnabled)) =
        (generateServicesFromDockerCompose x buildValues ignoreNonStringKeyErrors
          ignoreMissingEnvFiles debug).1.left.map
          (fun left => (left.Services, left.BackupsEnabled)) ∧
      (generateServicesFromDockerCompose (withChecks x statNotExist evalEnv)
          (withClient buildValues client) ignoreNonStringKeyErrors ignoreMissingEnvFiles
          debug).2 =
        (generateServicesFromDockerCompose x buildValues ignoreNonStringKeyErrors
          ignoreMissingEnvFiles debug).2) := by
  refine ⟨?_, ?_⟩
  · intro hstat heval hagree
    have h1 : statNotExist = x.statNotExist := funext hstat
    have h2 : evalEnv = x.EvalEnv := funext heval
    subst h1; subst h2
    have hx : withChecks x x.statNotExist x.EvalEnv = x := rfl
    rw [hx]
    exact composeToServiceValues_client _ _ _ _ _ _ (fun call hc => (hagree call hc).symm)
  · intro hstat heval hagree
    have h1 : statNotExist = x.statNotExist := funext hstat
    have h2 : evalEnv = x.EvalEnv := funext heval
    subst h1; subst h2
    have hx : withChecks x x.statNotExist x.EvalEnv = x := rfl
    rw [hx, generateServicesFromDockerCompose_client _ _ _ _ _ _
      (fun call hc => (hagree call hc).symm)]
    rcases (generateServicesFromDockerCompose x buildValues ignoreNonStringKeyErrors
      ignoreMissingEnvFiles debug).1 with ⟨left, _ | err⟩ | _
    · exact ⟨rfl, rfl, rfl⟩
    · exact ⟨rfl, rfl, rfl⟩
    · exact ⟨rfl, rfl, rfl⟩

/-- Witness of C29: the client of the example and a client that has a provider
for the environment "test" only differ, and agree on the two calls that the
resolution of the service mariadb makes. -/
theorem resolution_is_deterministic_witness :
    testProviderClient.outcome (.checkProvider "http://dbaas.example.com" "mariadb"
        "production") ≠
      dbaasBuildValues.DBaaSClient.outcome (.checkProvider "http://dbaas.example.com" "mariadb"
        "production") ∧
    composeToServiceValues
        (withChecks (exampleExternals [mariadbService, nodeService]) (fun _ => false)
          (fun s => .ok s))
        (withClient dbaasBuildValues testProviderClient) "mariadb" mariadbService false =
      composeToServiceValues (exampleExternals [mariadbService, nodeService]) dbaasBuildValues
        "mariadb" mariadbService false ∧
    (generateServicesFromDockerCompose
        (withChecks (exampleExternals [mariadbService, nodeService]) (fun _ => false)
          (fun s => .ok s))
        (withClient dbaasBuildValues testProviderClient) false false false).2 =
      (generateServicesFromDockerCompose (exampleExternals [mariadbService, nodeService])
        dbaasBuildValues false false false).2 :=
  ⟨by decide,
   (resolution_is_deterministic (exampleExternals [mariadbService, nodeService])
      dbaasBuildValues (fun _ => false) (fun s => .ok s) testProviderClient "mariadb"
      mariadbService false false false).1 (fun _ => rfl) (fun _ => rfl) (by decide),
   ((resolution_is_deterministic (exampleExternals [mariadbService, nodeService])
      dbaasBuildValues (fun _ => false) (fun s => .ok s) testProviderClient "mariadb"
      mariadbService false false false).2 (fun _ => rfl) (fun _ => rfl) (by decide)).2.2⟩

/-! ## `IdentifyServices` -/

theorem specKeepFirst_filter {α : Type} (key : α → String) (p : α → Bool)
    (hp : ∀ a b, key a = key b → p a = p b) (l : List α) :
    specKeepFirst key (l.filter p) = (specKeepFirst key l).filter p := by
  induction l with
  | nil => rfl
  | cons a rest ih =>
    by_cases ha : p a = true
    · rw [List.filter_cons_of_pos ha]
      simp only [specKeepFirst]
      rw [List.filter_cons_of_pos ha, ih, List.filter_filter, List.filter_filter]
      congr 1
      apply List.filter_congr
      intro b _
      exact Bool.and_comm _ _
    · rw [List.filter_cons_of_neg ha]
      simp only [specKeepFirst]
      rw [List.filter_cons_of_neg ha, ih, List.filter_filter]
      apply List.filter_congr
      intro b _
      by_cases hk : key b = key a
      · have hb : p b = false := by
          rw [hp b a hk]
          simpa using ha
        simp [hb]
      · simp [hk]

theorem foldl_appendIfMissing {α : Type} (key : α → String) (l acc : List α) :
    l.foldl (fun acc i => if acc.any (fun ele => key ele = key i) then acc else acc ++ [i])
        acc =
      acc ++ specKeepFirst key (l.filter (fun b => !acc.any (fun ele => key ele = key b))) := by
  induction l generalizing acc with
  | nil => simp [specKeepFirst]
  | cons a rest ih =>
    rw [List.foldl_cons]
    by_cases ha : acc.any (fun ele => key ele = key a) = true
    · rw [if_pos ha, ih, List.filter_cons_of_neg (by simp [ha])]
    · rw [if_neg ha, ih, List.filter_cons_of_pos (by simpa using ha)]
      simp only [specKeepFirst, List.append_assoc, List.singleton_append]
      congr 2
      rw [← specKeepFirst_filter key (fun b => decide (key b ≠ key a))
        (fun b c hbc => by simp [hbc]), List.filter_filter]
      congr 1
      apply List.filter_congr
      intro b _
      simp only [List.any_append, List.any_cons, List.any_nil, Bool.or_false, Bool.not_or]
      rw [Bool.and_comm]
      congr 1
      by_cases hk : key a = key b
      · simp [hk]
      · have hk2 : ¬ key b = key a := fun h => hk h.symm
        simp [hk, hk2]

theorem specKeepFirst_map_key {α : Type} (key : α → String) (l : List α) :
    (specKeepFirst key l).map key = specKeepFirst id (l.map key) := by
  induction l with
  | nil => rfl
  | cons a rest ih =>
    simp only [specKeepFirst, List.map_cons, id]
    rw [← ih, List.filter_map]
    rfl

theorem specKeepFirst_nodup (l : List String) : (specKeepFirst id l).Nodup := by
  induction l with
  | nil => exact List.nodup_nil
  | cons a rest ih =>
    simp only [specKeepFirst]
    refine List.nodup_cons.mpr ⟨?_, ih.filter _⟩
    simp

theorem mem_specKeepFirst (l : List String) (b : String) :
    b ∈ specKeepFirst id l ↔ b ∈ l := by
  induction l with
  | nil => simp [specKeepFirst]
  | cons a rest ih =>
    simp only [specKeepFirst, List.mem_cons, List.mem_filter, ih, id]
    by_cases hb : b = a
    · simp [hb]
    · simp [hb]

theorem specKeepFirst_find {α : Type} (key : α → String) (l : List α) (r : α)
    (h : r ∈ specKeepFirst key l) :
    l.find? (fun b => key b = key r) = some r := by
  induction l with
  | nil => simp [specKeepFirst] at h
  | cons a rest ih =>
    simp only [specKeepFirst, List.mem_cons, List.mem_filter] at h
    rcases h with h | ⟨h, hk⟩
    · subst h
      simp
    · have hk2 : ¬ key a = key r := by
        intro hh
        simp [hh] at hk
      rw [List.find?_cons_of_neg _ (by simpa using hk2)]
      exact ih h

theorem IdentifyServices_foldl (services : List ServiceValues)
    (acc : List String × List identifyServices) :
    services.foldl
        (fun acc service =>
          if service.Type_ ≠ "" then
            (helpers_AppendIfMissing acc.1 service.OverrideName,
             AppendIfMissing acc.2
               { Name := service.OverrideName, Type_ := service.Type_ })
          else acc) acc =
      (((services.filter (fun s => s.Type_ ≠ "")).map (fun s => s.OverrideName)).foldl
          helpers_AppendIfMissing acc.1,
       ((services.filter (fun s => s.Type_ ≠ "")).map
          (fun s => ({ Name := s.OverrideName, Type_ := s.Type_ } : identifyServices))).foldl
          AppendIfMissing acc.2) := by
  induction services generalizing acc with
  | nil => rfl
  | cons s rest ih =>
    rw [List.foldl_cons, ih]
    by_cases ht : s.Type_ = ""
    · rw [List.filter_cons_of_neg (by simpa using ht), if_neg (not_not.mpr ht)]
    · rw [List.filter_cons_of_pos (by simpa using ht), if_pos ht]
      rfl

theorem IdentifyServices_eq (services : List ServiceValues) :
    IdentifyServices services =
      (specKeepFirst id
        ((services.filter (fun s => s.Type_ ≠ "")).map (fun s => s.OverrideName)),
       specKeepFirst (fun r => r.Name)
        ((services.filter (fun s => s.Type_ ≠ "")).map
          (fun s => ({ Name := s.OverrideName, Type_ := s.Type_ } : identifyServices)))) := by
  unfold IdentifyServices
  rw [IdentifyServices_foldl]
  have h1 := foldl_appendIfMissing (fun s : String => s)
    ((services.filter (fun s => s.Type_ ≠ "")).map (fun s => s.OverrideName)) []
  have h2 := foldl_appendIfMissing (fun r : identifyServices => r.Name)
    ((services.filter (fun s => s.Type_ ≠ "")).map
      (fun s => ({ Name := s.OverrideName, Type_ := s.Type_ } : identifyServices))) []
  simp only [List.any_nil, Bool.not_false, List.filter_true, List.nil_append] at h1 h2
  refine Prod.ext ?_ ?_
  · exact h1
  · exact h2
/-- C30: `IdentifyServices` gives, for the services that have a type, taken
in their order, the list of their override names without its duplicates (the
first occurrence kept), and the list of their name and type records without
the records whose name was met before. The names of the records are the list
of names, so the two lists have the same length; no name is repeated; a name
is listed exactly when it is the override name of a service with a type; the
type of a record is the type of the first service with a type that has its
override name. A service without a type, as the descriptor of a service
resolved to "none" is, changes neither list. -/
theorem identify_services_keeps_first_of_each_name (services : List ServiceValues) :
    (IdentifyServices services).1 =
      specKeepFirst id
        ((services.filter (fun s => s.Type_ ≠ "")).map (fun s => s.OverrideName)) ∧
    (IdentifyServices services).2 =
      specKeepFirst (fun r => r.Name)
        ((services.filter (fun s => s.Type_ ≠ "")).map
          (fun s => ({ Name := s.OverrideName, Type_ := s.Type_ } : identifyServices))) ∧
    (IdentifyServices services).2.map (fun r => r.Name) = (IdentifyServices services).1 ∧
    (IdentifyServices services).2.length = (IdentifyServices services).1.length ∧
    (IdentifyServices services).1.Nodup ∧
    (∀ name, name ∈ (IdentifyServices services).1 ↔
      ∃ s ∈ services, s.Type_ ≠ "" ∧ s.OverrideName = name) ∧
    (∀ r ∈ (IdentifyServices services).2,
      ∃ s, (services.filter (fun s => s.Type_ ≠ "")).find?
          (fun s => s.OverrideName = r.Name) = some s ∧
        r.Type_ = s.Type_) ∧
    (∀ pre s post, services = pre ++ s :: post → s.Type_ = "" →
      IdentifyServices services = IdentifyServices (pre ++ post)) ∧
    (∀ (x : Externals) (buildValues : BuildValues) (composeService : String)
        (composeServiceValues : ServiceConfig) (debug : Bool) (sv : ServiceValues)
        (calls : List DBaaSCall),
      composeToServiceValues x buildValues composeService composeServiceValues debug =
        (.returned sv none, calls) →
      typeAtNoneCheck buildValues composeService composeServiceValues = some "none" →
      sv.Type_ = "") := by
  have hmap : (IdentifyServices services).2.map (fun r => r.Name) =
      (IdentifyServices services).1 := by
    rw [IdentifyServices_eq]
    simp only []
    rw [specKeepFirst_map_key, List.map_map]
    rfl
  refine ⟨?_, ?_, hmap, ?_, ?_, ?_, ?_, ?_, ?_⟩
  · rw [IdentifyServices_eq]
  · rw [IdentifyServices_eq]
  · rw [← hmap, List.length_map]
  · rw [IdentifyServices_eq]
    exact specKeepFirst_nodup _
  · intro name
    rw [IdentifyServices_eq]
    simp only []
    rw [mem_specKeepFirst]
    simp only [List.mem_map, List.mem_filter, decide_eq_true_eq]
    constructor
    · rintro ⟨s, ⟨hs, ht⟩, hn⟩
      exact ⟨s, hs, ht, hn⟩
    · rintro ⟨s, hs, ht, hn⟩
      exact ⟨s, ⟨hs, ht⟩, hn⟩
  · intro r hr
    rw [IdentifyServices_eq] at hr
    have hf := specKeepFirst_find _ _ _ hr
    rw [List.find?_map] at hf
    rcases hfind : (services.filter (fun s => s.Type_ ≠ "")).find?
        ((fun b : identifyServices => decide (b.Name = r.Name)) ∘
          (fun s => ({ Name := s.OverrideName, Type_ := s.Type_ } : identifyServices))) with
      _ | s
    · rw [hfind] at hf
      cases hf
    · rw [hfind] at hf
      simp only [Option.map_some', Option.some.injEq] at hf
      refine ⟨s, hfind, ?_⟩
      rw [← hf]
  · intro pre s post hsplit ht
    rw [IdentifyServices_eq, IdentifyServices_eq, hsplit]
    simp [List.filter_append, List.filter_cons, ht]
  · intro x buildValues composeService composeServiceValues debug sv calls h hnone
    obtain ⟨_, t, ht, h1 | ⟨hne, _⟩⟩ := composeToServiceValues_returned _ _ _ _ _ _ _ h
    · obtain ⟨_, hz, _⟩ := h1
      rw [hz]
    · rw [ht] at hnone
      exact absurd (Option.some.inj hnone) hne

/-- Evaluation for C30: of the services cli, nginx, php, mariadb and redis,
where nginx and php share the override name "nginx-php" and
`LAGOON_SERVICE_TYPES` holds `redis:none`, the names are cli, nginx-php and
mariadb, with one record each. -/
theorem identify_services_keeps_first_of_each_name_witness :
    (generateServicesFromDockerCompose (exampleExternals complexCompose)
      redisRemovedBuildValues false false false).1.value.map
      (fun buildValues =>
        ((IdentifyServices buildValues.Services).1,
         (IdentifyServices buildValues.Services).2.map (fun r => (r.Name, r.Type_)))) =
      some (["cli", "nginx-php", "mariadb"],
        [("cli", "cli-persistent"), ("nginx-php", "nginx-php-persistent"),
         ("mariadb", "mariadb-single")]) ∧
    (generateServicesFromDockerCompose (exampleExternals complexCompose)
      exampleBuildValues false false false).1.value.map
      (fun buildValues => (IdentifyServices buildValues.Services).1) =
      some ["cli", "nginx-php", "mariadb", "redis"] ∧
    (IdentifyServices [webServiceValues, {}, webServiceValues]).1.Nodup :=
  ⟨by decide, by decide,
    (identify_services_keeps_first_of_each_name [webServiceValues, {}, webServiceValues]).2.2.2.2.1⟩

/-! ## Route identification -/

theorem foldl_helpers_AppendIfMissing (l acc : List String) :
    l.foldl helpers_AppendIfMissing acc =
      acc ++ specKeepFirst id (l.filter (fun b => !acc.any (fun ele => ele = b))) :=
  foldl_appendIfMissing (fun s : String => s) l acc

theorem foldl_helpers_AppendIfMissing_nil (l : List String) :
    l.foldl helpers_AppendIfMissing [] = specKeepFirst id l := by
  rw [foldl_helpers_AppendIfMissing]
  simp

theorem specKeepFirst_isEmpty (l : List String) :
    (specKeepFirst id l).isEmpty = l.isEmpty := by
  cases l <;> rfl

theorem IdentifyPrimaryIngress_secondary (autogenerated declared : List String)
    (fallback : String) (h : autogenerated ++ declared ≠ []) :
    (IdentifyPrimaryIngress autogenerated declared fallback).2.1 =
      specKeepFirst id (autogenerated ++ declared) := by
  have hne : (autogenerated ++ declared).isEmpty = false := by
    cases hl : autogenerated ++ declared with
    | nil => exact absurd hl h
    | cons a rest => rfl
  show (if ((autogenerated ++ declared).foldl helpers_AppendIfMissing []).isEmpty then [fallback]
    else (autogenerated ++ declared).foldl helpers_AppendIfMissing []) = _
  rw [foldl_helpers_AppendIfMissing_nil, specKeepFirst_isEmpty, hne]
  rfl

theorem IdentifyPrimaryIngress_autogenerated (autogenerated declared : List String)
    (fallback : String) :
    (IdentifyPrimaryIngress autogenerated declared fallback).2.2 =
      specKeepFirst id autogenerated :=
  foldl_helpers_AppendIfMissing_nil _

theorem IdentifyPrimaryIngress_primary_mem (autogenerated declared : List String)
    (fallback : String) :
    (IdentifyPrimaryIngress autogenerated declared fallback).1 ∈
      (IdentifyPrimaryIngress autogenerated declared fallback).2.1 := by
  rcases declared with _ | ⟨d, ds⟩
  · rcases autogenerated with _ | ⟨a, as⟩
    · exact List.mem_singleton.mpr rfl
    · rw [IdentifyPrimaryIngress_secondary _ _ _ (by simp), mem_specKeepFirst]
      exact List.mem_append_left _ (List.mem_cons_self _ _)
  · rw [IdentifyPrimaryIngress_secondary _ _ _ (by simp), mem_specKeepFirst]
    exact List.mem_append_right _ (List.mem_cons_self _ _)

/-- The routes that the case test9 of `TestIdentifyRoute` expects are outside
the rule of the specification: no autogenerated routes, declared routes and
synthetic domain give them. The expected primary, the route of the active
role, would be the first declared route and so come before main.example.com in
`secondary`. -/
theorem test9_routes_outside_rule :
    ¬ ∃ autogenerated declared fallback,
      IdentifyPrimaryIngress autogenerated declared fallback = test9Expected := by
  rintro ⟨autogenerated, declared, fallback, h⟩
  have h1 : (IdentifyPrimaryIngress autogenerated declared fallback).1 =
      "https://active.example.com" := by rw [h]; rfl
  have h2 : (IdentifyPrimaryIngress autogenerated declared fallback).2.1 =
      ["https://node-example-project-main.example.com", "https://main.example.com",
        "https://active.example.com"] := by rw [h]; rfl
  have h3 : autogenerated.foldl helpers_AppendIfMissing [] =
      ["https://node-example-project-main.example.com"] := by
    have h3 : (IdentifyPrimaryIngress autogenerated declared fallback).2.2 =
      ["https://node-example-project-main.example.com"] := by rw [h]; rfl
    exact h3
  rcases declared with _ | ⟨d, ds⟩
  · rcases autogenerated with _ | ⟨a, as⟩
    · revert h3
      decide
    · rw [IdentifyPrimaryIngress_secondary _ _ _ (by simp), List.append_nil,
        ← foldl_helpers_AppendIfMissing_nil, h3] at h2
      revert h2
      decide
  · have hd : d = "https://active.example.com" := h1
    subst hd
    rw [IdentifyPrimaryIngress_secondary _ _ _ (by simp), ← foldl_helpers_AppendIfMissing_nil,
      List.foldl_append, h3, foldl_helpers_AppendIfMissing] at h2
    have hf : List.filter
        (fun b =>
          !(List.any ["https://node-example-project-main.example.com"] (fun ele => ele = b)))
        ("https://active.example.com" :: ds) =
        "https://active.example.com" :: List.filter
          (fun b =>
          !(List.any ["https://node-example-project-main.example.com"] (fun ele => ele = b)))
          ds :=
      List.filter_cons_of_pos (by decide)
    rw [hf] at h2
    simp only [specKeepFirst, List.cons_append, List.nil_append, List.cons.injEq] at h2
    exact absurd h2.2.1 (by decide)

/-- C31: `primary` is the first route that the manifest declares for the
environment when it declares one, whatever the autogenerated routes are, also
when there is none; with no declared route it is the first autogenerated
route; with no route at all it is the synthetic domain. It is one of the
domains of `secondary`. -/
theorem primary_route_priority (autogenerated declared : List String) (fallback : String) :
    (∀ route rest, declared = route :: rest →
      (IdentifyPrimaryIngress autogenerated declared fallback).1 = route) ∧
    (declared = [] → ∀ route rest, autogenerated = route :: rest →
      (IdentifyPrimaryIngress autogenerated declared fallback).1 = route) ∧
    (declared = [] → autogenerated = [] →
      (IdentifyPrimaryIngress autogenerated declared fallback).1 = fallback) ∧
    (IdentifyPrimaryIngress autogenerated declared fallback).1 ∈
      (IdentifyPrimaryIngress autogenerated declared fallback).2.1 := by
  refine ⟨?_, ?_, ?_, IdentifyPrimaryIngress_primary_mem _ _ _⟩
  · intro route rest h
    subst h
    rfl
  · intro hd route rest h
    subst hd; subst h
    rfl
  · intro hd ha
    subst hd; subst ha
    rfl

/-- Evaluation for C31: the routes that the cases test7 (two declared
routes), test13 (no autogenerated route) and test11 (no declared route) of
`TestIdentifyRoute` expect. -/
theorem primary_route_priority_witness :
    IdentifyPrimaryIngress ["https://node-example-project-tworoutes.example.com"]
      ["https://example.com", "https://www.example.com"] "" =
      ("https://example.com",
       ["https://node-example-project-tworoutes.example.com", "https://example.com",
        "https://www.example.com"],
       ["https://node-example-project-tworoutes.example.com"]) ∧
    (IdentifyPrimaryIngress [] ["https://example.com"] "").1 = "https://example.com" ∧
    IdentifyPrimaryIngress [] ["https://example.com"] "" =
      ("https://example.com", ["https://example.com"], []) ∧
    (IdentifyPrimaryIngress ["https://node-example-project-no-ingress.example.com"] []
      "").1 = "https://node-example-project-no-ingress.example.com" ∧
    IdentifyPrimaryIngress ["https://node-example-project-no-ingress.example.com"] [] "" =
      ("https://node-example-project-no-ingress.example.com",
       ["https://node-example-project-no-ingress.example.com"],
       ["https://node-example-project-no-ingress.example.com"]) :=
  ⟨by decide,
    (primary_route_priority [] ["https://example.com"] "").1 _ _ rfl,
    by decide,
    (primary_route_priority ["https://node-example-project-no-ingress.example.com"] []
      "").2.1 rfl _ _ rfl,
    by decide⟩

/-- Counterexample to C32: with no autogenerated route and no declared route
`secondary` is not the empty list of the routes: it holds the synthetic
domain, which is `primary`. -/
theorem no_route_secondary_is_fallback :
    IdentifyPrimaryIngress [] [] "https://example-project-main.example.com" =
      ("https://example-project-main.example.com",
       ["https://example-project-main.example.com"], []) ∧
    (IdentifyPrimaryIngress [] [] "https://example-project-main.example.com").2.1 ≠
      specKeepFirst id (([] : List String) ++ []) ∧
    "https://example-project-main.example.com" ∉ ([] : List String) ++ [] := by
  refine ⟨by decide, by decide, by decide⟩

/-- C32: when there is an autogenerated or a declared route, `secondary` is
the list of the autogenerated routes followed by the declared routes, in their
order, with each domain kept once, at its first occurrence: it holds exactly
the domains of the two lists, and it is the autogenerated list of the result
followed by the declared routes that are not autogenerated. When there is no
route at all, `secondary` holds the synthetic domain alone. In both cases
`secondary` has no repeated domain and holds `primary`. The autogenerated list
of the result is the autogenerated routes without repetition, and each of its
entries is in `secondary`. -/
theorem secondary_routes_keep_first_occurrence
    (autogenerated declared : List String) (fallback : String) :
    (autogenerated ++ declared ≠ [] →
      (IdentifyPrimaryIngress autogenerated declared fallback).2.1 =
        specKeepFirst id (autogenerated ++ declared) ∧
      (∀ domain,
        domain ∈ (IdentifyPrimaryIngress autogenerated declared fallback).2.1 ↔
          domain ∈ autogenerated ∨ domain ∈ declared) ∧
      (IdentifyPrimaryIngress autogenerated declared fallback).2.1 =
        (IdentifyPrimaryIngress autogenerated declared fallback).2.2 ++
          specKeepFirst id (declared.filter (fun domain => !autogenerated.contains domain))) ∧
    (autogenerated ++ declared = [] →
      (IdentifyPrimaryIngress autogenerated declared fallback).2.1 = [fallback]) ∧
    (IdentifyPrimaryIngress autogenerated declared fallback).2.1.Nodup ∧
    (IdentifyPrimaryIngress autogenerated declared fallback).1 ∈
      (IdentifyPrimaryIngress autogenerated declared fallback).2.1 ∧
    (IdentifyPrimaryIngress autogenerated declared fallback).2.2 =
      specKeepFirst id autogenerated ∧
    (IdentifyPrimaryIngress autogenerated declared fallback).2.2.Nodup ∧
    (∀ domain,
      domain ∈ (IdentifyPrimaryIngress autogenerated declared fallback).2.2 →
      domain ∈ autogenerated ∧
      domain ∈ (IdentifyPrimaryIngress autogenerated declared fallback).2.1) := by
  have haut := IdentifyPrimaryIngress_autogenerated autogenerated declared fallback
  have hempty : autogenerated ++ declared = [] →
      (IdentifyPrimaryIngress autogenerated declared fallback).2.1 = [fallback] := by
    intro h
    have ha : autogenerated = [] := (List.append_eq_nil.mp h).1
    have hd : declared = [] := (List.append_eq_nil.mp h).2
    subst ha; subst hd
    rfl
  refine ⟨?_, hempty, ?_, IdentifyPrimaryIngress_primary_mem _ _ _, haut, ?_, ?_⟩
  · intro h
    have hsec := IdentifyPrimaryIngress_secondary autogenerated declared fallback h
    refine ⟨hsec, ?_, ?_⟩
    · intro domain
      rw [hsec, mem_specKeepFirst]
      simp only [List.mem_append]
    · rw [hsec, haut, ← foldl_helpers_AppendIfMissing_nil, List.foldl_append,
        foldl_helpers_AppendIfMissing_nil, foldl_helpers_AppendIfMissing]
      congr 2
      apply List.filter_congr
      intro domain _
      congr 1
      rw [Bool.eq_iff_iff]
      simp only [List.any_eq_true, decide_eq_true_eq, List.contains_iff_exists_mem_beq,
        beq_iff_eq]
      constructor
      · rintro ⟨e, he, hed⟩
        exact ⟨e, (mem_specKeepFirst _ _).mp he, hed.symm⟩
      · rintro ⟨e, he, hed⟩
        exact ⟨e, (mem_specKeepFirst _ _).mpr he, hed.symm⟩
  · by_cases h : autogenerated ++ declared = []
    · rw [hempty h]
      exact List.nodup_singleton _
    · rw [IdentifyPrimaryIngress_secondary _ _ _ h]
      exact specKeepFirst_nodup _
  · rw [haut]
    exact specKeepFirst_nodup _
  · intro domain hd
    rw [haut, mem_specKeepFirst] at hd
    refine ⟨hd, ?_⟩
    have hne : autogenerated ++ declared ≠ [] := by
      intro h
      rw [(List.append_eq_nil.mp h).1] at hd
      cases hd
    rw [IdentifyPrimaryIngress_secondary _ _ _ hne, mem_specKeepFirst]
    exact List.mem_append_left _ hd

/-- Evaluation for C32: the routes that the case test18 of `TestIdentifyRoute`
expects, a declared route that is an autogenerated one too, and the rule
applied to the routes of the case test7. -/
theorem secondary_routes_keep_first_occurrence_witness :
    IdentifyPrimaryIngress ["https://nginx-example-project-main.example.com"]
      ["https://wild.example.com", "https://alt.example.com", "https://www.example.com",
        "https://en.example.com"] "" = test18Expected ∧
    (IdentifyPrimaryIngress ["https://a.example.com", "https://b.example.com"]
      ["https://c.example.com", "https://b.example.com", "https://c.example.com"] "").2.1 =
      ["https://a.example.com", "https://b.example.com", "https://c.example.com"] ∧
    (IdentifyPrimaryIngress ["https://node-example-project-tworoutes.example.com"]
      ["https://example.com", "https://www.example.com"] "").2.1 =
      specKeepFirst id (["https://node-example-project-tworoutes.example.com"] ++
        ["https://example.com", "https://www.example.com"]) ∧
    (IdentifyPrimaryIngress [] [] "https://example-project-main.example.com").2.1 =
      ["https://example-project-main.example.com"] :=
  ⟨by decide, by decide,
    ((secondary_routes_keep_first_occurrence
      ["https://node-example-project-tworoutes.example.com"]
      ["https://example.com", "https://www.example.com"] "").1 (by decide)).1,
    (secondary_routes_keep_first_occurrence [] []
      "https://example-project-main.example.com").2.1 rfl⟩

/-- Evaluation for C33: the cronjob "drush cron (hourly)" of the service cli
gets a native name that ends with a hyphen, and with the override name "CLI"
the native name has capital letters. -/
theorem native_cronjob_name_ends_with_hyphen :
    (composeToServiceValues (exampleExternals []) bracketCronjobBuildValues "cli" cliService
      false).1.value.map (fun sv => sv.NativeCronjobs.map (fun c => c.Name)) =
      some ["cronjob-cli-drush-cron-hourly-"] ∧
    ("cronjob-cli-drush-cron-hourly-".data.getLast? = some '-') ∧
    (composeToServiceValues (exampleExternals []) bracketCronjobBuildValues "cli"
      capitalNameService false).1.value.map (fun sv => sv.NativeCronjobs.map (fun c => c.Name)) =
      some ["cronjob-CLI-drush-cron-hourly-"] := by
  refine ⟨by decide, by decide, by decide⟩

/-! ## Cronjobs of a service -/

theorem cronjobsLoop_eq (x : Externals) (buildValues : BuildValues)
    (composeService lagoonOverrideName : String) (cronjobs inpod native : List Cronjob)
    (inpod2 native2 : List Cronjob)
    (h : cronjobsLoop x buildValues composeService lagoonOverrideName cronjobs inpod native =
      .ok (inpod2, native2)) :
    inpod2 = inpod ++ specInPodCronjobs x buildValues composeService cronjobs ∧
    native2 = native ++
      specNativeCronjobs x buildValues composeService lagoonOverrideName cronjobs ∧
    ∀ c ∈ cronjobs, c.Service = composeService →
      (∃ inPod, x.IsInPodCronjob c.Schedule = .ok inPod) ∧
      ∃ schedule, x.ConvertCrontab buildValues.Namespace c.Schedule = .ok schedule := by
  induction cronjobs generalizing inpod native with
  | nil =>
    unfold cronjobsLoop at h
    cases h
    simp [specInPodCronjobs, specNativeCronjobs]
  | cons d rest ih =>
    unfold cronjobsLoop at h
    by_cases hs : d.Service = composeService
    · rw [if_pos hs] at h
      rcases hi : x.IsInPodCronjob d.Schedule with e | b
      · rw [hi] at h; cases h
      · rw [hi] at h
        simp only [] at h
        rcases hc : x.ConvertCrontab buildValues.Namespace d.Schedule with e | s
        · rw [hc] at h; cases h
        · rw [hc] at h
          simp only [] at h
          have hin : cronjobInPod x d = b := by
            unfold cronjobInPod
            rw [hi]
          have hsch : cronjobSchedule x buildValues d = s := by
            unfold cronjobSchedule
            rw [hc]
          cases b with
          | true =>
            simp only [if_true] at h
            obtain ⟨h1, h2, h3⟩ := ih _ _ h
            refine ⟨?_, ?_, ?_⟩
            · rw [h1]
              simp [specInPodCronjobs, List.filter_cons, hs, hin, hsch]
            · rw [h2]
              simp [specNativeCronjobs, List.filter_cons, hs, hin]
            · intro c hcm hcs
              rcases List.mem_cons.mp hcm with hcd | hcr
              · subst hcd
                exact ⟨⟨_, hi⟩, ⟨_, hc⟩⟩
              · exact h3 c hcr hcs
          | false =>
            simp only [Bool.false_eq_true, if_false] at h
            obtain ⟨h1, h2, h3⟩ := ih _ _ h
            refine ⟨?_, ?_, ?_⟩
            · rw [h1]
              simp [specInPodCronjobs, List.filter_cons, hs, hin]
            · rw [h2]
              simp [specNativeCronjobs, List.filter_cons, hs, hin, hsch]
            · intro c hcm hcs
              rcases List.mem_cons.mp hcm with hcd | hcr
              · subst hcd
                exact ⟨⟨_, hi⟩, ⟨_, hc⟩⟩
              · exact h3 c hcr hcs
    · rw [if_neg hs] at h
      obtain ⟨h1, h2, h3⟩ := ih _ _ h
      refine ⟨?_, ?_, ?_⟩
      · rw [h1]
        simp [specInPodCronjobs, List.filter_cons, hs]
      · rw [h2]
        simp [specNativeCronjobs, List.filter_cons, hs]
      · intro c hcm hcs
        rcases List.mem_cons.mp hcm with hcd | hcr
        · subst hcd
          exact absurd hcs hs
        · exact h3 c hcr hcs

theorem cronjobsLoop_valid (x : Externals) (buildValues : BuildValues)
    (composeService lagoonOverrideName : String) (cronjobs inpod native : List Cronjob)
    (hvalid : ∀ c ∈ cronjobs, c.Service = composeService →
      (∃ inPod, x.IsInPodCronjob c.Schedule = .ok inPod) ∧
      ∃ schedule, x.ConvertCrontab buildValues.Namespace c.Schedule = .ok schedule) :
    ∃ r, cronjobsLoop x buildValues composeService lagoonOverrideName cronjobs inpod native =
      .ok r := by
  induction cronjobs generalizing inpod native with
  | nil =>
    unfold cronjobsLoop
    exact ⟨_, rfl⟩
  | cons d rest ih =>
    have hrest : ∀ c ∈ rest, c.Service = composeService →
        (∃ inPod, x.IsInPodCronjob c.Schedule = .ok inPod) ∧
        ∃ schedule, x.ConvertCrontab buildValues.Namespace c.Schedule = .ok schedule :=
      fun c hc => hvalid c (List.mem_cons_of_mem _ hc)
    unfold cronjobsLoop
    by_cases hs : d.Service = composeService
    · rw [if_pos hs]
      obtain ⟨⟨b, hb⟩, ⟨s, hsch⟩⟩ := hvalid d (List.mem_cons_self _ _) hs
      rw [hb]
      simp only []
      rw [hsch]
      simp only []
      cases b with
      | true =>
        simp only [if_true]
        exact ih _ _ hrest
      | false =>
        simp only [Bool.false_eq_true, if_false]
        exact ih _ _ hrest
    · rw [if_neg hs]
      exact ih _ _ hrest
theorem specCronjobs_length (x : Externals) (buildValues : BuildValues)
    (composeService lagoonOverrideName : String) (cronjobs : List Cronjob) :
    (specInPodCronjobs x buildValues composeService cronjobs).length +
      (specNativeCronjobs x buildValues composeService lagoonOverrideName cronjobs).length =
      (cronjobs.filter (fun c => c.Service = composeService)).length := by
  unfold specInPodCronjobs specNativeCronjobs
  simp only [List.length_map]
  induction cronjobs with
  | nil => rfl
  | cons d rest ih =>
    by_cases hs : d.Service = composeService
    · cases hb : cronjobInPod x d
      · rw [List.filter_cons_of_neg (by simp [hs, hb]), List.filter_cons_of_pos (by simp [hs, hb]),
          List.filter_cons_of_pos (by simp [hs])]
        simp only [List.length_cons]
        omega
      · rw [List.filter_cons_of_pos (by simp [hs, hb]), List.filter_cons_of_neg (by simp [hs, hb]),
          List.filter_cons_of_pos (by simp [hs])]
        simp only [List.length_cons]
        omega
    · rw [List.filter_cons_of_neg (by simp [hs]), List.filter_cons_of_neg (by simp [hs]),
        List.filter_cons_of_neg (by simp [hs])]
      exact ih

/-- C34: for a resolved service with cronjobs enabled, the in-pod list is the
declared cronjobs of the branch whose `Service` is the declared name of the
service and whose schedule runs in the pod, in their order, each with its
name, service and command and with the converted schedule; the native list is
the other cronjobs of that service, in their order, each with its service and
command, the converted schedule and the native name made from the override
name. The two lists have together one entry for each cronjob of the service,
the names of the branch are pairwise distinct and the schedules of the service
are valid. With cronjobs disabled both lists are empty. The cronjob step
gives the two lists whenever the schedules of the service are valid. -/
theorem cronjobs_of_a_service (x : Externals) (buildValues : BuildValues)
    (composeService : String) (composeServiceValues : ServiceConfig) (debug : Bool)
    (sv : ServiceValues) (calls : List DBaaSCall)
    (h : composeToServiceValues x buildValues composeService composeServiceValues debug =
      (.returned sv none, calls))
    (hresolved : typeAtNoneCheck buildValues composeService composeServiceValues ≠
      some "none") :
    (buildValues.CronjobsDisabled = false →
      sv.InPodCronjobs = specInPodCronjobs x buildValues composeService
        (buildValues.LagoonYAML.environment buildValues.Branch).Cronjobs ∧
      sv.NativeCronjobs = specNativeCronjobs x buildValues composeService sv.OverrideName
        (buildValues.LagoonYAML.environment buildValues.Branch).Cronjobs ∧
      sv.InPodCronjobs.length + sv.NativeCronjobs.length =
        ((buildValues.LagoonYAML.environment buildValues.Branch).Cronjobs.filter
          (fun c => c.Service = composeService)).length ∧
      sv.InPodCronjobs.map (fun c => (c.Name, c.Service, c.Command)) =
        (((buildValues.LagoonYAML.environment buildValues.Branch).Cronjobs.filter
          (fun c => c.Service = composeService ∧ cronjobInPod x c = true)).map
          (fun c => (c.Name, c.Service, c.Command))) ∧
      sv.NativeCronjobs.map (fun c => (c.Service, c.Command)) =
        (((buildValues.LagoonYAML.environment buildValues.Branch).Cronjobs.filter
          (fun c => c.Service = composeService ∧ cronjobInPod x c = false)).map
          (fun c => (c.Service, c.Command))) ∧
      (∀ c ∈ sv.InPodCronjobs ++ sv.NativeCronjobs, c.Service = composeService) ∧
      ∀ c ∈ (buildValues.LagoonYAML.environment buildValues.Branch).Cronjobs,
        c.Service = composeService →
        (∃ inPod, x.IsInPodCronjob c.Schedule = .ok inPod) ∧
        ∃ schedule, x.ConvertCrontab buildValues.Namespace c.Schedule = .ok schedule) ∧
    (buildValues.CronjobsDisabled = true → sv.InPodCronjobs = [] ∧ sv.NativeCronjobs = []) ∧
    (buildValues.LagoonYAML.environment buildValues.Branch).Cronjobs.Pairwise
      (fun a b => a.Name ≠ b.Name) ∧
    ∀ lagoonOverrideName,
      (∀ c ∈ (buildValues.LagoonYAML.environment buildValues.Branch).Cronjobs,
        c.Service = composeService →
        (∃ inPod, x.IsInPodCronjob c.Schedule = .ok inPod) ∧
        ∃ schedule, x.ConvertCrontab buildValues.Namespace c.Schedule = .ok schedule) →
      ∃ r, cronjobsOf x buildValues composeService lagoonOverrideName = .ok r := by
  obtain ⟨c, hports, _, _, _, _, _, hdup, hcron, _⟩ :=
    composeToServiceValues_stages _ _ _ _ _ _ _ h hresolved
  obtain ⟨_, _, _, _, _, hin, hnat, _⟩ := servicePorts_returned_rest _ _ _ _ _ hports
  obtain ⟨_, t, ht, h1 | ⟨_, _, _, _, _, _, hon, _⟩⟩ :=
    composeToServiceValues_returned _ _ _ _ _ _ _ h
  · rw [ht] at hresolved
    exact absurd (congrArg some h1.1) hresolved
  refine ⟨?_, ?_, ?_, ?_⟩
  · intro hen
    unfold cronjobsOf at hcron
    rw [if_pos (by simp [hen])] at hcron
    obtain ⟨e1, e2, e3⟩ := cronjobsLoop_eq _ _ _ _ _ _ _ _ _ hcron
    simp only [List.nil_append] at e1 e2
    have hi : sv.InPodCronjobs = specInPodCronjobs x buildValues composeService
        (buildValues.LagoonYAML.environment buildValues.Branch).Cronjobs := by rw [hin, e1]
    have hn : sv.NativeCronjobs = specNativeCronjobs x buildValues composeService
        sv.OverrideName (buildValues.LagoonYAML.environment buildValues.Branch).Cronjobs := by
      rw [hnat, e2, hon]
    refine ⟨hi, hn, ?_, ?_, ?_, ?_, e3⟩
    · rw [hi, hn]
      exact specCronjobs_length _ _ _ _ _
    · rw [hi]
      unfold specInPodCronjobs
      rw [List.map_map]
      rfl
    · rw [hn]
      unfold specNativeCronjobs
      rw [List.map_map]
      rfl
    · intro d hd
      rw [hi, hn] at hd
      unfold specInPodCronjobs specNativeCronjobs at hd
      simp only [List.mem_append, List.mem_map, List.mem_filter, decide_eq_true_eq] at hd
      rcases hd with ⟨a, ⟨_, ha, _⟩, rfl⟩ | ⟨a, ⟨_, ha, _⟩, rfl⟩
      · exact ha
      · exact ha
  · intro hdis
    unfold cronjobsOf at hcron
    rw [if_neg (by simp [hdis])] at hcron
    simp only [Except.ok.injEq, Prod.mk.injEq] at hcron
    exact ⟨by rw [hin, ← hcron.1], by rw [hnat, ← hcron.2]⟩
  · exact (duplicateCronjobs_eq_nil _).mp (by
      unfold checkDuplicateCronjobs at hdup
      simp only [] at hdup
      by_contra hne
      rw [if_pos hne] at hdup
      cases hdup)
  · intro lagoonOverrideName hvalid
    unfold cronjobsOf
    split
    · exact cronjobsLoop_valid _ _ _ _ _ _ _ hvalid
    · exact ⟨_, rfl⟩
/-- Witness of C34: of the four cronjobs of the branch, the service cli of
override name "php" gets the three whose service is cli, two in the pod and
one native, and not the one whose service is php. -/
theorem cronjobs_of_a_service_witness :
    ∃ sv calls,
      composeToServiceValues cronExternals mixedCronjobBuildValues "cli" phpNamedCliService
        false = (.returned sv none, calls) ∧
      sv.OverrideName = "php" ∧
      sv.InPodCronjobs.map (fun c => (c.Name, c.Service, c.Command)) =
        [("queue", "cli", "a"), ("mail", "cli", "d")] ∧
      sv.NativeCronjobs.map (fun c => (c.Name, c.Service, c.Command)) =
        [("cronjob-php-report", "cli", "c")] ∧
      sv.InPodCronjobs.length + sv.NativeCronjobs.length =
        ((mixedCronjobBuildValues.LagoonYAML.environment
          mixedCronjobBuildValues.Branch).Cronjobs.filter (fun c => c.Service = "cli")).length :=
  ⟨_, _, rfl, by decide, by decide, by decide,
    ((cronjobs_of_a_service cronExternals mixedCronjobBuildValues "cli" phpNamedCliService
      false _ _ rfl (by decide)).1 (by decide)).2.2.1⟩

/-! ## The state after a run -/

theorem cronjobsLoop_namespace (x : Externals) (buildValues1 buildValues2 : BuildValues)
    (hn : buildValues1.Namespace = buildValues2.Namespace)
    (composeService lagoonOverrideName : String) (cronjobs inpod native : List Cronjob) :
    cronjobsLoop x buildValues1 composeService lagoonOverrideName cronjobs inpod native =
      cronjobsLoop x buildValues2 composeService lagoonOverrideName cronjobs inpod native := by
  induction cronjobs generalizing inpod native with
  | nil => unfold cronjobsLoop; rfl
  | cons c rest ih =>
    unfold cronjobsLoop
    simp only [ih, hn]

theorem composeToServiceValues_withoutBackups (x : Externals) (buildValues : BuildValues)
    (composeService : String) (composeServiceValues : ServiceConfig) (debug : Bool) :
    composeToServiceValues x (withoutBackups buildValues) composeService composeServiceValues
        debug =
      composeToServiceValues x buildValues composeService composeServiceValues debug := by
  by_cases hlabel : CheckServiceLagoonLabel composeServiceValues.Labels "lagoon.type" = ""
  · rw [composeToServiceValues_no_label _ _ _ _ _ hlabel,
      composeToServiceValues_no_label _ _ _ _ _ hlabel]
  · rw [composeToServiceValues_of_label _ _ _ _ _ hlabel,
      composeToServiceValues_of_label _ _ _ _ _ hlabel]
    have ht : typeAtNoneCheck (withoutBackups buildValues) composeService
        composeServiceValues = typeAtNoneCheck buildValues composeService
        composeServiceValues := rfl
    rw [ht]
    rcases typeAtNoneCheck buildValues composeService composeServiceValues with _ | t
    · rfl
    · simp only []
      by_cases hnone : t = "none"
      · rw [if_pos hnone, if_pos hnone]
      · rw [if_neg hnone, if_neg hnone]
        unfold resolveWithType
        have hd : dbaasChecks (withoutBackups buildValues) composeServiceValues
            (overrideNameOf composeService composeServiceValues) t debug =
            dbaasChecks buildValues composeServiceValues
            (overrideNameOf composeService composeServiceValues) t debug := rfl
        rw [hd]
        have hs : ∀ a b c d e f g h i,
            serviceValuesOfType x (withoutBackups buildValues) composeService
              composeServiceValues debug a b c d e f g h i =
            serviceValuesOfType x buildValues composeService
              composeServiceValues debug a b c d e f g h i := by
          intro a b c d e f g h i
          unfold serviceValuesOfType
          simp only [cronjobsLoop_namespace x (withoutBackups buildValues) buildValues rfl]
          rfl
        simp only [hs]
        rfl

theorem withoutBackups_appendService (buildValues : BuildValues) (cService : ServiceValues) :
    withoutBackups (appendService buildValues cService) =
      withoutBackups (appendService (withoutBackups buildValues) cService) := by
  unfold appendService
  simp only []
  split <;> rfl

theorem composeServicesLoop_withoutBackups (x : Externals) (debug : Bool)
    (serviceName : String) (services : List ServiceConfig) (buildValues1 buildValues2 : BuildValues)
    (hsame : withoutBackups buildValues1 = withoutBackups buildValues2)
    (calls : List DBaaSCall) :
    loopWithoutBackups (composeServicesLoop x debug serviceName services buildValues1 calls) =
      loopWithoutBackups (composeServicesLoop x debug serviceName services buildValues2 calls) := by
  induction services generalizing buildValues1 buildValues2 calls with
  | nil =>
    unfold composeServicesLoop
    simp only [loopWithoutBackups, hsame]
  | cons c rest ih =>
    unfold composeServicesLoop
    by_cases hn : serviceName = c.Name
    · rw [if_pos hn, if_pos hn]
      have hc : composeToServiceValues x buildValues1 c.Name c debug =
          composeToServiceValues x buildValues2 c.Name c debug := by
        rw [← composeToServiceValues_withoutBackups x buildValues1,
          ← composeToServiceValues_withoutBackups x buildValues2, hsame]
      rw [hc]
      rcases composeToServiceValues x buildValues2 c.Name c debug with ⟨⟨sv, _ | e⟩ | _, made⟩
      · simp only []
        apply ih
        rw [withoutBackups_appendService buildValues1, withoutBackups_appendService buildValues2,
          hsame]
      · simp only [loopWithoutBackups, hsame]
      · rfl
    · rw [if_neg hn, if_neg hn]
      exact ih _ _ hsame _

theorem loopWithoutBackups_ok
    (r1 r2 : Except (Ret BuildValues × List DBaaSCall) (BuildValues × List DBaaSCall))
    (h : loopWithoutBackups r1 = loopWithoutBackups r2) :
    (∀ e, r1 = .error e → ∃ e2, r2 = .error e2 ∧
      loopWithoutBackups (.error e) = loopWithoutBackups (.error e2)) ∧
    (∀ b c, r1 = .ok (b, c) → ∃ b2, r2 = .ok (b2, c) ∧ withoutBackups b = withoutBackups b2) := by
  refine ⟨?_, ?_⟩
  · intro e he
    subst he
    rcases r2 with e2 | ⟨b2, c2⟩
    · exact ⟨e2, rfl, h⟩
    · rcases e with ⟨⟨b, err⟩ | _, c⟩ <;> simp [loopWithoutBackups] at h
  · intro b c hb
    subst hb
    rcases r2 with e2 | ⟨b2, c2⟩
    · rcases e2 with ⟨⟨b3, err⟩ | _, c3⟩ <;> simp [loopWithoutBackups] at h
    · simp only [loopWithoutBackups, Except.ok.injEq, Prod.mk.injEq] at h
      obtain ⟨h1, h2⟩ := h
      subst h2
      exact ⟨b2, rfl, h1⟩

theorem composeOrderLoop_withoutBackups (x : Externals) (debug : Bool)
    (services : List ServiceConfig) (order : List OriginalServiceOrder)
    (buildValues1 buildValues2 : BuildValues)
    (hsame : withoutBackups buildValues1 = withoutBackups buildValues2)
    (calls : List DBaaSCall) :
    loopWithoutBackups (composeOrderLoop x debug services order buildValues1 calls) =
      loopWithoutBackups (composeOrderLoop x debug services order buildValues2 calls) := by
  induction order generalizing buildValues1 buildValues2 calls with
  | nil =>
    unfold composeOrderLoop
    simp only [loopWithoutBackups, hsame]
  | cons o rest ih =>
    unfold composeOrderLoop
    have hinner := composeServicesLoop_withoutBackups x debug o.Name services buildValues1
      buildValues2 hsame calls
    obtain ⟨herr, hok⟩ := loopWithoutBackups_ok _ _ hinner
    rcases h1 : composeServicesLoop x debug o.Name services buildValues1 calls with
      e | ⟨b, c⟩
    · obtain ⟨e2, he2, hee⟩ := herr e h1
      rw [he2]
      exact hee
    · obtain ⟨b2, hb2, hbb⟩ := hok b c h1
      rw [hb2]
      exact ih _ _ hbb _
theorem generateServicesFromDockerCompose_withoutBackups (x : Externals)
    (buildValues1 buildValues2 : BuildValues)
    (hsame : withoutBackups { buildValues1 with Services := [] } =
      withoutBackups { buildValues2 with Services := [] })
    (ignoreNonStringKeyErrors ignoreMissingEnvFiles debug : Bool) :
    (generateServicesFromDockerCompose x buildValues1 ignoreNonStringKeyErrors
        ignoreMissingEnvFiles debug).1.error =
      (generateServicesFromDockerCompose x buildValues2 ignoreNonStringKeyErrors
        ignoreMissingEnvFiles debug).1.error ∧
    (generateServicesFromDockerCompose x buildValues1 ignoreNonStringKeyErrors
        ignoreMissingEnvFiles debug).1.value.map (fun left => left.Services) =
      (generateServicesFromDockerCompose x buildValues2 ignoreNonStringKeyErrors
        ignoreMissingEnvFiles debug).1.value.map (fun left => left.Services) ∧
    (generateServicesFromDockerCompose x buildValues1 ignoreNonStringKeyErrors
        ignoreMissingEnvFiles debug).2 =
      (generateServicesFromDockerCompose x buildValues2 ignoreNonStringKeyErrors
        ignoreMissingEnvFiles debug).2 := by
  have hyaml : buildValues1.LagoonYAML = buildValues2.LagoonYAML :=
    congrArg (fun b => b.LagoonYAML) hsame
  have henv : buildValues1.EnvironmentVariables = buildValues2.EnvironmentVariables :=
    congrArg (fun b => b.EnvironmentVariables) hsame
  have hparse : x.UnmarshaDockerComposeYAML buildValues1.LagoonYAML.DockerComposeYAML
      ignoreNonStringKeyErrors ignoreMissingEnvFiles
      (composeVarsOf buildValues1.EnvironmentVariables) =
    x.UnmarshaDockerComposeYAML buildValues2.LagoonYAML.DockerComposeYAML
      ignoreNonStringKeyErrors ignoreMissingEnvFiles
      (composeVarsOf buildValues2.EnvironmentVariables) := by rw [hyaml, henv]
  unfold generateServicesFromDockerCompose
  simp only []
  rw [hparse]
  rcases x.UnmarshaDockerComposeYAML buildValues2.LagoonYAML.DockerComposeYAML
      ignoreNonStringKeyErrors ignoreMissingEnvFiles
      (composeVarsOf buildValues2.EnvironmentVariables) with err | ⟨lCompose, lComposeOrder⟩
  · exact ⟨rfl, rfl, rfl⟩
  · simp only []
    have hloop := composeOrderLoop_withoutBackups x debug lCompose lComposeOrder _ _ hsame []
    obtain ⟨herr, hok⟩ := loopWithoutBackups_ok _ _ hloop
    rcases h1 : composeOrderLoop x debug lCompose lComposeOrder
      { buildValues1 with Services := [] } [] with e | ⟨b, c⟩
    · obtain ⟨e2, he2, hee⟩ := herr e h1
      rw [he2]
      simp only []
      rcases e with ⟨⟨b1, _ | err1⟩ | _, c1⟩ <;> rcases e2 with ⟨⟨b2, _ | err2⟩ | _, c2⟩ <;>
        simp only [loopWithoutBackups, Except.error.injEq, Prod.mk.injEq, Ret.returned.injEq,
          reduceCtorEq, false_and, and_false] at hee
      · obtain ⟨⟨hb, _⟩, hc⟩ := hee
        refine ⟨rfl, ?_, hc⟩
        simp only [Ret.value, Option.map_some', Option.some.injEq]
        exact congrArg (fun b => b.Services) hb
      · obtain ⟨⟨_, he⟩, hc⟩ := hee
        cases he
        exact ⟨rfl, rfl, hc⟩
      · exact ⟨rfl, rfl, hee.2⟩
    · obtain ⟨b2, hb2, hbb⟩ := hok b c h1
      rw [hb2]
      refine ⟨rfl, ?_, rfl⟩
      show some b.Services = some b2.Services
      exact congrArg some (congrArg (fun b => b.Services) hbb)

theorem foldl_appendService_backups (resolvedServices : List ServiceValues)
    (buildValues : BuildValues) :
    (resolvedServices.foldl appendService buildValues).BackupsEnabled =
      (buildValues.BackupsEnabled || resolvedServices.any (fun sv => sv.BackupsEnabled)) := by
  induction resolvedServices generalizing buildValues with
  | nil => simp
  | cons sv rest ih =>
    rw [List.foldl_cons, ih]
    unfold appendService
    simp only []
    cases hb : sv.BackupsEnabled <;> cases hv : buildValues.BackupsEnabled <;>
      simp [hb, hv]

theorem composeToServiceValues_backups (x : Externals) (buildValues : BuildValues)
    (composeService : String) (composeServiceValues : ServiceConfig) (debug : Bool)
    (sv : ServiceValues) (calls : List DBaaSCall)
    (h : composeToServiceValues x buildValues composeService composeServiceValues debug =
      (.returned sv none, calls)) :
    sv.BackupsEnabled = Contains typesWithBackups sv.Type_ := by
  by_cases hresolved : typeAtNoneCheck buildValues composeService composeServiceValues =
      some "none"
  · obtain ⟨_, t, ht, h1 | ⟨hne, _⟩⟩ := composeToServiceValues_returned _ _ _ _ _ _ _ h
    · obtain ⟨_, hz, _⟩ := h1
      subst hz
      decide
    · rw [ht] at hresolved
      exact absurd (Option.some.inj hresolved) hne
  · obtain ⟨c, hports, _, _, _, _, _, _, _, hb⟩ :=
      composeToServiceValues_stages _ _ _ _ _ _ _ h hresolved
    obtain ⟨_, _, _, _, _, _, _, hbk⟩ := servicePorts_returned_rest _ _ _ _ _ hports
    rw [hbk, hb]

theorem ResolvedInOrder.backups (x : Externals) (debug : Bool) (buildValues : BuildValues)
    (declared : List ServiceConfig) (resolvedServices : List ServiceValues)
    (h : ResolvedInOrder x debug buildValues declared resolvedServices) :
    ∀ sv ∈ resolvedServices, sv.BackupsEnabled = Contains typesWithBackups sv.Type_ := by
  induction h with
  | nil _ => simp
  | cons bv c sv made declared resolvedServices hc _ ih =>
    intro s hs
    rcases List.mem_cons.mp hs with hs | hs
    · subst hs
      exact composeToServiceValues_backups _ _ _ _ _ _ _ hc
    · exact ih s hs

theorem generateServicesFromDockerCompose_state (x : Externals) (buildValues : BuildValues)
    (ignoreNonStringKeyErrors ignoreMissingEnvFiles debug : Bool)
    (lCompose : List ServiceConfig) (lComposeOrder : List OriginalServiceOrder)
    (buildValues2 : BuildValues) (calls : List DBaaSCall)
    (hparse : x.UnmarshaDockerComposeYAML buildValues.LagoonYAML.DockerComposeYAML
      ignoreNonStringKeyErrors ignoreMissingEnvFiles
      (composeVarsOf buildValues.EnvironmentVariables) = .ok (lCompose, lComposeOrder))
    (h : generateServicesFromDockerCompose x buildValues ignoreNonStringKeyErrors
      ignoreMissingEnvFiles debug = (.returned buildValues2 none, calls)) :
    ∃ resolvedServices,
      ResolvedInOrder x debug { buildValues with Services := [] }
        (declaredServices lCompose lComposeOrder) resolvedServices ∧
      buildValues2 = resolvedServices.foldl appendService { buildValues with Services := [] } := by
  unfold generateServicesFromDockerCompose at h
  simp only [hparse] at h
  rcases ho : composeOrderLoop x debug lCompose lComposeOrder
    { buildValues with Services := [] } [] with r | ⟨bv1, calls1⟩
  · rw [ho] at h
    simp only [] at h
    have hv := composeOrderLoop_error _ _ _ _ _ _ _ ho
    rw [h] at hv
    cases hv
  · rw [ho] at h
    simp only [Prod.mk.injEq, Ret.returned.injEq, and_true] at h
    obtain ⟨svs, hres, hfin⟩ := composeOrderLoop_ok _ _ _ _ _ _ _ _ ho
    exact ⟨svs, hres, by rw [← h.1, hfin]⟩
/-- C35 as the code has it: after a run of `generateServicesFromDockerCompose`
without error, `buildValues.Services` holds the descriptors of the services of
this run, one for each declared service, and is the same whatever `Services`
and `BackupsEnabled` held before the call. `BackupsEnabled` is only turned on:
it is true after the run exactly when it was true before or a resolved service
has a type in `typesWithBackups`; when it was false before the call, it is
true exactly when a resolved service has such a type. -/
theorem successful_run_state (x : Externals) (buildValues : BuildValues)
    (ignoreNonStringKeyErrors ignoreMissingEnvFiles debug : Bool)
    (lCompose : List ServiceConfig) (lComposeOrder : List OriginalServiceOrder)
    (buildValues2 : BuildValues) (calls : List DBaaSCall)
    (hparse : x.UnmarshaDockerComposeYAML buildValues.LagoonYAML.DockerComposeYAML
      ignoreNonStringKeyErrors ignoreMissingEnvFiles
      (composeVarsOf buildValues.EnvironmentVariables) = .ok (lCompose, lComposeOrder))
    (h : generateServicesFromDockerCompose x buildValues ignoreNonStringKeyErrors
      ignoreMissingEnvFiles debug = (.returned buildValues2 none, calls)) :
    (∀ services backups,
      (generateServicesFromDockerCompose x
        { buildValues with Services := services, BackupsEnabled := backups }
        ignoreNonStringKeyErrors ignoreMissingEnvFiles debug).1.value.map
        (fun left => left.Services) = some buildValues2.Services) ∧
    ResolvedInOrder x debug { buildValues with Services := [] }
      (declaredServices lCompose lComposeOrder) buildValues2.Services ∧
    buildValues2.Services.length = (declaredServices lCompose lComposeOrder).length ∧
    buildValues2.BackupsEnabled =
      (buildValues.BackupsEnabled ||
        buildValues2.Services.any (fun sv => Contains typesWithBackups sv.Type_)) ∧
    (buildValues.BackupsEnabled = false →
      (buildValues2.BackupsEnabled = true ↔
        ∃ sv ∈ buildValues2.Services, Contains typesWithBackups sv.Type_ = true)) := by
  obtain ⟨svs, hres, hfin⟩ :=
    generateServicesFromDockerCompose_state _ _ _ _ _ _ _ _ _ hparse h
  have hsvs : buildValues2.Services = svs := by
    rw [hfin, foldl_appendService_services]
    rfl
  have hback : buildValues2.BackupsEnabled =
      (buildValues.BackupsEnabled ||
        buildValues2.Services.any (fun sv => Contains typesWithBackups sv.Type_)) := by
    rw [hsvs, hfin, foldl_appendService_backups]
    congr 1
    have hb := ResolvedInOrder.backups _ _ _ _ _ hres
    clear hres hfin hsvs
    induction svs with
    | nil => rfl
    | cons sv rest ih =>
      simp only [List.any_cons]
      rw [hb sv (List.mem_cons_self _ _), ih (fun s hs => hb s (List.mem_cons_of_mem _ hs))]
  refine ⟨?_, ?_, ?_, hback, ?_⟩
  · intro services backups
    have hg := (generateServicesFromDockerCompose_withoutBackups x
      { buildValues with Services := services, BackupsEnabled := backups } buildValues rfl
      ignoreNonStringKeyErrors ignoreMissingEnvFiles debug).2.1
    rw [hg, h]
    rfl
  · rw [hsvs]
    exact hres
  · rw [hsvs]
    exact ResolvedInOrder.length _ _ _ _ _ hres
  · intro hoff
    rw [hback, hoff]
    simp only [Bool.false_or, List.any_eq_true]

/-- Witness of C35 as the code has it: the run on the services mariadb and
node turns `BackupsEnabled` on. -/
theorem successful_run_state_witness :
    ∃ buildValues2 calls,
      generateServicesFromDockerCompose (exampleExternals [mariadbSingleService, nodeService])
        exampleBuildValues false false false = (.returned buildValues2 none, calls) ∧
      buildValues2.Services.map (fun sv => sv.Type_) = ["mariadb-single", "node"] ∧
      exampleBuildValues.BackupsEnabled = false ∧
      buildValues2.BackupsEnabled = true ∧
      buildValues2.BackupsEnabled =
        (exampleBuildValues.BackupsEnabled ||
          buildValues2.Services.any (fun sv => Contains typesWithBackups sv.Type_)) :=
  ⟨_, _, rfl, by decide, by decide, by decide,
    (successful_run_state (exampleExternals [mariadbSingleService, nodeService])
      exampleBuildValues false false false [mariadbSingleService, nodeService]
      [{ Name := "mariadb" }, { Name := "node" }] _ _ rfl rfl).2.2.2.1⟩

/-- Counterexample to C35: with build values in which `BackupsEnabled` is on
before the call, the run on the service node leaves it on, although node is
the only resolved service and its type is not in `typesWithBackups`; with
`BackupsEnabled` off before the call the same run leaves it off. `Services`
holds the descriptor of node in both runs, not the one that it held before. -/
theorem backups_flag_survives_the_run :
    (generateServicesFromDockerCompose (exampleExternals [nodeService]) usedBuildValues
      false false false).1.value.map
      (fun left => (left.BackupsEnabled, left.Services.map (fun sv => sv.Type_),
        left.Services.any (fun sv => Contains typesWithBackups sv.Type_))) =
      some (true, ["node"], false) ∧
    (generateServicesFromDockerCompose (exampleExternals [nodeService]) exampleBuildValues
      false false false).1.value.map
      (fun left => (left.BackupsEnabled, left.Services.map (fun sv => sv.Type_))) =
      some (false, ["node"]) ∧
    usedBuildValues.Services.map (fun sv => sv.Name) = ["web"] := by
  refine ⟨by decide, by decide, by decide⟩

/-! ## The missing type error -/

theorem imageBuildInformation_error_head (x : Externals) (buildValues : BuildValues)
    (composeService : String) (composeServiceValues : ServiceConfig) (err : String)
    (h : imageBuildInformation x buildValues composeService composeServiceValues =
      .error err) :
    err.data.head? = some 'd' ∨ err.data.head? = some 'e' := by
  by_cases hdocker : dockerfileOf buildValues composeService composeServiceValues = ""
  · by_cases himage : composeServiceValues.Image = ""
    · rw [imageBuildInformation_no_image _ _ _ _ hdocker himage] at h
      simp only [Except.error.injEq] at h
      subst h
      left
      exact head?_data_append _ _ _ (head?_data_append _ _ _ (by decide))
    · obtain ⟨base, _, _, _, _, _, hp⟩ := imageBuildInformation_pull x _ _ _ hdocker himage
      rw [hp] at h
      rcases hr : pullReferenceByPriority x buildValues composeService composeServiceValues with
        e | reference
      · rw [hr] at h
        simp only [Except.error.injEq] at h
        subst h
        right
        exact pullReferenceByPriority_error _ _ _ _ _ hr
      · rw [hr] at h
        cases h
  · left
    unfold dockerfileOf at hdocker
    unfold imageBuildInformation at h
    rcases hb : composeServiceValues.Build with _ | build
    · rw [hb] at hdocker h
      by_cases ho : ((buildValues.LagoonYAML.environment buildValues.Environment).override
          composeService).Build.Dockerfile = ""
      · simp [ho] at hdocker
      · simp only [ho, ne_eq, not_false_eq_true, if_true, if_false] at h
        repeat' (split at h)
        all_goals first
          | (cases h; done)
          | (simp only [Except.error.injEq] at h
             subst h
             exact head?_data_append _ _ _ (head?_data_append _ _ _
               (head?_data_append _ _ _ (head?_data_append _ _ _ (by decide)))))
    · rw [hb] at hdocker h
      by_cases ho : ((buildValues.LagoonYAML.environment buildValues.Environment).override
          composeService).Build.Dockerfile = ""
      · simp only [ho, ne_eq, not_true_eq_false, if_false] at hdocker h
        simp only [hdocker, if_false] at h
        repeat' (split at h)
        all_goals first
          | (cases h; done)
          | (simp only [Except.error.injEq] at h
             subst h
             exact head?_data_append _ _ _ (head?_data_append _ _ _
               (head?_data_append _ _ _ (head?_data_append _ _ _ (by decide)))))
      · simp only [ho, ne_eq, not_false_eq_true, if_true, if_false] at h
        repeat' (split at h)
        all_goals first
          | (cases h; done)
          | (simp only [Except.error.injEq] at h
             subst h
             exact head?_data_append _ _ _ (head?_data_append _ _ _
               (head?_data_append _ _ _ (head?_data_append _ _ _ (by decide)))))

theorem imageBuildOf_error_head (x : Externals) (buildValues : BuildValues)
    (composeService : String) (composeServiceValues : ServiceConfig) (err : String)
    (h : imageBuildOf x buildValues composeService composeServiceValues = .error err) :
    err.data.head? = some 'd' ∨ err.data.head? = some 'e' := by
  unfold imageBuildOf at h
  simp only [] at h
  by_cases hp : buildValues.BuildType = "promote"
  · simp only [hp, ne_eq, not_true_eq_false, if_false] at h
    cases h
  · rw [if_pos hp] at h
    rcases hi : imageBuildInformation x buildValues composeService composeServiceValues with
      e | imageBuild
    · rw [hi] at h
      simp only [Except.error.injEq] at h
      subst h
      exact imageBuildInformation_error_head _ _ _ _ _ hi
    · rw [hi] at h
      cases h

theorem cronjobsLoop_error_head (x : Externals) (buildValues : BuildValues)
    (composeService lagoonOverrideName : String) (cronjobs inpod native : List Cronjob)
    (err : String)
    (h : cronjobsLoop x buildValues composeService lagoonOverrideName cronjobs inpod native =
      .error err) :
    err.data.head? = some 'U' := by
  induction cronjobs generalizing inpod native with
  | nil =>
    unfold cronjobsLoop at h
    cases h
  | cons d rest ih =>
    unfold cronjobsLoop at h
    split at h
    · split at h
      · simp only [Except.error.injEq] at h
        subst h
        exact head?_data_append _ _ _ (head?_data_append _ _ _
          (head?_data_append _ _ _ (by decide)))
      · split at h
        · simp only [Except.error.injEq] at h
          subst h
          exact head?_data_append _ _ _ (head?_data_append _ _ _
            (head?_data_append _ _ _ (by decide)))
        · split at h
          · exact ih _ _ h
          · exact ih _ _ h
    · exact ih _ _ h
theorem serviceValuesOfType_error_head (x : Externals) (buildValues : BuildValues)
    (composeService : String) (composeServiceValues : ServiceConfig) (debug : Bool)
    (lagoonOverrideName lagoonType dbaasEnvironment : String) (svcIsDBaaS : Bool)
    (autogenEnabled autogenTLSAcmeEnabled : Bool)
    (servicePersistentPath servicePersistentName servicePersistentSize : String)
    (sv : ServiceValues) (err : String)
    (h : serviceValuesOfType x buildValues composeService composeServiceValues debug
      lagoonOverrideName lagoonType dbaasEnvironment svcIsDBaaS autogenEnabled
      autogenTLSAcmeEnabled servicePersistentPath servicePersistentName
      servicePersistentSize = .returned sv (some err)) :
    err.data.head? ≠ some 'N' := by
  unfold serviceValuesOfType at h
  simp only [] at h
  split at h
  · cases h
  · split at h
    · cases h
    · split at h
      · rename_i e hdup
        simp only [Ret.returned.injEq, Option.some.injEq] at h
        rw [← h.2]
        unfold checkDuplicateCronjobs at hdup
        simp only [] at hdup
        split at hdup
        · simp only [Option.some.injEq] at hdup
          rw [← hdup, head?_data_append _ _ 'd' (by decide)]
          decide
        · cases hdup
      · split at h
        · rename_i e hw
          simp only [Ret.returned.injEq, Option.some.injEq] at h
          rw [← h.2]
          split at hw
          · rw [cronjobsLoop_error_head _ _ _ _ _ _ _ _ hw]
            decide
          · cases hw
        · split at h
          · rename_i e hw
            simp only [Ret.returned.injEq, Option.some.injEq] at h
            rw [← h.2]
            split at hw
            · split at hw
              · simp only [Except.error.injEq] at hw
                rename_i e2 himg
                rw [← hw]
                rcases imageBuildOf_error_head _ _ _ _ _ himg with hh | hh <;>
                  (rw [hh]; decide)
              · cases hw
            · cases hw
          · rw [servicePorts_eq] at h
            split at h
            · cases h
            · split at h
              · simp only [Ret.returned.injEq, Option.some.injEq] at h
                rw [← h.2]
                rw [head?_data_append _ _ 'T' (head?_data_append _ _ _
                  (head?_data_append _ _ _ (head?_data_append _ _ _
                    (head?_data_append _ _ _ (head?_data_append _ _ _
                      (head?_data_append _ _ _ (by decide)))))))]
                decide
              · cases h
theorem composeToServiceValues_error_head (x : Externals) (buildValues : BuildValues)
    (composeService : String) (composeServiceValues : ServiceConfig) (debug : Bool)
    (hlabel : CheckServiceLagoonLabel composeServiceValues.Labels "lagoon.type" ≠ "")
    (sv : ServiceValues) (err : String) (calls : List DBaaSCall)
    (h : composeToServiceValues x buildValues composeService composeServiceValues debug =
      (.returned sv (some err), calls)) :
    err.data.head? ≠ some 'N' := by
  rw [composeToServiceValues_of_label _ _ _ _ _ hlabel] at h
  rcases ht : typeAtNoneCheck buildValues composeService composeServiceValues with _ | t
  · rw [ht] at h; cases h
  · rw [ht] at h
    simp only [] at h
    by_cases hn : t = "none"
    · simp only [hn, if_true] at h
      cases h
    · simp only [hn, if_false] at h
      unfold resolveWithType at h
      rcases hd : dbaasChecks buildValues composeServiceValues
        (overrideNameOf composeService composeServiceValues) t debug with ⟨r, made⟩
      rw [hd] at h
      rcases r with _ | ⟨finalType, dbaasEnvironment, svcIsDBaaS⟩
      · cases h
      · simp only [Prod.mk.injEq] at h
        exact serviceValuesOfType_error_head _ _ _ _ _ _ _ _ _ _ _ _ _ _ _ _ h.1

theorem checkServiceLagoonLabel_type_empty (composeServiceValues : ServiceConfig) :
    CheckServiceLagoonLabel composeServiceValues.Labels "lagoon.type" = "" ↔
      (composeServiceValues.Labels = none ∨
        ∃ labels, composeServiceValues.Labels = some labels ∧
          (labels.lookup "lagoon.type" = none ∨ labels.lookup "lagoon.type" = some "")) := by
  rcases composeServiceValues.Labels with _ | labels
  · exact ⟨fun _ => Or.inl rfl, fun _ => rfl⟩
  · unfold CheckServiceLagoonLabel
    simp only []
    rcases hk : labels.lookup "lagoon.type" with _ | v
    · refine ⟨fun _ => Or.inr ⟨labels, rfl, ?_⟩, fun _ => rfl⟩
      rw [hk]
      exact Or.inl rfl
    · constructor
      · intro hv
        refine Or.inr ⟨labels, rfl, ?_⟩
        rw [hk]
        exact Or.inr (congrArg some hv)
      · rintro (hnone | ⟨labels2, hsome, hlook⟩)
        · cases hnone
        · cases hsome
          rw [hk] at hlook
          rcases hlook with hlook | hlook
          · cases hlook
          · exact Option.some.inj hlook

/-- C36: `composeToServiceValues` returns the error of a missing type if and
only if the service has no labels, or labels without a `lagoon.type` or with
an empty one, whatever the build values are: a service without the label gets
the error with every manifest and every `LAGOON_SERVICE_TYPES`, without a call
on the DBaaS client, and a service with the label never gets it. -/
theorem missing_type_error_iff_no_type_label (x : Externals) (buildValues : BuildValues)
    (composeService : String) (composeServiceValues : ServiceConfig) (debug : Bool) :
    ((composeToServiceValues x buildValues composeService composeServiceValues
        debug).1.error = some (missingTypeError composeService) ↔
      (composeServiceValues.Labels = none ∨
        ∃ labels, composeServiceValues.Labels = some labels ∧
          (labels.lookup "lagoon.type" = none ∨ labels.lookup "lagoon.type" = some ""))) ∧
    ((composeServiceValues.Labels = none ∨
        ∃ labels, composeServiceValues.Labels = some labels ∧
          (labels.lookup "lagoon.type" = none ∨ labels.lookup "lagoon.type" = some "")) →
      ∀ otherValues : BuildValues,
        composeToServiceValues x otherValues composeService composeServiceValues debug =
          (.returned {} (some (missingTypeError composeService)), [])) ∧
    (CheckServiceLagoonLabel composeServiceValues.Labels "lagoon.type" ≠ "" →
      ∀ otherValues : BuildValues,
        (composeToServiceValues x otherValues composeService composeServiceValues
          debug).1.error ≠ some (missingTypeError composeService)) := by
  have hno : ∀ otherValues : BuildValues,
      CheckServiceLagoonLabel composeServiceValues.Labels "lagoon.type" = "" →
      composeToServiceValues x otherValues composeService composeServiceValues debug =
        (.returned {} (some (missingTypeError composeService)), []) := by
    intro otherValues hlabel
    rw [composeToServiceValues_no_label _ _ _ _ _ hlabel]
    rfl
  have hhead : (missingTypeError composeService).data.head? = some 'N' := by
    unfold missingTypeError
    exact head?_data_append _ _ _ (head?_data_append _ _ _
      (head?_data_append _ _ _ (head?_data_append _ _ _ (by decide))))
  have hyes : ∀ otherValues : BuildValues,
      CheckServiceLagoonLabel composeServiceValues.Labels "lagoon.type" ≠ "" →
      (composeToServiceValues x otherValues composeService composeServiceValues
        debug).1.error ≠ some (missingTypeError composeService) := by
    intro otherValues hlabel herr
    rcases hr : composeToServiceValues x otherValues composeService composeServiceValues
      debug with ⟨⟨sv, _ | e⟩ | _, calls⟩
    · rw [hr] at herr
      cases herr
    · rw [hr] at herr
      simp only [Ret.error, Option.some.injEq] at herr
      subst herr
      exact composeToServiceValues_error_head _ _ _ _ _ hlabel _ _ _ hr hhead
    · rw [hr] at herr
      cases herr
  refine ⟨⟨?_, ?_⟩, ?_, ?_⟩
  · intro herr
    by_contra hcond
    exact hyes buildValues
      (fun hl => hcond ((checkServiceLagoonLabel_type_empty _).mp hl)) herr
  · intro hcond
    rw [hno buildValues ((checkServiceLagoonLabel_type_empty _).mpr hcond)]
    rfl
  · intro hcond otherValues
    exact hno otherValues ((checkServiceLagoonLabel_type_empty _).mpr hcond)
  · intro hlabel otherValues
    exact hyes otherValues hlabel

/-- Evaluation for C36: the service without labels gets the error also when
the manifest and `LAGOON_SERVICE_TYPES` give a type for it, and the labelled
node service gets none. -/
theorem missing_type_error_iff_no_type_label_witness :
    composeToServiceValues (exampleExternals [])
      { overriddenBuildValues with
        LagoonYAML := { Environments := [("main", { Types := [("cli", "cli")] })] }
        ServiceTypeOverrides := some { Name := "LAGOON_SERVICE_TYPES", Value := "cli:cli" } }
      "cli" unlabelledService false =
      (.returned {} (some (missingTypeError "cli")), []) ∧
    (composeToServiceValues (exampleExternals []) exampleBuildValues "node" nodeService
      false).1.error = none :=
  ⟨(missing_type_error_iff_no_type_label (exampleExternals []) exampleBuildValues "cli"
      unlabelledService false).2.1 (Or.inl rfl) _, by decide⟩

/-! ## DBaaS services and images -/

theorem dbaasChecks_isDBaaS (buildValues : BuildValues) (composeServiceValues : ServiceConfig)
    (lagoonOverrideName lagoonType : String) (debug : Bool)
    (finalType dbaasEnvironment : String) (svcIsDBaaS : Bool) (calls : List DBaaSCall)
    (h : dbaasChecks buildValues composeServiceValues lagoonOverrideName lagoonType debug =
      (some (finalType, dbaasEnvironment, svcIsDBaaS), calls)) :
    svcIsDBaaS = true ↔ Contains ignoredImageTypes finalType = true := by
  by_cases hdb : Contains supportedDBTypes lagoonType = true
  · obtain ⟨rest, hs⟩ := strings_Split_dbaas lagoonType hdb
    have hsingle : Contains ignoredImageTypes (specBaseType lagoonType ++ "-single") = false := by
      rcases supportedDBTypes_cases lagoonType hdb with h | h | h | h | h | h <;> subst h <;>
        decide
    have hdbaas : Contains ignoredImageTypes (specBaseType lagoonType ++ "-dbaas") = true := by
      rcases supportedDBTypes_cases lagoonType hdb with h | h | h | h | h | h <;> subst h <;>
        decide
    unfold dbaasChecks at h
    simp only [hdb, if_true, hs] at h
    split at h
    · simp only [Prod.mk.injEq, Option.some.injEq] at h
      obtain ⟨⟨h1, _, h3⟩, _⟩ := h
      rw [← h1, ← h3, hsingle]
    · split at h
      · cases h
      · split at h
        · simp only [Prod.mk.injEq, Option.some.injEq] at h
          obtain ⟨⟨h1, _, h3⟩, _⟩ := h
          rw [← h1, ← h3, hdbaas]
        · simp only [Prod.mk.injEq, Option.some.injEq] at h
          obtain ⟨⟨h1, _, h3⟩, _⟩ := h
          rw [← h1, ← h3, hsingle]
  · have hnot : Contains ignoredImageTypes lagoonType = false := by
      cases hi : Contains ignoredImageTypes lagoonType
      · rfl
      · exfalso
        apply hdb
        have hc : lagoonType = "mariadb-dbaas" ∨ lagoonType = "postgres-dbaas" ∨
            lagoonType = "mongodb-dbaas" := by
          simpa [Contains, ignoredImageTypes] using hi
        rcases hc with h | h | h <;> subst h <;> decide
    unfold dbaasChecks at h
    simp only [hdb, if_false, Prod.mk.injEq, Option.some.injEq] at h
    obtain ⟨⟨h1, _, h3⟩, _⟩ := h
    rw [hnot]

/-- C37: for every descriptor with a type that `composeToServiceValues`
returns without error, `IsDBaaS` is true exactly when the type is one of
mariadb-dbaas, postgres-dbaas and mongodb-dbaas (the `ignoredImageTypes`), and
that is the case exactly when the descriptor has no image provenance
record. -/
theorem dbaas_services_have_no_image (x : Externals) (buildValues : BuildValues)
    (composeService : String) (composeServiceValues : ServiceConfig) (debug : Bool)
    (sv : ServiceValues) (calls : List DBaaSCall)
    (h : composeToServiceValues x buildValues composeService composeServiceValues debug =
      (.returned sv none, calls))
    (htype : sv.Type_ ≠ "") :
    (sv.IsDBaaS = true ↔ Contains ignoredImageTypes sv.Type_ = true) ∧
    (Contains ignoredImageTypes sv.Type_ = true ↔ sv.ImageBuild = none) ∧
    (sv.IsDBaaS = true ↔ sv.ImageBuild = none) ∧
    (Contains ignoredImageTypes sv.Type_ = true ↔
      sv.Type_ = "mariadb-dbaas" ∨ sv.Type_ = "postgres-dbaas" ∨
        sv.Type_ = "mongodb-dbaas") := by
  obtain ⟨_, t, ht, h1 | ⟨hne, ft, env, b, hd, _, _, hty, _, _, hdb, _⟩⟩ :=
    composeToServiceValues_returned _ _ _ _ _ _ _ h
  · obtain ⟨_, hz, _⟩ := h1
    subst hz
    exact absurd rfl htype
  · have hresolved : typeAtNoneCheck buildValues composeService composeServiceValues ≠
        some "none" := by
      rw [ht]
      exact fun hh => hne (Option.some.inj hh)
    obtain ⟨_, _, _, himg⟩ :=
      composeToServiceValues_returned_volume _ _ _ _ _ _ _ h hresolved
    have h1 : sv.IsDBaaS = true ↔ Contains ignoredImageTypes sv.Type_ = true := by
      rw [hdb, hty]
      exact dbaasChecks_isDBaaS _ _ _ _ _ _ _ _ _ hd
    have h2 : Contains ignoredImageTypes sv.Type_ = true ↔ sv.ImageBuild = none := by
      rcases himg with ⟨hc, hi⟩ | ⟨hc, imageBuild, _, hi⟩
      · exact ⟨fun _ => hi, fun _ => hc⟩
      · rw [hc, hi]
        exact ⟨fun hh => (by cases hh), fun hh => (by cases hh)⟩
    refine ⟨h1, h2, h1.trans h2, ?_⟩
    simp [Contains, ignoredImageTypes]

/-- Witness of C37: with a provider the service mariadb is a DBaaS service
without an image record, and without a reachable endpoint it is a mariadb-single
service with one. -/
theorem dbaas_services_have_no_image_witness :
    ∃ sv calls,
      composeToServiceValues (exampleExternals []) dbaasBuildValues "mariadb" mariadbService
        false = (.returned sv none, calls) ∧
      (sv.Type_, sv.IsDBaaS, sv.ImageBuild) = ("mariadb-dbaas", true, none) ∧
      (composeToServiceValues (exampleExternals []) exampleBuildValues "mariadb" mariadbService
        false).1.value.map (fun s => (s.Type_, s.IsDBaaS, s.ImageBuild.isSome)) =
        some ("mariadb-single", false, true) ∧
      (sv.IsDBaaS = true ↔ sv.ImageBuild = none) :=
  ⟨_, _, rfl, by decide, by decide,
    (dbaas_services_have_no_image (exampleExternals []) dbaasBuildValues "mariadb"
      mariadbService false _ _ rfl (by decide)).2.2.1⟩

/-! ## Entries without a colon, large ports and colliding names -/

/-- Evaluation for C38: an entry without a colon that is the override name of
the service in `LAGOON_SERVICE_TYPES` or in `LAGOON_DBAAS_ENVIRONMENT_TYPES`,
or the type of the service in the spot types list, makes
`composeToServiceValues` index the split entry out of range: it returns
neither a descriptor nor an error. -/
theorem entry_without_colon_panics :
    composeToServiceValues (exampleExternals []) bareTypesBuildValues "node" nodeService
      false = (.panicked, []) ∧
    composeToServiceValues (exampleExternals []) bareEnvironmentTypesBuildValues "mariadb"
      mariadbService false =
      (.panicked, [DBaaSCall.checkHealth "http://dbaas.example.com"]) ∧
    composeToServiceValues bareSpotExternals exampleBuildValues "node" nodeService false =
      (.panicked, []) ∧
    strings_Split "node" ":" = ["node"] := by
  refine ⟨by decide, by decide, by decide, by decide⟩

/-- Evaluation for C39: the label "2147483648" parses as the integer 2 to the
power 31 and gives the service port -2147483648, and the label "4294967376"
gives the service port 80; the label "8080" gives 8080. -/
theorem large_service_port_wraps_around :
    strconv_Atoi "2147483648" = .ok 2147483648 ∧
    (composeToServiceValues (exampleExternals []) exampleBuildValues "node" largePortService
      false).1.value.map (fun sv => sv.ServicePort) = some (-2147483648) ∧
    strconv_Atoi "4294967376" = .ok 4294967376 ∧
    (composeToServiceValues (exampleExternals []) exampleBuildValues "node" wrappedPortService
      false).1.value.map (fun sv => sv.ServicePort) = some 80 ∧
    (composeToServiceValues (exampleExternals []) exampleBuildValues "basic"
      composePortsService false).1.value.map (fun sv => sv.ServicePort) = some 8080 := by
  refine ⟨rfl, by decide, rfl, by decide, by decide⟩

/-- Evaluation for C40: the cronjobs "drush cron" and "Drush-Cron" of the
service cli have distinct names, so the duplicate check passes, and both get
the native name "cronjob-cli-drush-cron". -/
theorem distinct_cronjobs_get_the_same_native_name :
    checkDuplicateCronjobs (exampleExternals []).MarshalCronjobs
      (slugCollisionBuildValues.LagoonYAML.environment
        slugCollisionBuildValues.Branch).Cronjobs = none ∧
    (slugCollisionBuildValues.LagoonYAML.environment
      slugCollisionBuildValues.Branch).Cronjobs.map (fun c => c.Name) =
      ["drush cron", "Drush-Cron"] ∧
    (composeToServiceValues (exampleExternals []) slugCollisionBuildValues "cli" cliService
      false).1.value.map (fun sv => sv.NativeCronjobs.map (fun c => (c.Name, c.Command))) =
      some [("cronjob-cli-drush-cron", "drush cron"),
        ("cronjob-cli-drush-cron", "drush core-cron")] := by
  refine ⟨by decide, by decide, by decide⟩

end Generator
